import Mathlib

/-!
# os161_SHELL: process table, wait/exit rendezvous and blocking primitives

A shallow embedding of `kern/proc/proc.c`, `kern/syscall/proc_syscall.c`,
`kern/thread/synch.c` and, of `kern/syscall/file_syscalls.c`, the descriptor checks
and the calls sys_open, sys_close, sys_lseek and sys_dup2, followed by theorems about
the embedded code.

Conventions of the embedding

* The kernel is built with `OPT_WAITPID` and `OPT_FORK` on (the configuration the
  process code is written for).  The lock options `OPT_SYNCH_SEM` and
  `OPT_SYNCH_WCHAN` are parameters (`LockOpts`).
* A `struct proc *` is an address (`Nat`); `NULL` is `none`.  The records live in
  `Kernel.heap`; an address that `heap` maps to `none` is not allocated.
* A section between `spinlock_acquire` and `spinlock_release` is one atomic step.
* A semaphore pointer is an `Option` (NULL is `none`); a lock or condition variable
  handed to a call is a value, so the assertions `lock != NULL` and `cv != NULL` hold;
  the lock pointer stored in an open-file entry is an `Option` (`lock_acquire_ptr`).
* A call returns `Except Abort _`: `.ok` when the C function runs to its end,
  `.error` with the reason when it does not (see `Abort`).
* The C `int`s that index the table (`i`, `last_i`, `p_pid`) are never negative and
  are `Nat`; values that can be negative (`status`, a `pid` coming from a system
  call) are `Int`.
-/

namespace OS161

/-- Why a kernel call does not run to its normal end. -/
inductive Abort where
  /-- A call of panic was reached. -/
  | panic
  /-- A KASSERT failed. -/
  | kassert
  /-- A NULL pointer or a pointer to freed storage was dereferenced. -/
  | badptr
  /-- A loop never terminates. -/
  | diverge
  /-- The calling thread blocks in wchan_sleep: the call cannot go on in this state. -/
  | sleep
  deriving DecidableEq, Repr

/-- The constant MAX_PROC of proc.c. -/
def MAX_PROC : Nat := 100

/-- Number of values of the C type unsigned. -/
def UINT_RANGE : Nat := 4294967296

/-! ## Semaphores (synch.c) -/

/-- The struct semaphore: only sem_count carries state (the wait channel holds the
sleeping threads, which the embedding represents by the outcome `Abort.sleep`). -/
structure Semaphore where
  sem_count : Nat
  deriving DecidableEq, Repr

/-- Function sem_create: `alloc` tells whether the allocations succeed; NULL when not. -/
def sem_create (alloc : Bool) (initial_count : Nat) : Option Semaphore :=
  if alloc then some { sem_count := initial_count % UINT_RANGE } else none

/-- Function P, called by a thread whose t_in_interrupt flag is `in_interrupt`. -/
def P (in_interrupt : Bool) (sem : Option Semaphore) : Except Abort Semaphore :=
  match sem with
  | none => .error .kassert
  | some s =>
    if in_interrupt then .error .kassert
    else if s.sem_count = 0 then .error .sleep
    else .ok { sem_count := s.sem_count - 1 }

/-- Function V: the count is unsigned, so the increment wraps. -/
def V (sem : Option Semaphore) : Except Abort Semaphore :=
  match sem with
  | none => .error .kassert
  | some s =>
    let c := (s.sem_count + 1) % UINT_RANGE
    if 0 < c then .ok { sem_count := c } else .error .kassert

/-! ## Process records and the process table (proc.c) -/

/-- The struct proc, without the name and the spinlock. -/
structure Proc where
  p_numthreads : Nat
  p_addrspace : Option Nat
  p_cwd : Option Nat
  p_pid : Nat
  p_status : Int
  p_sem : Option Semaphore
  parent_pid : Nat
  child : List Nat
  deriving DecidableEq, Repr

/-- The static struct _processTable. -/
structure ProcessTable where
  active : Nat
  proc : Nat → Option Nat
  last_i : Nat

/-- A kernel thread, as far as this code reads it. -/
structure Thread where
  tid : Nat
  t_in_interrupt : Bool
  t_proc : Option Nat
  deriving DecidableEq, Repr

/-- The global state: allocated process records, the process table and kproc. -/
structure Kernel where
  heap : Nat → Option Proc
  processTable : ProcessTable
  kproc : Option Nat

/-- Write a pointer (or NULL) to one table slot. -/
def ProcessTable.setSlot (T : ProcessTable) (i : Nat) (v : Option Nat) : ProcessTable :=
  { T with proc := fun j => if j = i then v else T.proc j }

/-- Store a record at an address (also used for kmalloc of a record). -/
def Kernel.store (K : Kernel) (p : Nat) (r : Proc) : Kernel :=
  { K with heap := fun q => if q = p then some r else K.heap q }

/-- Function kfree on a process record. -/
def Kernel.free (K : Kernel) (p : Nat) : Kernel :=
  { K with heap := fun q => if q = p then none else K.heap q }

/-- The state before proc_bootstrap: static storage is zeroed, nothing is allocated. -/
def Kernel.boot : Kernel :=
  { heap := fun _ => none
    processTable := { active := 0, proc := fun _ => none, last_i := 0 }
    kproc := none }

/-- The step `i++; if (i > MAX_PROC) i = 1;` of the circular scan. -/
def wrap_next (i : Nat) : Nat :=
  if i + 1 > MAX_PROC then 1 else i + 1

/-- The while loop of proc_init_waitpid, started with loop variable `i`.
`some (some j)`: the loop left through `break` at the empty slot `j`;
`some none`: the loop condition `i != last_i` became false;
`none`: the loop is still running after `fuel` tests of its condition. -/
def scan (T : ProcessTable) : Nat → Nat → Option (Option Nat)
  | 0, _ => none
  | fuel + 1, i =>
    if i = T.last_i then some none
    else if T.proc i = none then some (some i)
    else scan T fuel (wrap_next i)

/-- The part of proc_init_waitpid that runs under the table spinlock.  The table is
not written before the loop ends and the loop variable comes back to its first value
after MAX_PROC steps, so a loop that is still running after MAX_PROC tests never ends
(`scan_none_forever`): that is the result `Abort.diverge`. -/
def proc_init_waitpid_locked (K : Kernel) (proc : Nat) : Except Abort Kernel :=
  match K.heap proc with
  | none => .error .badptr
  | some r =>
    let i := K.processTable.last_i + 1
    let i := if i > MAX_PROC then 1 else i
    match scan K.processTable MAX_PROC i with
    | none => .error .diverge
    | some none => .ok (K.store proc { r with p_pid := 0 })
    | some (some j) =>
      .ok ({ K with processTable :=
              { (K.processTable.setSlot j (some proc)) with last_i := j } }.store proc
            { r with p_pid := j })

/-- Function proc_init_waitpid; `sem_alloc` is whether sem_create gets its storage. -/
def proc_init_waitpid (K : Kernel) (proc : Nat) (sem_alloc : Bool) : Except Abort Kernel :=
  match proc_init_waitpid_locked K proc with
  | .error e => .error e
  | .ok K1 =>
    match K1.heap proc with
    | none => .error .badptr
    | some r1 =>
      if r1.p_pid = 0 then .error .panic
      else .ok (K1.store proc { r1 with p_status := 0, p_sem := sem_create sem_alloc 0 })

/-- Function proc_end_waitpid.  The semaphore is destroyed by sem_destroy, which
asserts that the pointer is not NULL; the record, freed by the caller right after,
is left without a semaphore. -/
def proc_end_waitpid (K : Kernel) (proc : Nat) : Except Abort Kernel :=
  match K.heap proc with
  | none => .error .badptr
  | some r =>
    let i := r.p_pid
    if 0 < i ∧ i ≤ MAX_PROC then
      let K1 : Kernel := { K with processTable := K.processTable.setSlot i none }
      match r.p_sem with
      | none => .error .kassert
      | some _ => .ok (K1.store proc { r with p_sem := none })
    else .error .kassert

/-- The result of proc_search_pid is a pointer; the code reads `p->p_pid` before it
returns, so a NULL or dangling table entry stops the call with `Abort.badptr`. -/
def proc_search_pid (K : Kernel) (pid : Int) : Except Abort (Option Nat) :=
  if 0 ≤ pid ∧ pid ≤ (MAX_PROC : Int) then
    match K.processTable.proc pid.toNat with
    | none => .error .badptr
    | some p =>
      match K.heap p with
      | none => .error .badptr
      | some r => if (r.p_pid : Int) = pid then .ok (some p) else .error .kassert
  else .error .kassert

/-- What the allocator answers during one proc_create: the address of the storage for
the record (NULL when kmalloc fails) with its uninitialised contents, whether kstrdup
of the name succeeds, and whether sem_create gets its storage. -/
structure Alloc where
  proc : Option Nat
  junk : Proc
  name : Bool
  sem : Bool

/-- Function proc_create.  The result pairs the new state with the returned pointer. -/
def proc_create (K : Kernel) (a : Alloc) : Except Abort (Kernel × Option Nat) :=
  match a.proc with
  | none => .ok (K, none)
  | some p =>
    if a.name then
      let K1 := K.store p { a.junk with p_numthreads := 0, p_addrspace := none, p_cwd := none }
      match proc_init_waitpid K1 p a.sem with
      | .error e => .error e
      | .ok K2 =>
        match K2.heap p with
        | none => .error .badptr
        | some r => .ok (K2.store p { r with parent_pid := 1, child := [] }, some p)
    else .ok (K, none)

/-- The loop of proc_destroy over the child list: every child is looked up and given
parent_pid 1. -/
def proc_destroy_children (K : Kernel) : List Nat → Except Abort Kernel
  | [] => .ok K
  | c :: rest =>
    match proc_search_pid K (c : Int) with
    | .error e => .error e
    | .ok none => .error .badptr
    | .ok (some q) =>
      match K.heap q with
      | none => .error .badptr
      | some rq => proc_destroy_children (K.store q { rq with parent_pid := 1 }) rest

/-- Function proc_destroy.  Both branches of the address-space code leave
p_addrspace NULL and destroy the address space, whether or not proc is curproc. -/
def proc_destroy (K : Kernel) (proc : Option Nat) : Except Abort Kernel :=
  match proc with
  | none => .error .kassert
  | some p =>
    if proc = K.kproc then .error .kassert
    else
      match K.heap p with
      | none => .error .badptr
      | some r =>
        let r1 := { r with p_cwd := none, p_addrspace := none }
        if r1.p_numthreads = 0 then
          match proc_end_waitpid (K.store p r1) p with
          | .error e => .error e
          | .ok K2 =>
            match proc_destroy_children K2 r1.child with
            | .error e => .error e
            | .ok K3 => .ok (K3.free p)
        else .error .kassert

/-- Function proc_bootstrap. -/
def proc_bootstrap (K : Kernel) (a : Alloc) : Except Abort Kernel :=
  match proc_create K a with
  | .error e => .error e
  | .ok (_, none) => .error .panic
  | .ok (K1, some p) =>
    .ok { K1 with kproc := some p, processTable := { K1.processTable with active := 1 } }

/-- Function proc_addthread; the result pairs the state with the updated thread. -/
def proc_addthread (K : Kernel) (proc : Nat) (t : Thread) : Except Abort (Kernel × Thread) :=
  if t.t_proc = none then
    match K.heap proc with
    | none => .error .badptr
    | some r =>
      .ok (K.store proc { r with p_numthreads := r.p_numthreads + 1 },
           { t with t_proc := some proc })
  else .error .kassert

/-- Function proc_remthread. -/
def proc_remthread (K : Kernel) (t : Thread) : Except Abort (Kernel × Thread) :=
  match t.t_proc with
  | none => .error .kassert
  | some proc =>
    match K.heap proc with
    | none => .error .badptr
    | some r =>
      if 0 < r.p_numthreads then
        .ok (K.store proc { r with p_numthreads := r.p_numthreads - 1 },
             { t with t_proc := none })
      else .error .kassert

/-- The list walk of remove_child: the first node whose pid matches is unlinked. -/
def remove_child_list (pid : Nat) : List Nat → List Nat
  | [] => []
  | c :: rest => if c = pid then rest else c :: remove_child_list pid rest

/-- Function remove_child. -/
def remove_child (K : Kernel) (parent : Option Nat) (pid : Nat) : Except Abort Kernel :=
  match parent with
  | none => .error .badptr
  | some q =>
    match K.heap q with
    | none => .error .badptr
    | some rq => .ok (K.store q { rq with child := remove_child_list pid rq.child })

/-- Function proc_wait, called by thread `cur`; the result pairs the state with the
returned status. -/
def proc_wait (K : Kernel) (cur : Thread) (proc : Option Nat) : Except Abort (Kernel × Int) :=
  match proc with
  | none => .error .kassert
  | some p =>
    if proc = K.kproc then .error .kassert
    else
      match K.heap p with
      | none => .error .badptr
      | some r =>
        match P cur.t_in_interrupt r.p_sem with
        | .error e => .error e
        | .ok s =>
          let return_status := r.p_status
          match proc_destroy (K.store p { r with p_sem := some s }) proc with
          | .error e => .error e
          | .ok K' => .ok (K', return_status)

/-- The first part of proc_wait, up to the read of p_status: the two assertions, the P
on the semaphore of the process and the read.  The result pairs the state with
return_status. -/
def proc_wait_P (K : Kernel) (cur : Thread) (proc : Option Nat) : Except Abort (Kernel × Int) :=
  match proc with
  | none => .error .kassert
  | some p =>
    if proc = K.kproc then .error .kassert
    else
      match K.heap p with
      | none => .error .badptr
      | some r =>
        match P cur.t_in_interrupt r.p_sem with
        | .error e => .error e
        | .ok s => .ok (K.store p { r with p_sem := some s }, r.p_status)

/-- The first part of sys__exit, called by thread `cur`, up to and including
`V(p->p_sem)`.  The result pairs the state with the local variable `p`. -/
def sys__exit_head (K : Kernel) (cur : Thread) (status : Int) : Except Abort (Kernel × Nat) :=
  match cur.t_proc with
  | none => .error .badptr
  | some p =>
    match K.heap p with
    | none => .error .badptr
    | some r =>
      match proc_remthread (K.store p { r with p_status := Int.land status 0xff }) cur with
      | .error e => .error e
      | .ok (K2, _) =>
        match K2.heap p with
        | none => .error .badptr
        | some r2 =>
          match V r2.p_sem with
          | .error e => .error e
          | .ok s => .ok (K2.store p { r2 with p_sem := some s }, p)

/-- The rest of sys__exit: the line
`remove_child(proc_search_pid(p->parent_pid), p->p_pid)`, with the local variable `p`,
run in the state the thread finds when it goes on.  No lock is held from V to this
line, so that state need not be the one the first part left: the semaphore is raised
and a thread in proc_wait may have run in between. -/
def sys__exit_tail (K : Kernel) (p : Nat) : Except Abort Kernel :=
  match K.heap p with
  | none => .error .badptr
  | some r =>
    match proc_search_pid K (r.parent_pid : Int) with
    | .error e => .error e
    | .ok parent => remove_child K parent r.p_pid

/-- Function sys__exit, called by thread `cur` (curproc is `cur.t_proc`), run without
another thread in between: `sys__exit_head` and then `sys__exit_tail` in the state it
left (`sys__exit_parts`).  The call ends in thread_exit; the result is the state the
exiting thread leaves behind. -/
def sys__exit (K : Kernel) (cur : Thread) (status : Int) : Except Abort Kernel :=
  match cur.t_proc with
  | none => .error .badptr
  | some p =>
    match K.heap p with
    | none => .error .badptr
    | some r =>
      match proc_remthread (K.store p { r with p_status := Int.land status 0xff }) cur with
      | .error e => .error e
      | .ok (K2, _) =>
        match K2.heap p with
        | none => .error .badptr
        | some r2 =>
          match V r2.p_sem with
          | .error e => .error e
          | .ok s =>
            let K3 := K2.store p { r2 with p_sem := some s }
            match proc_search_pid K3 (r2.parent_pid : Int) with
            | .error e => .error e
            | .ok parent => remove_child K3 parent r2.p_pid

/-- Function sys_waitpid.  `statusp` tells whether the status pointer is not NULL; the
result holds the state, the return value and the value written through statusp. -/
def sys_waitpid (K : Kernel) (cur : Thread) (pid : Int) (statusp : Bool) (_options : Int) :
    Except Abort (Kernel × Int × Option Int) :=
  match proc_search_pid K pid with
  | .error e => .error e
  | .ok none => .ok (K, -1, none)
  | .ok (some p) =>
    match proc_wait K cur (some p) with
    | .error e => .error e
    | .ok (K', s) => .ok (K', pid, if statusp then some s else none)

/-- Function sys_getpid. -/
def sys_getpid (K : Kernel) (cur : Thread) : Except Abort Nat :=
  match cur.t_proc with
  | none => .error .kassert
  | some p =>
    match K.heap p with
    | none => .error .badptr
    | some r => .ok r.p_pid

/-! ## Specification-side definitions for the process table -/

/-- The slots the scan passes, in circular order, after starting at `start` and
before it reaches `j`. -/
def scanned_before (start k j : Nat) : Prop :=
  (start ≤ j ∧ start ≤ k ∧ k < j) ∨
  (j < start ∧ ((start ≤ k ∧ k ≤ MAX_PROC) ∨ (1 ≤ k ∧ k < j)))

/-- The first value of the loop variable: `last_i + 1`, wrapped. -/
def scan_start (T : ProcessTable) : Nat :=
  if T.last_i + 1 > MAX_PROC then 1 else T.last_i + 1


/-- Process-table states reachable from the zeroed table.  A registration runs
proc_init_waitpid on freshly allocated storage (its only call site is proc_create,
right after kmalloc) and is a state only when it does not stop the kernel; a
deregistration runs proc_end_waitpid on a record and frees it (its only call site is
proc_destroy, which ends in kfree of the record). -/
inductive TableReachable : Kernel → Prop
  | boot : TableReachable Kernel.boot
  | register (K K' : Kernel) (p : Nat) (junk : Proc) (sem_alloc : Bool) :
      TableReachable K → K.heap p = none →
      proc_init_waitpid (K.store p junk) p sem_alloc = .ok K' → TableReachable K'
  | deregister (K K' : Kernel) (p : Nat) :
      TableReachable K → proc_end_waitpid K p = .ok K' → TableReachable (K'.free p)

/-- The process-table invariant: slot 0 is empty, every occupied slot is in 1..MAX_PROC
and holds a live record whose p_pid is the slot index, every live record sits in slot
p_pid, and the cursor is in range and is 0 only while the table is empty. -/
def TableInv (K : Kernel) : Prop :=
  K.processTable.proc 0 = none ∧
  (∀ i p, K.processTable.proc i = some p →
    1 ≤ i ∧ i ≤ MAX_PROC ∧ ∃ r, K.heap p = some r ∧ r.p_pid = i) ∧
  (∀ p r, K.heap p = some r →
    1 ≤ r.p_pid ∧ r.p_pid ≤ MAX_PROC ∧ K.processTable.proc r.p_pid = some p) ∧
  K.processTable.last_i ≤ MAX_PROC ∧
  (K.processTable.last_i = 0 → ∀ i, K.processTable.proc i = none)

/-! ## Concrete states used to evaluate the code -/

/-- A process record as proc_create leaves it, with identifier `k`. -/
def rec_at (k : Nat) : Proc :=
  { p_numthreads := 0, p_addrspace := none, p_cwd := none, p_pid := k, p_status := 0,
    p_sem := some { sem_count := 0 }, parent_pid := 1, child := [] }

/-- The state after `n` registrations of the records at addresses 1..n, starting from
the zeroed table: slot k holds the record at address k, the cursor is `n`. -/
def filled (n : Nat) : Kernel :=
  { heap := fun q => if 1 ≤ q ∧ q ≤ n then some (rec_at q) else none
    processTable :=
      { active := 0
        proc := fun i => if 1 ≤ i ∧ i ≤ n then some i else none
        last_i := n }
    kproc := none }

/-- The state after MAX_PROC registrations followed by the deregistration of the
process registered last: slots 1..99 are occupied, slot 100 is empty, the cursor is
still 100. -/
def last_freed : Kernel :=
  { heap := fun q => if 1 ≤ q ∧ q ≤ 99 then some (rec_at q) else none
    processTable :=
      { active := 0
        proc := fun i => if 1 ≤ i ∧ i ≤ 99 then some i else none
        last_i := 100 }
    kproc := none }

/-! ## Runs of the wait/exit protocol -/

/-- The fields of a record that the rendezvous uses. -/
def Proc.sync (r : Proc) : Option Semaphore × Nat := (r.p_sem, r.p_numthreads)

/-- The calls that make up a run; `p` is the address of the process record. -/
inductive Event where
  /-- A process was created and its thread attached. -/
  | spawn (p : Nat)
  /-- A process was created and destroyed before it got a thread. -/
  | abandon (p : Nat)
  /-- The thread of process `p` ran sys__exit. -/
  | exit (p : Nat)
  /-- A proc_wait on process `p` returned. -/
  | wait (p : Nat)
  deriving DecidableEq, Repr

/-- The states reachable after proc_bootstrap, with the trace of calls that led there.
Every step is a call that ran to its end; a call that stops the kernel or blocks adds
no state.
* `spawn`: proc_create on fresh storage, then proc_addthread for the one thread the
  process gets (what sys_fork does through proc_create_runprogram and thread_fork).
* `abandon`: proc_create, then proc_destroy (the failure paths of sys_fork).
* `exit`: sys__exit by a thread of process `p`.
* `wait`: proc_wait on `p` returns.
* `bookkeeping`: any other change that keeps the set of allocated records and the
  p_sem and p_numthreads of each of them (child lists, parent_pid, address spaces and
  working directories set by sys_fork and proc_create_runprogram).
Kernel threads, which never issue system calls, are not represented. -/
inductive Run : List Event → Kernel → Prop
  | boot (a : Alloc) (K : Kernel) : proc_bootstrap Kernel.boot a = .ok K → Run [] K
  | spawn (tr : List Event) (K K1 K2 : Kernel) (a : Alloc) (p : Nat) (t t' : Thread) :
      Run tr K → a.proc = some p → K.heap p = none →
      proc_create K a = .ok (K1, some p) → proc_addthread K1 p t = .ok (K2, t') →
      Run (.spawn p :: tr) K2
  | abandon (tr : List Event) (K K1 K2 : Kernel) (a : Alloc) (p : Nat) :
      Run tr K → a.proc = some p → K.heap p = none →
      proc_create K a = .ok (K1, some p) → proc_destroy K1 (some p) = .ok K2 →
      Run (.abandon p :: tr) K2
  | exit (tr : List Event) (K K' : Kernel) (cur : Thread) (p : Nat) (status : Int) :
      Run tr K → cur.t_proc = some p → sys__exit K cur status = .ok K' →
      Run (.exit p :: tr) K'
  | wait (tr : List Event) (K K' : Kernel) (cur : Thread) (p : Nat) (st : Int) :
      Run tr K → proc_wait K cur (some p) = .ok (K', st) → Run (.wait p :: tr) K'
  | bookkeeping (tr : List Event) (K K' : Kernel) :
      Run tr K → (∀ q, (K'.heap q).map Proc.sync = (K.heap q).map Proc.sync) → Run tr K'

/-- An allocator answer in which everything succeeds and the record is at `p`. -/
def alloc_at (p : Nat) : Alloc :=
  { proc := some p, junk := rec_at 0, name := true, sem := true }

/-- The state of a completed call (the zeroed state for a call that did not complete). -/
def state_of (x : Except Abort Kernel) : Kernel :=
  match x with
  | .ok K => K
  | .error _ => Kernel.boot

/-- The state after proc_bootstrap with kproc at address 1000. -/
def booted : Kernel := state_of (proc_bootstrap Kernel.boot (alloc_at 1000))

/-- The thread of the process whose record is at address 2000. -/
def child_thread : Thread := { tid := 7, t_in_interrupt := false, t_proc := some 2000 }

/-- A thread of the kernel process, which waits for the child. -/
def parent_thread : Thread := { tid := 3, t_in_interrupt := false, t_proc := some 1000 }

/-- The state after proc_create of a process at address 2000 (it gets identifier 2). -/
def created : Kernel := state_of ((proc_create booted (alloc_at 2000)).map Prod.fst)

/-- The state after the thread of that process is attached. -/
def spawned : Kernel :=
  state_of ((proc_addthread created 2000 { child_thread with t_proc := none }).map Prod.fst)

/-- The state after that process has run sys__exit(42). -/
def exited42 : Kernel := state_of (sys__exit spawned child_thread 42)

/-- The state after a proc_wait on that process has returned. -/
def reaped : Kernel := state_of ((proc_wait exited42 parent_thread (some 2000)).map Prod.fst)

/-! ## Locks and condition variables (synch.c) -/

/-- The build options that select the lock implementation. -/
structure LockOpts where
  synch_sem : Bool
  synch_wchan : Bool
  deriving DecidableEq, Repr

/-- The struct lock: the owner (a thread identity or NULL) and, under OPT_SYNCH_SEM,
the semaphore pointer (NULL when sem_create failed; unused without the option). -/
structure Lock where
  lk_owner : Option Nat
  sem : Option Semaphore
  deriving DecidableEq, Repr

/-- Function lock_create; `alloc` is whether the lock and its name get storage,
`sem_alloc` whether sem_create does. -/
def lock_create (o : LockOpts) (alloc sem_alloc : Bool) : Option Lock :=
  if alloc then
    some { lk_owner := none, sem := if o.synch_sem then sem_create sem_alloc 1 else none }
  else none

/-- Function lock_do_i_hold, evaluated by thread `cur`. -/
def lock_do_i_hold (L : Lock) (cur : Thread) : Bool :=
  decide (L.lk_owner = some cur.tid)

/-- The line `P(lock->sem)` of lock_acquire, compiled under OPT_SYNCH_SEM. -/
def lock_acquire_sem (o : LockOpts) (L : Lock) (cur : Thread) : Except Abort Lock :=
  if o.synch_sem then
    match P cur.t_in_interrupt L.sem with
    | .error e => .error e
    | .ok s => .ok { L with sem := some s }
  else .ok L

/-- The section of lock_acquire under the spinlock lk_lock: under OPT_SYNCH_WCHAN the
thread sleeps while the lock has an owner; then the owner is asserted NULL and set. -/
def lock_acquire_owner (o : LockOpts) (L : Lock) (cur : Thread) : Except Abort Lock :=
  if o.synch_wchan ∧ L.lk_owner ≠ none then .error .sleep
  else if L.lk_owner = none then .ok { L with lk_owner := some cur.tid }
  else .error .kassert

/-- Function lock_acquire, called by thread `cur`. -/
def lock_acquire (o : LockOpts) (L : Lock) (cur : Thread) : Except Abort Lock :=
  if lock_do_i_hold L cur then .error .kassert
  else
    match lock_acquire_sem o L cur with
    | .error e => .error e
    | .ok L1 => lock_acquire_owner o L1 cur

/-- The section of lock_release under the spinlock lk_lock. -/
def lock_release_locked (o : LockOpts) (L : Lock) : Except Abort Lock :=
  if o.synch_sem then
    match V L.sem with
    | .error e => .error e
    | .ok s => .ok { lk_owner := none, sem := some s }
  else .ok { L with lk_owner := none }

/-- Function lock_release, called by thread `cur`. -/
def lock_release (o : LockOpts) (L : Lock) (cur : Thread) : Except Abort Lock :=
  if lock_do_i_hold L cur then lock_release_locked o L else .error .kassert

/-- Function cv_wait, called by thread `cur`, with the body under
`#ifdef OPT_SYNCH_CV` compiled.  The condition variable itself holds no state besides
its wait channel.  After lock_release the thread sleeps in wchan_sleep;
`during_sleep` is what the other threads did to the lock until it is woken, and
lock_acquire then runs in that state. -/
def cv_wait (o : LockOpts) (L : Lock) (cur : Thread) (during_sleep : Lock → Lock) :
    Except Abort Lock :=
  if lock_do_i_hold L cur then
    match lock_release o L cur with
    | .error e => .error e
    | .ok L1 => lock_acquire o (during_sleep L1) cur
  else .error .kassert

/-- Where a thread stands with respect to one lock: outside lock_acquire and
lock_release, or inside one of them between two atomic sections. -/
inductive LockPC where
  /-- Outside lock_acquire and lock_release. -/
  | idle
  /-- In lock_acquire, after KASSERT(!lock_do_i_hold(lock)). -/
  | acq_checked
  /-- In lock_acquire, after the semaphore line, before the spinlock section. -/
  | acq_sem
  /-- In lock_release, after KASSERT(lock_do_i_hold(lock)). -/
  | rel_checked
  deriving DecidableEq, Repr

/-- One lock and the position of every thread (by thread identity). -/
structure LockSys where
  lock : Lock
  pc : Nat → LockPC

/-- Move one thread to a new position. -/
def LockSys.goto (S : LockSys) (L : Lock) (t : Nat) (c : LockPC) : LockSys :=
  { lock := L, pc := fun u => if u = t then c else S.pc u }

/-- The completed calls on a lock. -/
inductive LockEvent where
  /-- Thread `t` completed a lock_acquire. -/
  | acquired (t : Nat)
  /-- Thread `t` completed a lock_release. -/
  | released (t : Nat)
  deriving DecidableEq, Repr

/-- Whether, in a trace (latest event first), thread `t` has completed a lock_acquire
that it has not yet matched with a lock_release. -/
def holds (t : Nat) : List LockEvent → Bool
  | [] => false
  | .acquired u :: tr => if u = t then true else holds t tr
  | .released u :: tr => if u = t then false else holds t tr

/-- The interleavings of lock_acquire and lock_release by any number of threads on a
lock made by lock_create.  Each step is one atomic section of one thread: the two
assertions, the semaphore line and the two spinlock sections.  A section that sleeps
or fails its assertion adds no state. -/
inductive LockRun (o : LockOpts) : List LockEvent → LockSys → Prop
  | create (L : Lock) (alloc sem_alloc : Bool) :
      lock_create o alloc sem_alloc = some L →
      LockRun o [] { lock := L, pc := fun _ => .idle }
  | acquire_check (tr : List LockEvent) (S : LockSys) (cur : Thread) :
      LockRun o tr S → S.pc cur.tid = .idle → lock_do_i_hold S.lock cur = false →
      LockRun o tr (S.goto S.lock cur.tid .acq_checked)
  | acquire_sem (tr : List LockEvent) (S : LockSys) (cur : Thread) (L1 : Lock) :
      LockRun o tr S → S.pc cur.tid = .acq_checked →
      lock_acquire_sem o S.lock cur = .ok L1 →
      LockRun o tr (S.goto L1 cur.tid .acq_sem)
  | acquire_owner (tr : List LockEvent) (S : LockSys) (cur : Thread) (L1 : Lock) :
      LockRun o tr S → S.pc cur.tid = .acq_sem →
      lock_acquire_owner o S.lock cur = .ok L1 →
      LockRun o (.acquired cur.tid :: tr) (S.goto L1 cur.tid .idle)
  | release_check (tr : List LockEvent) (S : LockSys) (cur : Thread) :
      LockRun o tr S → S.pc cur.tid = .idle → lock_do_i_hold S.lock cur = true →
      LockRun o tr (S.goto S.lock cur.tid .rel_checked)
  | release_locked (tr : List LockEvent) (S : LockSys) (cur : Thread) (L1 : Lock) :
      LockRun o tr S → S.pc cur.tid = .rel_checked →
      lock_release_locked o S.lock = .ok L1 →
      LockRun o (.released cur.tid :: tr) (S.goto L1 cur.tid .idle)

/-- The lock invariant of a run: the owner field names exactly the thread that holds
the lock according to the trace, and a thread inside lock_release is the owner. -/
def LockInv (tr : List LockEvent) (S : LockSys) : Prop :=
  (∀ t, S.lock.lk_owner = some t ↔ holds t tr = true) ∧
  (∀ t, S.pc t = .rel_checked → S.lock.lk_owner = some t)

/-- Options with the lock built on a semaphore. -/
def opts_sem : LockOpts := { synch_sem := true, synch_wchan := false }

/-- A fresh lock under `opts_sem`. -/
def lock0 : Lock := { lk_owner := none, sem := some { sem_count := 1 } }

/-- The lock held by thread 7 under `opts_sem`. -/
def lock_held7 : Lock := { lk_owner := some 7, sem := some { sem_count := 0 } }

/-! ## Destroying a lock (synch.c) -/

/-- Modelled from the spec: wchan_destroy is not among the sources.  Destroying a
primitive with a thread blocked on it is a fatal usage error, and the comment in
sem_destroy says that the wait-channel code asserts when anyone is waiting.
`waiters` is the number of threads asleep on the channel. -/
def wchan_destroy (waiters : Nat) : Except Abort Unit :=
  if waiters = 0 then .ok () else .error .kassert

/-- Function lock_destroy.  `wchan_waiters` is the number of threads asleep on
lk_wchan (the sleepers of the while loop of lock_acquire) and `sem_waiters` the number
asleep inside `P(lock->sem)`.  Under OPT_SYNCH_SEM the semaphore is released with
kfree, which looks at nothing; the owner field is not read.  The result `.ok ()` means
that the storage of the lock has been freed. -/
def lock_destroy (o : LockOpts) (lock : Option Lock) (wchan_waiters _sem_waiters : Nat) :
    Except Abort Unit :=
  match lock with
  | none => .error .kassert
  | some _ =>
    if o.synch_wchan then
      match wchan_destroy wchan_waiters with
      | .error e => .error e
      | .ok _ => .ok ()
    else .ok ()

/-! ## Counting the slots the scan examines -/

/-- The number of times the loop of proc_init_waitpid evaluates
`processTable.proc[i] == NULL` within `fuel` tests of its condition. -/
def scan_examined (T : ProcessTable) : Nat → Nat → Nat
  | 0, _ => 0
  | fuel + 1, i =>
    if i = T.last_i then 0
    else if T.proc i = none then 1
    else 1 + scan_examined T fuel (wrap_next i)

/-! ## Child lists (proc.c) -/

/-- The list walk of add_child: a node with `pid` is linked after the last node. -/
def add_child_list (pid : Nat) : List Nat → List Nat
  | [] => [pid]
  | c :: rest => c :: add_child_list pid rest

/-- Function add_child.  `node_alloc` is whether kmalloc gives the list node; the
code writes through the returned pointer without testing it. -/
def add_child (K : Kernel) (parent child : Nat) (node_alloc : Bool) : Except Abort Kernel :=
  match K.heap parent with
  | none => .error .badptr
  | some rp =>
    if node_alloc then
      match K.heap child with
      | none => .error .badptr
      | some rc => .ok (K.store parent { rp with child := add_child_list rc.p_pid rp.child })
    else .error .badptr

/-- A parent record with the child list 3, 4, 3, used to evaluate remove_child. -/
def parent_with_children : Kernel :=
  Kernel.boot.store 5 { rec_at 5 with child := [3, 4, 3] }

/-! ## File tables (proc.c, file_syscalls.c)

The file code is compiled under OPT_FILESYSTEM and OPT_SHELL.  The header with the
limits is not among the sources, so the two limits are parameters.  The error
numbers of kern/errno.h are not among the sources either: they are the constructors
of `Errno`, all of them different from the return value 0. -/

/-- The constants OPEN_MAX and SYSTEM_OPEN_MAX. -/
structure Limits where
  OPEN_MAX : Nat
  SYSTEM_OPEN_MAX : Nat
  deriving DecidableEq, Repr

/-- The error numbers returned by the modelled calls. -/
inductive Errno where
  | EBADF
  | EFAULT
  | EINVAL
  | ENOMEM
  | ENOENT
  | ENFILE
  | EMFILE
  | ESPIPE
  deriving DecidableEq, Repr

/-- The open flag O_RDONLY, stored in mode_open. -/
def O_RDONLY : Int := 0

/-- The open flag O_WRONLY, stored in mode_open. -/
def O_WRONLY : Int := 1

/-- The descriptor number STDERR_FILENO. -/
def STDERR_FILENO : Int := 2

/-- One entry of sysTable (the struct systemFileTable): the vnode pointer, the offset,
the open mode, the reference count and the lock pointer. -/
structure SystemFileTable where
  vn : Option Nat
  offset : Int
  mode_open : Int
  count_refs : Int
  lock : Option Lock
  deriving DecidableEq, Repr

/-- The file state: the global array sysTable (SYSTEM_OPEN_MAX entries) and, for the
process record at each address, its array openFileTable (OPEN_MAX entries) of
pointers into sysTable, given as indices. -/
structure Files where
  sysTable : Nat → SystemFileTable
  openFileTable : Nat → Nat → Option Nat

/-- The zeroed file state. -/
def Files.boot : Files :=
  { sysTable := fun _ => { vn := none, offset := 0, mode_open := 0, count_refs := 0,
                           lock := none }
    openFileTable := fun _ _ => none }

/-- The read `proc->openFileTable[fd]`: the array has OPEN_MAX entries, an index
outside 0..OPEN_MAX-1 is an access outside the array. -/
def openFileTable_read (lim : Limits) (F : Files) (p : Nat) (fd : Int) :
    Except Abort (Option Nat) :=
  if 0 ≤ fd ∧ fd < (lim.OPEN_MAX : Int) then .ok (F.openFileTable p fd.toNat)
  else .error .badptr

/-- The write `proc->openFileTable[fd] = v`, with the same bounds. -/
def openFileTable_write (lim : Limits) (F : Files) (p : Nat) (fd : Int) (v : Option Nat) :
    Except Abort Files :=
  if 0 ≤ fd ∧ fd < (lim.OPEN_MAX : Int) then
    .ok { F with openFileTable := fun q d => if q = p ∧ d = fd.toNat then v
                                              else F.openFileTable q d }
  else .error .badptr

/-- The statements of file_read up to `sf = curproc->openFileTable[fd]`: the result
is the error number returned there or the entry found.  `buf_null` is whether buf_ptr
is NULL. -/
def file_read_lookup (lim : Limits) (F : Files) (cur : Thread) (fd : Int) (buf_null : Bool) :
    Except Abort (Except Errno Nat) :=
  if fd < 0 ∨ fd > (lim.OPEN_MAX : Int) then .ok (.error .EBADF)
  else
    match cur.t_proc with
    | none => .error .badptr
    | some p =>
      match openFileTable_read lim F p fd with
      | .error e => .error e
      | .ok none => .ok (.error .EBADF)
      | .ok (some sf) => if buf_null then .ok (.error .EFAULT) else .ok (.ok sf)

/-- The statements of file_write up to the test `sf==NULL`. -/
def file_write_lookup (lim : Limits) (F : Files) (cur : Thread) (fd : Int) (buf_null : Bool) :
    Except Abort (Except Errno Nat) :=
  if fd < 0 ∨ fd > (lim.OPEN_MAX : Int) then .ok (.error .EBADF)
  else if buf_null then .ok (.error .EFAULT)
  else
    match cur.t_proc with
    | none => .error .badptr
    | some p =>
      match openFileTable_read lim F p fd with
      | .error e => .error e
      | .ok none => .ok (.error .EBADF)
      | .ok (some sf) => .ok (.ok sf)

/-- The statements of sys_close up to the test `sf == NULL`. -/
def sys_close_lookup (lim : Limits) (F : Files) (cur : Thread) (fd : Int) :
    Except Abort (Except Errno Nat) :=
  if fd < 0 ∨ fd > (lim.OPEN_MAX : Int) then .ok (.error .EBADF)
  else
    match cur.t_proc with
    | none => .error .badptr
    | some p =>
      match openFileTable_read lim F p fd with
      | .error e => .error e
      | .ok none => .ok (.error .EBADF)
      | .ok (some sf) => .ok (.ok sf)

/-- The statements of sys_lseek up to the test `sf == NULL`.  `whence_cur` is whether
whence is SEEK_CUR. -/
def sys_lseek_lookup (lim : Limits) (F : Files) (cur : Thread) (fd : Int) (pos : Int)
    (whence_cur : Bool) : Except Abort (Except Errno Nat) :=
  match cur.t_proc with
  | none => .error .kassert
  | some p =>
    if fd ≤ STDERR_FILENO ∨ fd > (lim.OPEN_MAX : Int) then .ok (.error .EBADF)
    else if pos < 0 ∧ whence_cur = false then .ok (.error .EINVAL)
    else
      match openFileTable_read lim F p fd with
      | .error e => .error e
      | .ok none => .ok (.error .EBADF)
      | .ok (some sf) => .ok (.ok sf)

/-- The two range tests at the head of sys_dup2: true when the call goes on. -/
def sys_dup2_range (lim : Limits) (oldfd newfd : Int) : Bool :=
  if oldfd < 0 ∨ oldfd ≥ (lim.OPEN_MAX : Int) then false
  else if newfd < 0 ∨ newfd ≥ (lim.OPEN_MAX : Int) then false
  else true

/-- The kernel state together with the file state. -/
structure System where
  kernel : Kernel
  files : Files

/-- What the collaborators answer during one insert_standard: the vnode vfs_open
gives for the console (none when vfs_open fails) and whether lock_create gets the
storage of the lock and of its semaphore. -/
structure ConsoleEnv where
  vnode : Option Nat
  lock_alloc : Bool
  lock_sem_alloc : Bool
  deriving DecidableEq, Repr

/-- The first index below SYSTEM_OPEN_MAX whose sysTable entry has no vnode: the
search loop of insert_standard. -/
def sysTable_first_free (lim : Limits) (F : Files) : Option Nat :=
  (List.range lim.SYSTEM_OPEN_MAX).find? (fun i => (F.sysTable i).vn.isNone)

/-- Function insert_standard for the process record at `p`; the result pairs the file
state with the returned 0 or -1. -/
def insert_standard (lim : Limits) (o : LockOpts) (F : Files) (p : Nat) (fd : Int)
    (openflag : Int) (e : ConsoleEnv) : Except Abort (Files × Int) :=
  match e.vnode with
  | none => .ok (F, -1)
  | some v =>
    match sysTable_first_free lim F with
    | none => .ok (F, -1)
    | some i =>
      let F1 : Files :=
        { F with sysTable := fun k => if k = i then { F.sysTable i with vn := some v }
                                      else F.sysTable k }
      match openFileTable_write lim F1 p fd (some i) with
      | .error err => .error err
      | .ok F2 =>
        .ok ({ F2 with sysTable := fun k =>
                if k = i then
                  { vn := some v, offset := 0, mode_open := openflag, count_refs := 1,
                    lock := lock_create o e.lock_alloc e.lock_sem_alloc }
                else F2.sysTable k }, 0)

/-- Function proc_create with its OPT_FILESYSTEM line: the descriptor table of the
new record is zeroed. -/
def proc_create_fs (S : System) (a : Alloc) : Except Abort (System × Option Nat) :=
  match proc_create S.kernel a with
  | .error e => .error e
  | .ok (K1, none) => .ok ({ S with kernel := K1 }, none)
  | .ok (K1, some p) =>
    .ok ({ kernel := K1
           files := { S.files with openFileTable := fun q d =>
                        if q = p then none else S.files.openFileTable q d } }, some p)

/-- Function proc_create_runprogram, called by thread `cur`; `e0`, `e1`, `e2` are the
answers for the three console descriptors. -/
def proc_create_runprogram (lim : Limits) (o : LockOpts) (S : System) (cur : Thread)
    (a : Alloc) (e0 e1 e2 : ConsoleEnv) : Except Abort (System × Option Nat) :=
  match proc_create_fs S a with
  | .error e => .error e
  | .ok (S1, none) => .ok (S1, none)
  | .ok (S1, some newproc) =>
    match S1.kernel.heap newproc with
    | none => .error .badptr
    | some rn =>
      match cur.t_proc with
      | none => .error .badptr
      | some cp =>
        match S1.kernel.heap cp with
        | none => .error .badptr
        | some rc =>
          let K2 := S1.kernel.store newproc
            { rn with p_addrspace := none,
                      p_cwd := if rc.p_cwd ≠ none then rc.p_cwd else rn.p_cwd }
          match insert_standard lim o S1.files newproc 0 O_RDONLY e0 with
          | .error e => .error e
          | .ok (F1, r0) =>
            if r0 = -1 then .ok ({ kernel := K2, files := F1 }, none)
            else
              match insert_standard lim o F1 newproc 1 O_WRONLY e1 with
              | .error e => .error e
              | .ok (F2, r1) =>
                if r1 = -1 then .ok ({ kernel := K2, files := F2 }, none)
                else
                  match insert_standard lim o F2 newproc 2 O_WRONLY e2 with
                  | .error e => .error e
                  | .ok (F3, r2) =>
                    if r2 = -1 then .ok ({ kernel := K2, files := F3 }, none)
                    else .ok ({ kernel := K2, files := F3 }, some newproc)

/-- Function copyOpenFileTable: the OPEN_MAX entries of the parent are copied. -/
def copyOpenFileTable (lim : Limits) (F : Files) (parent child : Nat) : Files :=
  { F with openFileTable := fun q d =>
      if q = child ∧ d < lim.OPEN_MAX then F.openFileTable parent d
      else F.openFileTable q d }

/-- Modelled from the spec: thread_fork is not among the sources.  It starts a new
kernel thread for the process; on success the thread is attached to the process with
proc_addthread and the result is true, on failure nothing changes.  `newthread` is
the thread it creates, none when it fails. -/
def thread_fork (K : Kernel) (proc : Nat) (newthread : Option Thread) :
    Except Abort (Kernel × Bool) :=
  match newthread with
  | none => .ok (K, false)
  | some t =>
    match proc_addthread K proc { t with t_proc := none } with
    | .error e => .error e
    | .ok (K', _) => .ok (K', true)

/-- What the collaborators answer during one sys_fork: the allocations of
proc_create, the three consoles, the address space as_copy leaves in
`newp->p_addrspace` (NULL when it fails), whether kmalloc gives the trapframe copy and
the child-list node, and the thread made by thread_fork. -/
structure ForkEnv where
  alloc : Alloc
  e0 : ConsoleEnv
  e1 : ConsoleEnv
  e2 : ConsoleEnv
  as_copy : Option Nat
  tf_child : Bool
  node : Bool
  thread : Option Thread

/-- The two early failure exits of sys_fork: `proc_destroy(newp); return ENOMEM;`. -/
def sys_fork_unwind (K : Kernel) (F : Files) (newp : Nat) :
    Except Abort (System × Option Errno × Option Nat) :=
  match proc_destroy K (some newp) with
  | .error e => .error e
  | .ok K' => .ok ({ kernel := K', files := F }, some .ENOMEM, none)

/-- Function sys_fork, called by thread `cur`.  The result holds the state, the
return value (none for 0) and the value written through retval. -/
def sys_fork (lim : Limits) (o : LockOpts) (S : System) (cur : Thread) (env : ForkEnv) :
    Except Abort (System × Option Errno × Option Nat) :=
  match cur.t_proc with
  | none => .error .kassert
  | some cp =>
    match proc_create_runprogram lim o S cur env.alloc env.e0 env.e1 env.e2 with
    | .error e => .error e
    | .ok (S1, none) => .ok (S1, some .ENOMEM, none)
    | .ok (S1, some newp) =>
      match S1.kernel.heap cp, S1.kernel.heap newp with
      | some _, some rn =>
        let K2 := S1.kernel.store newp { rn with p_addrspace := env.as_copy }
        if env.as_copy = none then sys_fork_unwind K2 S1.files newp
        else if env.tf_child = false then sys_fork_unwind K2 S1.files newp
        else
          let F2 := copyOpenFileTable lim S1.files cp newp
          match add_child K2 cp newp env.node with
          | .error e => .error e
          | .ok K3 =>
            match K3.heap cp, K3.heap newp with
            | some rc3, some rn3 =>
              let K4 := K3.store newp { rn3 with parent_pid := rc3.p_pid }
              match thread_fork K4 newp env.thread with
              | .error e => .error e
              | .ok (K5, false) => sys_fork_unwind K5 F2 newp
              | .ok (K5, true) =>
                match K5.heap newp with
                | none => .error .badptr
                | some rn5 => .ok ({ kernel := K5, files := F2 }, none, some rn5.p_pid)
            | _, _ => .error .badptr
      | _, _ => .error .badptr

/-! ## Concrete states for fork -/

/-- The limits used in the concrete runs. -/
def lim0 : Limits := { OPEN_MAX := 128, SYSTEM_OPEN_MAX := 64 }

/-- A console that opens, with vnode `v`. -/
def console_ok (v : Nat) : ConsoleEnv := { vnode := some v, lock_alloc := true, lock_sem_alloc := true }

/-- A console whose vfs_open fails. -/
def console_fail : ConsoleEnv := { vnode := none, lock_alloc := true, lock_sem_alloc := true }

/-- The state of a completed call that returns a state with other values. -/
def system_of {α : Type} (x : Except Abort (System × α)) : System :=
  match x with
  | .ok (S, _) => S
  | .error _ => { kernel := Kernel.boot, files := Files.boot }

/-- The state after a kernel thread has created, by proc_create_runprogram, a process
at address 2000 (identifier 2) with consoles on the vnodes 40, 41, 42. -/
def sys_created : System :=
  system_of (proc_create_runprogram lim0 opts_sem { kernel := booted, files := Files.boot }
    parent_thread (alloc_at 2000) (console_ok 40) (console_ok 41) (console_ok 42))

/-- The same state after the thread of that process has been attached. -/
def sys0 : System :=
  { kernel := state_of ((proc_addthread sys_created.kernel 2000
      { child_thread with t_proc := none }).map Prod.fst)
    files := sys_created.files }

/-- A fork in which everything succeeds, the child record being at address 3000. -/
def fork_ok : ForkEnv :=
  { alloc := alloc_at 3000, e0 := console_ok 50, e1 := console_ok 51, e2 := console_ok 52,
    as_copy := some 9, tf_child := true, node := true,
    thread := some { tid := 8, t_in_interrupt := false, t_proc := none } }

/-- The state after the successful fork by the process at 2000. -/
def forked : System := system_of (sys_fork lim0 opts_sem sys0 child_thread fork_ok)

/-- The state after a fork in which as_copy fails. -/
def fork_as_failed : System :=
  system_of (sys_fork lim0 opts_sem sys0 child_thread { fork_ok with as_copy := none })

/-- The state after a fork in which thread_fork fails. -/
def fork_thread_failed : System :=
  system_of (sys_fork lim0 opts_sem sys0 child_thread { fork_ok with thread := none })

/-- The state after a proc_create_runprogram in which the console of STDIN does not
open. -/
def create_console_failed : System :=
  system_of (proc_create_runprogram lim0 opts_sem sys0 child_thread (alloc_at 3000)
    console_fail (console_ok 51) (console_ok 52))

/-! ## States reachable after proc_bootstrap -/

/-- The kernel invariant of the reachable states: the table invariant, and kproc is a
live record with identifier 1 and an empty child list. -/
def KInv (K : Kernel) : Prop :=
  TableInv K ∧ ∃ k rk, K.kproc = some k ∧ K.heap k = some rk ∧ rk.p_pid = 1 ∧ rk.child = []

/-- The states reachable after proc_bootstrap.  Every step is a call, or a part of a
call, that returned.
* `boot`: proc_bootstrap on the zeroed state.
* `runprogram`: proc_create_runprogram on fresh storage, with any outcome.
* `attach`: proc_addthread (what thread_fork does for a new process).
* `fork`: sys_fork, with any outcome, called by a thread of a process other than
  kproc (the threads of kproc never come from user mode, where system calls are
  issued), on fresh storage.
* `exit`, `waitpid`, `wait`: sys__exit, sys_waitpid, proc_wait, each run without
  another thread in between.
* `exit_head`, `exit_tail`: the two parts of sys__exit, between which no lock is held
  and other steps may come.
* `wait_P`, `destroy`: the two parts of proc_wait, the second being proc_destroy.
* `fields`: a change of the address space and working directory of a record.
* `files`: any change of the file tables (the file system calls). -/
inductive SysRun (lim : Limits) (o : LockOpts) : System → Prop
  | boot (a : Alloc) (K : Kernel) :
      proc_bootstrap Kernel.boot a = .ok K → SysRun lim o { kernel := K, files := Files.boot }
  | runprogram (S S1 : System) (cur : Thread) (a : Alloc) (e0 e1 e2 : ConsoleEnv)
      (res : Option Nat) :
      SysRun lim o S → (∀ p, a.proc = some p → S.kernel.heap p = none) →
      proc_create_runprogram lim o S cur a e0 e1 e2 = .ok (S1, res) → SysRun lim o S1
  | attach (S : System) (K' : Kernel) (p : Nat) (t t' : Thread) :
      SysRun lim o S → proc_addthread S.kernel p t = .ok (K', t') →
      SysRun lim o { kernel := K', files := S.files }
  | fork (S S' : System) (cur : Thread) (p : Nat) (env : ForkEnv) (ret : Option Errno)
      (rv : Option Nat) :
      SysRun lim o S → cur.t_proc = some p → S.kernel.kproc ≠ some p →
      (∀ q, env.alloc.proc = some q → S.kernel.heap q = none) →
      sys_fork lim o S cur env = .ok (S', ret, rv) → SysRun lim o S'
  | exit (S : System) (K' : Kernel) (cur : Thread) (status : Int) :
      SysRun lim o S → sys__exit S.kernel cur status = .ok K' →
      SysRun lim o { kernel := K', files := S.files }
  | waitpid (S : System) (K' : Kernel) (cur : Thread) (pid : Int) (statusp : Bool)
      (options ret : Int) (w : Option Int) :
      SysRun lim o S → sys_waitpid S.kernel cur pid statusp options = .ok (K', ret, w) →
      SysRun lim o { kernel := K', files := S.files }
  | wait (S : System) (K' : Kernel) (cur : Thread) (p : Nat) (st : Int) :
      SysRun lim o S → proc_wait S.kernel cur (some p) = .ok (K', st) →
      SysRun lim o { kernel := K', files := S.files }
  | exit_head (S : System) (K' : Kernel) (cur : Thread) (status : Int) (p : Nat) :
      SysRun lim o S → sys__exit_head S.kernel cur status = .ok (K', p) →
      SysRun lim o { kernel := K', files := S.files }
  | exit_tail (S : System) (K' : Kernel) (p : Nat) :
      SysRun lim o S → sys__exit_tail S.kernel p = .ok K' →
      SysRun lim o { kernel := K', files := S.files }
  | wait_P (S : System) (K' : Kernel) (cur : Thread) (p : Nat) (st : Int) :
      SysRun lim o S → proc_wait_P S.kernel cur (some p) = .ok (K', st) →
      SysRun lim o { kernel := K', files := S.files }
  | destroy (S : System) (K' : Kernel) (p : Nat) :
      SysRun lim o S → proc_destroy S.kernel (some p) = .ok K' →
      SysRun lim o { kernel := K', files := S.files }
  | fields (S : System) (p : Nat) (r : Proc) (as cwd : Option Nat) :
      SysRun lim o S → S.kernel.heap p = some r →
      SysRun lim o { kernel := S.kernel.store p { r with p_addrspace := as, p_cwd := cwd }
                     files := S.files }
  | files (S : System) (F : Files) :
      SysRun lim o S → SysRun lim o { kernel := S.kernel, files := F }

/-! ## The file calls (file_syscalls.c)

The calls work on the table of the current process.  vfs_open, vfs_close,
VOP_ISSEEKABLE and VOP_STAT belong to the file system, which is not among the
sources: what they answer is an argument of the embedded call.  The headers with
O_RDWR, O_ACCMODE and the SEEK constants are not among the sources either; the
constants have the values of the OS/161 headers, and only that they differ matters.
The type off_t of the offsets is a signed 64-bit integer and int32_t a signed 32-bit
one; an addition of offsets wraps in two's complement (`wrap64`). -/

/-- The open flag O_RDWR. -/
def O_RDWR : Int := 2

/-- The mask O_ACCMODE. -/
def O_ACCMODE : Int := 3

/-- The constant SEEK_SET. -/
def SEEK_SET : Int := 0

/-- The constant SEEK_CUR. -/
def SEEK_CUR : Int := 1

/-- The constant SEEK_END. -/
def SEEK_END : Int := 2

/-- The value of a signed 64-bit integer that holds `x` modulo 2^64. -/
def wrap64 (x : Int) : Int :=
  (x + 9223372036854775808) % 18446744073709551616 - 9223372036854775808

/-- The conversion `(int32_t) x`. -/
def wrap32 (x : Int) : Int :=
  (x + 2147483648) % 4294967296 - 2147483648

/-- Replace one entry of sysTable. -/
def Files.setEntry (F : Files) (i : Nat) (e : SystemFileTable) : Files :=
  { F with sysTable := fun k => if k = i then e else F.sysTable k }

/-- The call `lock_acquire(sf->lock)` on the lock pointer of an entry: a NULL pointer
fails the assertion `lock != NULL` of lock_acquire. -/
def lock_acquire_ptr (o : LockOpts) (L : Option Lock) (cur : Thread) : Except Abort Lock :=
  match L with
  | none => .error .kassert
  | some l => lock_acquire o l cur

/-- A lock pointer that a thread can take and give back at once: not NULL, without
owner and, under OPT_SYNCH_SEM, with a semaphore whose count is positive. -/
def lock_free (o : LockOpts) (L : Option Lock) : Prop :=
  ∃ l, L = some l ∧ l.lk_owner = none ∧
    (o.synch_sem = true → ∃ s, l.sem = some s ∧ 0 < s.sem_count ∧ s.sem_count < UINT_RANGE)

/-- The search loop `for(int i = 3; i < OPEN_MAX; i++)` of sys_open over the table
of the current process: the first free descriptor, none when there is none.  The
process pointer is read only when the loop body runs. -/
def openFileTable_first_free (lim : Limits) (F : Files) (curproc : Option Nat) :
    Except Abort (Option Nat) :=
  if lim.OPEN_MAX ≤ 3 then .ok none
  else
    match curproc with
    | none => .error .badptr
    | some p =>
      .ok ((List.range lim.OPEN_MAX).find?
        (fun i => decide (3 ≤ i) && (F.openFileTable p i).isNone))

/-- Function sys_open, called by thread `cur`.  `path_null` is whether path is NULL;
`e` holds the vnode vfs_open gives (none when it fails) and whether lock_create gets
its storage.  The result `.ok fd` is the returned descriptor, `.error n` the return
value -1 with `*errp = n`. -/
def sys_open (lim : Limits) (o : LockOpts) (F : Files) (cur : Thread) (path_null : Bool)
    (openflag : Int) (e : ConsoleEnv) : Except Abort (Files × Except Errno Int) :=
  let flag := Int.land openflag O_ACCMODE
  if path_null then .ok (F, .error .EFAULT)
  else if flag ≠ O_RDONLY ∧ flag ≠ O_WRONLY ∧ flag ≠ O_RDWR then .ok (F, .error .EINVAL)
  else
    match e.vnode with
    | none => .ok (F, .error .ENOENT)
    | some v =>
      match sysTable_first_free lim F with
      | none => .ok (F, .error .ENFILE)
      | some i =>
        let F1 := F.setEntry i { F.sysTable i with vn := some v }
        match openFileTable_first_free lim F1 cur.t_proc with
        | .error err => .error err
        | .ok none => .ok (F1.setEntry i { F1.sysTable i with vn := none }, .error .EMFILE)
        | .ok (some d) =>
          match cur.t_proc with
          | none => .error .badptr
          | some p =>
            match openFileTable_write lim F1 p d (some i) with
            | .error err => .error err
            | .ok F2 =>
              .ok (F2.setEntry i
                    { vn := some v, offset := 0, mode_open := openflag, count_refs := 1,
                      lock := lock_create o e.lock_alloc e.lock_sem_alloc }, .ok d)

/-- Function sys_close, called by thread `cur`; the result pairs the file state with
the returned 0 (none) or error number.  The call vfs_close(vn) acts on the vnode
only. -/
def sys_close (lim : Limits) (o : LockOpts) (F : Files) (cur : Thread) (fd : Int) :
    Except Abort (Files × Option Errno) :=
  if fd < 0 ∨ fd > (lim.OPEN_MAX : Int) then .ok (F, some .EBADF)
  else
    match cur.t_proc with
    | none => .error .badptr
    | some p =>
      match openFileTable_read lim F p fd with
      | .error e => .error e
      | .ok none => .ok (F, some .EBADF)
      | .ok (some sf) =>
        match (F.sysTable sf).vn with
        | none => .ok (F, some .EBADF)
        | some vn =>
          match lock_acquire_ptr o (F.sysTable sf).lock cur with
          | .error e => .error e
          | .ok L1 =>
            let c := (F.sysTable sf).count_refs - 1
            let F1 := F.setEntry sf
              { F.sysTable sf with lock := some L1, count_refs := c,
                                   vn := if c = 0 then none else some vn }
            match openFileTable_write lim F1 p fd none with
            | .error e => .error e
            | .ok F2 =>
              match lock_release o L1 cur with
              | .error e => .error e
              | .ok L2 => .ok (F2.setEntry sf { F2.sysTable sf with lock := some L2 }, none)

/-- What the file system answers during one sys_lseek: VOP_ISSEEKABLE, and VOP_STAT
with either its error number or the size info.st_size. -/
structure SeekEnv where
  seekable : Bool
  stat : Except Errno Int

/-- The switch of sys_lseek: the new value of retval, or the error number returned
from inside the switch. -/
def sys_lseek_switch (offset pos whence : Int) (env : SeekEnv) : Except Errno Int :=
  if whence = SEEK_SET then .ok pos
  else if whence = SEEK_CUR then .ok (wrap64 (offset + pos))
  else if whence = SEEK_END then
    match env.stat with
    | .error err => .error err
    | .ok st_size => .ok (wrap64 (st_size + pos))
  else .error .EINVAL

/-- Function sys_lseek, called by thread `cur`.  The result holds the file state, the
returned 0 (none) or error number, and the pair of words stored through ret_low and
ret_up (none when nothing is stored). -/
def sys_lseek (lim : Limits) (o : LockOpts) (F : Files) (cur : Thread) (fd : Int)
    (pos : Int) (whence : Int) (env : SeekEnv) :
    Except Abort (Files × Option Errno × Option (Int × Int)) :=
  match cur.t_proc with
  | none => .error .kassert
  | some p =>
    if fd ≤ STDERR_FILENO ∨ fd > (lim.OPEN_MAX : Int) then .ok (F, some .EBADF, none)
    else if pos < 0 ∧ whence ≠ SEEK_CUR then .ok (F, some .EINVAL, none)
    else
      match openFileTable_read lim F p fd with
      | .error e => .error e
      | .ok none => .ok (F, some .EBADF, none)
      | .ok (some sf) =>
        match (F.sysTable sf).vn with
        | none => .ok (F, some .EBADF, none)
        | some _ =>
          if env.seekable = false then .ok (F, some .ESPIPE, none)
          else
            match lock_acquire_ptr o (F.sysTable sf).lock cur with
            | .error e => .error e
            | .ok L1 =>
              match sys_lseek_switch (F.sysTable sf).offset pos whence env with
              | .error err =>
                match lock_release o L1 cur with
                | .error e => .error e
                | .ok L2 =>
                  .ok (F.setEntry sf { F.sysTable sf with lock := some L2 }, some err, none)
              | .ok retval =>
                match lock_release o L1 cur with
                | .error e => .error e
                | .ok L2 =>
                  .ok (F.setEntry sf { F.sysTable sf with offset := retval, lock := some L2 },
                       none,
                       some (wrap32 (Int.shiftRight retval 32),
                             wrap32 (Int.land retval 0xffffffff)))

/-- The last lines of sys_dup2, from `lock_acquire(curproc->openFileTable[oldfd]->lock)`
to the return, for the current process `p`.  The slot oldfd is not written between
the lines that read it, so it is read once. -/
def sys_dup2_link (lim : Limits) (o : LockOpts) (F1 : Files) (cur : Thread) (p : Nat)
    (oldfd newfd : Int) : Except Abort (Files × Except Errno Int) :=
  match openFileTable_read lim F1 p oldfd with
  | .error e => .error e
  | .ok none => .error .badptr
  | .ok (some s1) =>
    match lock_acquire_ptr o (F1.sysTable s1).lock cur with
    | .error e => .error e
    | .ok L1 =>
      match openFileTable_write lim F1 p newfd (some s1) with
      | .error e => .error e
      | .ok F2 =>
        match lock_release o L1 cur with
        | .error e => .error e
        | .ok L2 =>
          .ok (F2.setEntry s1
                { F2.sysTable s1 with
                  count_refs := (F2.sysTable s1).count_refs + 1,
                  lock := some L2 }, .ok newfd)

/-- Function sys_dup2, called by thread `cur`.  The result `.ok fd` is a returned
descriptor, `.error n` a returned error number.  The test before sys_close reads
`curproc->openFileTable[newfd]->vn`: with a NULL pointer in slot newfd that is a read
through NULL.  The value returned by sys_close is not used. -/
def sys_dup2 (lim : Limits) (o : LockOpts) (F : Files) (cur : Thread) (oldfd newfd : Int) :
    Except Abort (Files × Except Errno Int) :=
  if oldfd < 0 ∨ oldfd ≥ (lim.OPEN_MAX : Int) then .ok (F, .error .EBADF)
  else if newfd < 0 ∨ newfd ≥ (lim.OPEN_MAX : Int) then .ok (F, .error .EBADF)
  else if oldfd = newfd then .ok (F, .ok oldfd)
  else
    match cur.t_proc with
    | none => .error .badptr
    | some p =>
      match openFileTable_read lim F p oldfd with
      | .error e => .error e
      | .ok none => .ok (F, .error .EBADF)
      | .ok (some sf) =>
        match (F.sysTable sf).vn with
        | none => .ok (F, .error .EBADF)
        | some _ =>
          match openFileTable_read lim F p newfd with
          | .error e => .error e
          | .ok none => .error .badptr
          | .ok (some nf) =>
            if (F.sysTable nf).vn ≠ none then
              match sys_close lim o F cur newfd with
              | .error e => .error e
              | .ok (F1, _) => sys_dup2_link lim o F1 cur p oldfd newfd
            else sys_dup2_link lim o F cur p oldfd newfd

/-! ## Concrete states for the file calls -/

/-- The file state of a completed call that returns it with other values. -/
def files_of {α : Type} (x : Except Abort (Files × α)) : Files :=
  match x with
  | .ok (F, _) => F
  | .error _ => Files.boot

/-- The answers of a seekable file of 100 bytes. -/
def seek_file : SeekEnv := { seekable := true, stat := .ok 100 }

/-- The file state after the process at 2000 of `sys0` has opened a file (vnode 60)
with O_RDWR: the call returns descriptor 3. -/
def opened : Files :=
  files_of (sys_open lim0 opts_sem sys0.files child_thread false O_RDWR (console_ok 60))

/-- The file state after that process has then called sys_dup2(0, 1). -/
def dup01 : Files := files_of (sys_dup2 lim0 opts_sem sys0.files child_thread 0 1)

/-! ## Concrete states for an exit that meets a waiter -/

/-- The state after the thread of the process at 2000 of `sys0` (identifier 2,
parent_pid 1) has run the first part of sys__exit(42). -/
def exiting : Kernel := state_of ((sys__exit_head sys0.kernel child_thread 42).map Prod.fst)

/-- The state after a thread of kproc has then run proc_wait on that process. -/
def waited : Kernel := state_of ((proc_wait exiting parent_thread (some 2000)).map Prod.fst)

/-- The state after a kernel thread has created, by proc_create_runprogram, a process
at address 2000 for which sem_create got no storage. -/
def sys_nosem_created : System :=
  system_of (proc_create_runprogram lim0 opts_sem { kernel := booted, files := Files.boot }
    parent_thread { alloc_at 2000 with sem := false }
    (console_ok 40) (console_ok 41) (console_ok 42))

/-- The same state after the thread of that process has been attached. -/
def sys_nosem : System :=
  { kernel := state_of ((proc_addthread sys_nosem_created.kernel 2000
      { child_thread with t_proc := none }).map Prod.fst)
    files := sys_nosem_created.files }

/-! # Theorems -/

/-! ## The circular scan -/

theorem wrap_next_iterate (i : Nat) (h1 : 1 ≤ i) (h2 : i ≤ MAX_PROC) (m : Nat) :
    wrap_next^[m] i = (i - 1 + m) % MAX_PROC + 1 := by
  induction m with
  | zero =>
    simp only [Function.iterate_zero, id_eq, MAX_PROC] at *
    omega
  | succ m ih =>
    rw [Function.iterate_succ_apply', ih]
    simp only [wrap_next, MAX_PROC] at *
    split <;> omega

/-- What the three results of the loop mean, in terms of the slots it tested. -/
theorem scan_spec (T : ProcessTable) (fuel : Nat) : ∀ i : Nat,
    match scan T fuel i with
    | none => ∀ m, m < fuel →
        wrap_next^[m] i ≠ T.last_i ∧ T.proc (wrap_next^[m] i) ≠ none
    | some none => ∃ n, n < fuel ∧ wrap_next^[n] i = T.last_i ∧
        ∀ m, m < n → wrap_next^[m] i ≠ T.last_i ∧ T.proc (wrap_next^[m] i) ≠ none
    | some (some j) => ∃ n, n < fuel ∧ wrap_next^[n] i = j ∧ j ≠ T.last_i ∧
        T.proc j = none ∧
        ∀ m, m < n → wrap_next^[m] i ≠ T.last_i ∧ T.proc (wrap_next^[m] i) ≠ none := by
  induction fuel with
  | zero => intro i; simp [scan]
  | succ fuel ih =>
    intro i
    unfold scan
    by_cases h1 : i = T.last_i
    · rw [if_pos h1]
      exact ⟨0, by omega, h1, fun m hm => absurd hm (by omega)⟩
    · rw [if_neg h1]
      by_cases h2 : T.proc i = none
      · rw [if_pos h2]
        exact ⟨0, by omega, rfl, h1, h2, fun m hm => absurd hm (by omega)⟩
      · rw [if_neg h2]
        have step := ih (wrap_next i)
        have shift : ∀ m, wrap_next^[m] (wrap_next i) = wrap_next^[m + 1] i := fun m => by
          rw [Function.iterate_succ_apply]
        have low : ∀ n, (∀ m, m < n → wrap_next^[m] (wrap_next i) ≠ T.last_i ∧
              T.proc (wrap_next^[m] (wrap_next i)) ≠ none) →
            ∀ m, m < n + 1 → wrap_next^[m] i ≠ T.last_i ∧ T.proc (wrap_next^[m] i) ≠ none := by
          intro n hn m hm
          cases m with
          | zero => exact ⟨h1, h2⟩
          | succ m => rw [← shift]; exact hn m (by omega)
        cases hs : scan T fuel (wrap_next i) with
        | none =>
          rw [hs] at step
          exact low fuel step
        | some o =>
          cases o with
          | none =>
            rw [hs] at step
            obtain ⟨n, hn, e, hall⟩ := step
            exact ⟨n + 1, by omega, by rw [← shift]; exact e, low n hall⟩
          | some j =>
            rw [hs] at step
            obtain ⟨n, hn, e, hj, hjn, hall⟩ := step
            exact ⟨n + 1, by omega, by rw [← shift]; exact e, hj, hjn, low n hall⟩


theorem scan_start_range (T : ProcessTable) :
    1 ≤ scan_start T ∧ scan_start T ≤ MAX_PROC := by
  unfold scan_start MAX_PROC
  split <;> omega

/-- A slot found by the loop is in range, empty, not `last_i`, and every slot passed
before it is occupied. -/
theorem scan_found (T : ProcessTable) (start j : Nat) (h1 : 1 ≤ start)
    (h2 : start ≤ MAX_PROC) (h : scan T MAX_PROC start = some (some j)) :
    1 ≤ j ∧ j ≤ MAX_PROC ∧ T.proc j = none ∧ j ≠ T.last_i ∧
      ∀ k, scanned_before start k j → T.proc k ≠ none := by
  have sp := scan_spec T MAX_PROC start
  rw [h] at sp
  obtain ⟨n, hn, e, hj, hjn, hall⟩ := sp
  have it := wrap_next_iterate start h1 h2
  rw [it] at e
  have hall2 : ∀ m, m < n → T.proc ((start - 1 + m) % MAX_PROC + 1) ≠ none := by
    intro m hm
    have := (hall m hm).2
    rwa [it] at this
  simp only [MAX_PROC] at *
  refine ⟨by omega, by omega, hjn, hj, ?_⟩
  intro k hk
  unfold scanned_before at hk
  simp only [MAX_PROC] at hk
  by_cases c : start ≤ k
  · have := hall2 (k - start) (by omega)
    have e2 : (start - 1 + (k - start)) % 100 + 1 = k := by omega
    rwa [e2] at this
  · have := hall2 (k + 100 - start) (by omega)
    have e2 : (start - 1 + (k + 100 - start)) % 100 + 1 = k := by omega
    rwa [e2] at this

/-- When every slot other than `last_i` is occupied, the loop ends without a slot. -/
theorem scan_full (T : ProcessTable) (hl1 : 1 ≤ T.last_i) (hl2 : T.last_i ≤ MAX_PROC)
    (full : ∀ k, 1 ≤ k → k ≤ MAX_PROC → k ≠ T.last_i → T.proc k ≠ none) :
    scan T MAX_PROC (scan_start T) = some none := by
  have sp := scan_spec T MAX_PROC (scan_start T)
  obtain ⟨s1, s2⟩ := scan_start_range T
  have it := wrap_next_iterate (scan_start T) s1 s2
  have hs : scan_start T = T.last_i % MAX_PROC + 1 := by
    unfold scan_start
    simp only [MAX_PROC] at *
    split <;> omega
  cases hsc : scan T MAX_PROC (scan_start T) with
  | none =>
    rw [hsc] at sp
    have := (sp (MAX_PROC - 1) (by simp [MAX_PROC])).1
    rw [it] at this
    simp only [MAX_PROC] at *
    omega
  | some o =>
    cases o with
    | none => rfl
    | some j =>
      obtain ⟨a, b, c, d, _⟩ := scan_found T (scan_start T) j s1 s2 hsc
      exact absurd c (full j a b d)

/-- When some slot other than `last_i` is empty, the loop finds a slot. -/
theorem scan_succeeds (T : ProcessTable) (k : Nat) (hk1 : 1 ≤ k) (hk2 : k ≤ MAX_PROC)
    (hk3 : k ≠ T.last_i) (hk : T.proc k = none) :
    ∃ j, scan T MAX_PROC (scan_start T) = some (some j) := by
  have sp := scan_spec T MAX_PROC (scan_start T)
  obtain ⟨s1, s2⟩ := scan_start_range T
  have it := wrap_next_iterate (scan_start T) s1 s2
  have hs : scan_start T = if T.last_i + 1 > MAX_PROC then 1 else T.last_i + 1 := rfl
  have reach : (scan_start T - 1 + (k + MAX_PROC - scan_start T) % MAX_PROC) % MAX_PROC + 1
      = k := by
    simp only [MAX_PROC] at *
    omega
  cases hsc : scan T MAX_PROC (scan_start T) with
  | none =>
    rw [hsc] at sp
    have := (sp ((k + MAX_PROC - scan_start T) % MAX_PROC)
      (Nat.mod_lt _ (by simp [MAX_PROC]))).2
    rw [it, reach] at this
    exact absurd hk this
  | some o =>
    cases o with
    | some j => exact ⟨j, rfl⟩
    | none =>
      rw [hsc] at sp
      obtain ⟨n, hn, e, hall⟩ := sp
      rw [it] at e
      have lt : (k + MAX_PROC - scan_start T) % MAX_PROC < n := by
        simp only [MAX_PROC] at *
        split at hs <;> omega
      have := (hall _ lt).2
      rw [it, reach] at this
      exact absurd hk this

/-- A loop that is still running after MAX_PROC tests is still running after any
number of tests: it does not terminate. -/
theorem scan_none_forever (T : ProcessTable) (start : Nat) (h1 : 1 ≤ start)
    (h2 : start ≤ MAX_PROC) (h : scan T MAX_PROC start = none) (fuel : Nat) :
    scan T fuel start = none := by
  have sp := scan_spec T MAX_PROC start
  rw [h] at sp
  have it := wrap_next_iterate start h1 h2
  have all : ∀ m, wrap_next^[m] start ≠ T.last_i ∧ T.proc (wrap_next^[m] start) ≠ none := by
    intro m
    have := sp (m % MAX_PROC) (Nat.mod_lt _ (by simp [MAX_PROC]))
    rw [it] at this ⊢
    have e : (start - 1 + m % MAX_PROC) % MAX_PROC = (start - 1 + m) % MAX_PROC := by
      simp [Nat.add_mod]
    rwa [e] at this
  have sf := scan_spec T fuel start
  cases hsc : scan T fuel start with
  | none => rfl
  | some o =>
    rw [hsc] at sf
    cases o with
    | none =>
      obtain ⟨n, _, e, _⟩ := sf
      exact absurd e (all n).1
    | some j =>
      obtain ⟨n, _, e, _, hj, _⟩ := sf
      rw [← e] at hj
      exact absurd hj (all n).2


/-! ## Registration and deregistration -/

theorem store_heap_self (K : Kernel) (p : Nat) (r : Proc) : (K.store p r).heap p = some r := by
  simp [Kernel.store]

theorem store_heap_other (K : Kernel) (p q : Nat) (r : Proc) (h : q ≠ p) :
    (K.store p r).heap q = K.heap q := by
  simp [Kernel.store, h]

/-- The state a successful registration of `p` at slot `j` produces. -/
theorem proc_init_waitpid_ok (K K' : Kernel) (p : Nat) (sem_alloc : Bool)
    (h : proc_init_waitpid K p sem_alloc = .ok K') :
    ∃ r j, K.heap p = some r ∧
      scan K.processTable MAX_PROC (scan_start K.processTable) = some (some j) ∧
      K' = { heap := fun q => if q = p then
                some { r with p_pid := j, p_status := 0, p_sem := sem_create sem_alloc 0 }
              else K.heap q
             processTable :=
              { active := K.processTable.active
                proc := fun k => if k = j then some p else K.processTable.proc k
                last_i := j }
             kproc := K.kproc } := by
  unfold proc_init_waitpid proc_init_waitpid_locked at h
  cases hr : K.heap p with
  | none => simp [hr] at h
  | some r =>
    simp only [hr] at h
    have hs : (if K.processTable.last_i + 1 > MAX_PROC then 1 else K.processTable.last_i + 1)
        = scan_start K.processTable := rfl
    rw [hs] at h
    cases hsc : scan K.processTable MAX_PROC (scan_start K.processTable) with
    | none => simp [hsc] at h
    | some o =>
      cases o with
      | none => simp [hsc, Kernel.store] at h
      | some j =>
        simp only [hsc, Kernel.store, if_true] at h
        refine ⟨r, j, rfl, rfl, ?_⟩
        split at h
        · simp at h
        · simp only [Except.ok.injEq] at h
          rw [← h]
          simp only [ProcessTable.setSlot, Kernel.mk.injEq, and_true, true_and]
          funext q
          by_cases hq : q = p <;> simp [hq]


/-- The state a successful deregistration of `p` produces. -/
theorem proc_end_waitpid_ok (K K' : Kernel) (p : Nat) (h : proc_end_waitpid K p = .ok K') :
    ∃ r s, K.heap p = some r ∧ r.p_sem = some s ∧ 0 < r.p_pid ∧ r.p_pid ≤ MAX_PROC ∧
      K' = { heap := fun q => if q = p then some { r with p_sem := none } else K.heap q
             processTable :=
              { active := K.processTable.active
                proc := fun k => if k = r.p_pid then none else K.processTable.proc k
                last_i := K.processTable.last_i }
             kproc := K.kproc } := by
  unfold proc_end_waitpid at h
  cases hr : K.heap p with
  | none => simp [hr] at h
  | some r =>
    simp only [hr] at h
    split at h
    · rename_i hp
      cases hs : r.p_sem with
      | none => simp [hs] at h
      | some s =>
        simp only [hs, Except.ok.injEq] at h
        exact ⟨r, s, rfl, hs, hp.1, hp.2, by rw [← h]; rfl⟩
    · simp at h

theorem tableInv_boot : TableInv Kernel.boot := by
  refine ⟨rfl, ?_, ?_, by simp [Kernel.boot], fun _ _ => rfl⟩
  · intro i p h
    simp [Kernel.boot] at h
  · intro p r h
    simp [Kernel.boot] at h

theorem tableInv_register (K K' : Kernel) (p : Nat) (junk : Proc) (sem_alloc : Bool)
    (inv : TableInv K) (fresh : K.heap p = none)
    (h : proc_init_waitpid (K.store p junk) p sem_alloc = .ok K') : TableInv K' := by
  obtain ⟨r, j, hr, hsc, hK⟩ := proc_init_waitpid_ok _ _ _ _ h
  obtain ⟨s1, s2⟩ := scan_start_range (K.store p junk).processTable
  obtain ⟨j1, j2, jempty, _, _⟩ := scan_found _ _ j s1 s2 hsc
  obtain ⟨i0, i1, i2, i3, i4⟩ := inv
  have jempty2 : K.processTable.proc j = none := jempty
  subst hK
  refine ⟨?_, ?_, ?_, j2, ?_⟩
  · show (if 0 = j then some p else K.processTable.proc 0) = none
    rw [if_neg (by omega)]
    exact i0
  · intro i q hq
    simp only at hq
    by_cases hij : i = j
    · rw [if_pos hij] at hq
      simp only [Option.some.injEq] at hq
      subst hq hij
      exact ⟨j1, j2, _, if_pos rfl, rfl⟩
    · rw [if_neg hij] at hq
      obtain ⟨a, b, r', hr', e⟩ := i1 i q hq
      have hqp : q ≠ p := by
        rintro rfl
        rw [fresh] at hr'
        cases hr'
      refine ⟨a, b, r', ?_, e⟩
      simp [hqp, Kernel.store, hr']
  · intro q r' hq
    simp only at hq
    by_cases hqp : q = p
    · rw [if_pos hqp] at hq
      simp only [Option.some.injEq] at hq
      subst hq hqp
      exact ⟨j1, j2, by simp⟩
    · rw [if_neg hqp] at hq
      simp only [Kernel.store, if_neg hqp] at hq
      obtain ⟨a, b, c⟩ := i2 q r' hq
      refine ⟨a, b, ?_⟩
      have : r'.p_pid ≠ j := by
        intro e
        rw [e, jempty2] at c
        cases c
      simp [this, Kernel.store, c]
  · intro e
    simp only at e
    omega

theorem tableInv_deregister (K K' : Kernel) (p : Nat) (inv : TableInv K)
    (h : proc_end_waitpid K p = .ok K') : TableInv (K'.free p) := by
  obtain ⟨r, s, hr, _, p1, p2, hK⟩ := proc_end_waitpid_ok _ _ _ h
  obtain ⟨i0, i1, i2, i3, i4⟩ := inv
  obtain ⟨_, _, slotp⟩ := i2 p r hr
  subst hK
  refine ⟨?_, ?_, ?_, i3, ?_⟩
  · show (if 0 = r.p_pid then none else K.processTable.proc 0) = none
    rw [if_neg (by omega)]
    exact i0
  · intro i q hq
    simp only [Kernel.free] at hq
    by_cases hi : i = r.p_pid
    · simp [hi] at hq
    · rw [if_neg hi] at hq
      obtain ⟨a, b, r', hr', e⟩ := i1 i q hq
      have hqp : q ≠ p := by
        rintro rfl
        rw [hr] at hr'
        simp only [Option.some.injEq] at hr'
        subst hr'
        exact hi e.symm
      exact ⟨a, b, r', by simp [Kernel.free, hqp, hr'], e⟩
  · intro q r' hq
    simp only [Kernel.free] at hq
    by_cases hqp : q = p
    · simp [hqp] at hq
    · simp only [if_neg hqp] at hq
      obtain ⟨a, b, c⟩ := i2 q r' hq
      refine ⟨a, b, ?_⟩
      have : r'.p_pid ≠ r.p_pid := by
        intro e
        rw [e, slotp] at c
        simp only [Option.some.injEq] at c
        exact hqp c.symm
      simp [Kernel.free, this, c]
  · intro e i
    simp only [Kernel.free] at e ⊢
    rw [i4 e i]
    simp

/-- Every reachable process-table state satisfies the invariant. -/
theorem tableReachable_inv (K : Kernel) (h : TableReachable K) : TableInv K := by
  induction h with
  | boot => exact tableInv_boot
  | register K K' p junk sem_alloc _ fresh hk ih =>
    exact tableInv_register K K' p junk sem_alloc ih fresh hk
  | deregister K K' p _ hk ih => exact tableInv_deregister K K' p ih hk


/-- When every slot other than `last_i` is occupied and the cursor is in range, the
locked part leaves the table as it was with p_pid 0, and registration panics. -/
theorem proc_init_waitpid_panics (K : Kernel) (p : Nat) (r : Proc) (sem_alloc : Bool)
    (hr : K.heap p = some r)
    (hl1 : 1 ≤ K.processTable.last_i) (hl2 : K.processTable.last_i ≤ MAX_PROC)
    (full : ∀ k, 1 ≤ k → k ≤ MAX_PROC → k ≠ K.processTable.last_i →
      K.processTable.proc k ≠ none) :
    proc_init_waitpid_locked K p = .ok (K.store p { r with p_pid := 0 }) ∧
    proc_init_waitpid K p sem_alloc = .error .panic := by
  have hsc := scan_full K.processTable hl1 hl2 full
  have hlock : proc_init_waitpid_locked K p = .ok (K.store p { r with p_pid := 0 }) := by
    unfold proc_init_waitpid_locked
    simp only [hr]
    have hs : (if K.processTable.last_i + 1 > MAX_PROC then 1 else K.processTable.last_i + 1)
        = scan_start K.processTable := rfl
    rw [hs, hsc]
  refine ⟨hlock, ?_⟩
  unfold proc_init_waitpid
  rw [hlock]
  simp [Kernel.store]

/-- When some slot other than `last_i` is empty, registration succeeds: the panic of
`proc_init_waitpid_panics` is the only way a registration on an allocated record can
fail. -/
theorem proc_init_waitpid_succeeds (K : Kernel) (p : Nat) (r : Proc) (sem_alloc : Bool)
    (hr : K.heap p = some r) (k : Nat) (hk1 : 1 ≤ k) (hk2 : k ≤ MAX_PROC)
    (hk3 : k ≠ K.processTable.last_i) (hk : K.processTable.proc k = none) :
    ∃ K', proc_init_waitpid K p sem_alloc = .ok K' := by
  obtain ⟨j, hsc⟩ := scan_succeeds K.processTable k hk1 hk2 hk3 hk
  obtain ⟨s1, s2⟩ := scan_start_range K.processTable
  obtain ⟨j1, _, _, _, _⟩ := scan_found _ _ j s1 s2 hsc
  have hs : (if K.processTable.last_i + 1 > MAX_PROC then 1 else K.processTable.last_i + 1)
      = scan_start K.processTable := rfl
  unfold proc_init_waitpid proc_init_waitpid_locked
  simp only [hr]
  rw [hs, hsc]
  simp only [store_heap_self]
  rw [if_neg (by omega)]
  exact ⟨_, rfl⟩

/-- The loop stops at once at an empty slot that is not the cursor. -/
theorem scan_first (T : ProcessTable) (i : Nat) (h1 : i ≠ T.last_i)
    (h2 : T.proc i = none) : scan T MAX_PROC i = some (some i) := by
  show scan T (99 + 1) i = some (some i)
  unfold scan
  rw [if_neg h1, if_pos h2]

/-- Registering the record at address n + 1 in `filled n` gives `filled (n + 1)`. -/
theorem filled_register (n : Nat) (h : n < MAX_PROC) :
    proc_init_waitpid ((filled n).store (n + 1) (rec_at 0)) (n + 1) true
      = .ok (filled (n + 1)) := by
  have hstart : scan_start ((filled n).store (n + 1) (rec_at 0)).processTable = n + 1 := by
    show (if n + 1 > MAX_PROC then 1 else n + 1) = n + 1
    rw [if_neg (by omega)]
  have hsc : scan ((filled n).store (n + 1) (rec_at 0)).processTable MAX_PROC
      (scan_start ((filled n).store (n + 1) (rec_at 0)).processTable) = some (some (n + 1)) := by
    rw [hstart]
    apply scan_first
    · show n + 1 ≠ n
      omega
    · show (if 1 ≤ n + 1 ∧ n + 1 ≤ n then some (n + 1) else none) = none
      rw [if_neg (by omega)]
  have hs : (if ((filled n).store (n + 1) (rec_at 0)).processTable.last_i + 1 > MAX_PROC then 1
      else ((filled n).store (n + 1) (rec_at 0)).processTable.last_i + 1)
        = scan_start ((filled n).store (n + 1) (rec_at 0)).processTable := rfl
  unfold proc_init_waitpid proc_init_waitpid_locked
  have hheap : ((filled n).store (n + 1) (rec_at 0)).heap (n + 1) = some (rec_at 0) := by
    simp [Kernel.store]
  simp only [hheap]
  rw [hs, hsc]
  simp only [Kernel.store, if_true, Nat.add_one_ne_zero, if_false]
  congr 1
  simp only [filled, ProcessTable.setSlot, Kernel.mk.injEq, ProcessTable.mk.injEq, and_true,
    true_and]
  constructor
  · funext q
    by_cases hq : q = n + 1
    · subst hq
      simp [rec_at, sem_create, UINT_RANGE]
    · have : (1 ≤ q ∧ q ≤ n + 1) ↔ (1 ≤ q ∧ q ≤ n) := by omega
      simp [hq, this]
  · funext k
    by_cases hk : k = n + 1
    · subst hk
      simp
    · have : (1 ≤ k ∧ k ≤ n + 1) ↔ (1 ≤ k ∧ k ≤ n) := by omega
      simp [hk, this]

theorem filled_zero : filled 0 = Kernel.boot := by
  simp only [filled, Kernel.boot, Kernel.mk.injEq, ProcessTable.mk.injEq, and_true, true_and]
  constructor <;> funext q <;> simp <;> omega

/-- The states `filled n` are reachable, up to the full table. -/
theorem filled_reachable (n : Nat) (h : n ≤ MAX_PROC) : TableReachable (filled n) := by
  induction n with
  | zero => rw [filled_zero]; exact TableReachable.boot
  | succ n ih =>
    refine TableReachable.register (filled n) _ (n + 1) (rec_at 0) true (ih (by omega)) ?_
      (filled_register n (by omega))
    show (if 1 ≤ n + 1 ∧ n + 1 ≤ n then some (rec_at (n + 1)) else none) = none
    rw [if_neg (by omega)]

/-- Deregistering the process registered last in the full table gives `last_freed`. -/
theorem last_freed_reachable : TableReachable last_freed := by
  have hend : proc_end_waitpid (filled 100) 100 = .ok
      { heap := fun q => if q = 100 then some { rec_at 100 with p_sem := none }
          else (filled 100).heap q
        processTable := (filled 100).processTable.setSlot 100 none
        kproc := none } := by
    unfold proc_end_waitpid
    simp [filled, rec_at, MAX_PROC, Kernel.store]
  have := TableReachable.deregister (filled 100) _ 100 (filled_reachable 100 (by decide)) hend
  have e : last_freed = Kernel.free
      { heap := fun q => if q = 100 then some { rec_at 100 with p_sem := none }
          else (filled 100).heap q
        processTable := (filled 100).processTable.setSlot 100 none
        kproc := none } 100 := by
    simp only [last_freed, Kernel.free, filled, ProcessTable.setSlot, Kernel.mk.injEq,
      ProcessTable.mk.injEq, and_true, true_and]
    constructor
    · funext q
      by_cases hq : q = 100
      · subst hq; simp
      · have : (1 ≤ q ∧ q ≤ 99) ↔ (1 ≤ q ∧ q ≤ 100) := by omega
        simp [hq, this]
    · funext k
      by_cases hk : k = 100
      · subst hk; simp
      · have : (1 ≤ k ∧ k ≤ 99) ↔ (1 ≤ k ∧ k ≤ 100) := by omega
        simp [hk, this]
  rw [e]
  exact this


/-! ## Claims about the process table -/

/-- C2: in every process-table state reachable from the zeroed table by registrations
and deregistrations, slot 0 is empty, and every live registered process has an identifier
in 1..MAX_PROC, sits in slot p_pid of the table, and shares its identifier with no
other live process. -/
theorem table_invariant_reachable (K : Kernel) (h : TableReachable K) :
    K.processTable.proc 0 = none ∧
    ∀ p r, K.heap p = some r →
      1 ≤ r.p_pid ∧ r.p_pid ≤ MAX_PROC ∧ K.processTable.proc r.p_pid = some p ∧
      ∀ q r', K.heap q = some r' → r'.p_pid = r.p_pid → q = p := by
  obtain ⟨i0, _, i2, _, _⟩ := tableReachable_inv K h
  refine ⟨i0, ?_⟩
  intro p r hr
  obtain ⟨a, b, c⟩ := i2 p r hr
  refine ⟨a, b, c, ?_⟩
  intro q r' hq e
  obtain ⟨_, _, c'⟩ := i2 q r' hq
  rw [e, c] at c'
  simp only [Option.some.injEq] at c'
  exact c'.symm

/-- Witness of C2 at the state reached by three registrations. -/
theorem table_invariant_reachable_witness :
    TableReachable (filled 3) ∧
    ((filled 3).processTable.proc 0 = none ∧
    ∀ p r, (filled 3).heap p = some r →
      1 ≤ r.p_pid ∧ r.p_pid ≤ MAX_PROC ∧ (filled 3).processTable.proc r.p_pid = some p ∧
      ∀ q r', (filled 3).heap q = some r' → r'.p_pid = r.p_pid → q = p) :=
  ⟨filled_reachable 3 (by decide),
   table_invariant_reachable (filled 3) (filled_reachable 3 (by decide))⟩

/-- C3: when proc_init_waitpid succeeds, the identifier it assigns is the first empty
slot met in circular order from last_i + 1 (wrapping from MAX_PROC to 1, slot 0 never
visited): it is in 1..MAX_PROC, was empty, every slot passed before it was occupied;
last_i becomes that identifier, the slot holds the new record, and every other slot is
unchanged. -/
theorem proc_init_waitpid_first_free (K K' : Kernel) (p : Nat) (sem_alloc : Bool)
    (h : proc_init_waitpid K p sem_alloc = .ok K') :
    1 ≤ K'.processTable.last_i ∧ K'.processTable.last_i ≤ MAX_PROC ∧
    K.processTable.proc K'.processTable.last_i = none ∧
    (∀ k, scanned_before (scan_start K.processTable) k K'.processTable.last_i →
      1 ≤ k ∧ K.processTable.proc k ≠ none) ∧
    (∃ r', K'.heap p = some r' ∧ r'.p_pid = K'.processTable.last_i) ∧
    K'.processTable.proc K'.processTable.last_i = some p ∧
    ∀ k, k ≠ K'.processTable.last_i → K'.processTable.proc k = K.processTable.proc k := by
  obtain ⟨r, j, hr, hsc, hK⟩ := proc_init_waitpid_ok _ _ _ _ h
  obtain ⟨s1, s2⟩ := scan_start_range K.processTable
  obtain ⟨j1, j2, jempty, _, before⟩ := scan_found _ _ j s1 s2 hsc
  subst hK
  refine ⟨j1, j2, jempty, ?_, ⟨_, if_pos rfl, rfl⟩, if_pos rfl, ?_⟩
  · intro k hk
    refine ⟨?_, before k hk⟩
    unfold scanned_before at hk
    omega
  · intro k hk
    exact if_neg hk

/-- Witness of C3: registering a sixth record in the state with slots 1..5 occupied. -/
theorem proc_init_waitpid_first_free_witness :
    proc_init_waitpid ((filled 5).store 6 (rec_at 0)) 6 true = .ok (filled 6) ∧
    (1 ≤ (filled 6).processTable.last_i ∧ (filled 6).processTable.last_i ≤ MAX_PROC ∧
    ((filled 5).store 6 (rec_at 0)).processTable.proc (filled 6).processTable.last_i = none ∧
    (∀ k, scanned_before (scan_start ((filled 5).store 6 (rec_at 0)).processTable) k
        (filled 6).processTable.last_i →
      1 ≤ k ∧ ((filled 5).store 6 (rec_at 0)).processTable.proc k ≠ none) ∧
    (∃ r', (filled 6).heap 6 = some r' ∧ r'.p_pid = (filled 6).processTable.last_i) ∧
    (filled 6).processTable.proc (filled 6).processTable.last_i = some 6 ∧
    ∀ k, k ≠ (filled 6).processTable.last_i →
      (filled 6).processTable.proc k = ((filled 5).store 6 (rec_at 0)).processTable.proc k) :=
  ⟨filled_register 5 (by decide),
   proc_init_waitpid_first_free _ _ 6 true (filled_register 5 (by decide))⟩

/-- C4 (the code at the failing input): the state `last_freed` is reachable, its slot
100 is empty and address 200 is free, yet registering a new record there takes the
table-full panic: the scan stops when it comes back to last_i = 100 without testing
that slot. -/
theorem register_after_last_freed_panics :
    TableReachable last_freed ∧
    last_freed.processTable.proc 100 = none ∧
    last_freed.heap 200 = none ∧
    proc_init_waitpid (last_freed.store 200 (rec_at 0)) 200 true = .error .panic := by
  refine ⟨last_freed_reachable, by simp [last_freed], by simp [last_freed], ?_⟩
  refine (proc_init_waitpid_panics (last_freed.store 200 (rec_at 0)) 200 (rec_at 0) true
    (by simp [Kernel.store]) (by simp [Kernel.store, last_freed])
    (by simp [Kernel.store, last_freed, MAX_PROC]) ?_).2
  intro k k1 k2 k3
  have k3' : k ≠ 100 := k3
  simp only [MAX_PROC] at k2
  show (if 1 ≤ k ∧ k ≤ 99 then some k else none) ≠ none
  rw [if_pos (by omega)]
  simp

/-- C5: in a reachable state whose slots 1..MAX_PROC are all occupied, registering one
more record fails: the locked part of proc_init_waitpid ends with the table slots and
last_i as they were and the new record's p_pid 0, and proc_init_waitpid panics. -/
theorem proc_init_waitpid_table_full (K : Kernel) (p : Nat) (junk : Proc) (sem_alloc : Bool)
    (hreach : TableReachable K)
    (full : ∀ k, 1 ≤ k → k ≤ MAX_PROC → K.processTable.proc k ≠ none) :
    proc_init_waitpid (K.store p junk) p sem_alloc = .error .panic ∧
    ∃ K1, proc_init_waitpid_locked (K.store p junk) p = .ok K1 ∧
      K1.processTable.proc = K.processTable.proc ∧
      K1.processTable.last_i = K.processTable.last_i ∧
      (∃ r1, K1.heap p = some r1 ∧ r1.p_pid = 0) ∧
      ∀ q, q ≠ p → K1.heap q = K.heap q := by
  obtain ⟨_, _, _, i3, i4⟩ := tableReachable_inv K hreach
  have hl1 : 1 ≤ K.processTable.last_i := by
    by_contra hc
    exact full 1 (le_refl 1) (by decide) (i4 (by omega) 1)
  obtain ⟨a, b⟩ := proc_init_waitpid_panics (K.store p junk) p junk sem_alloc
    (by simp [Kernel.store]) hl1 i3 (fun k k1 k2 _ => full k k1 k2)
  refine ⟨b, _, a, rfl, rfl, ⟨_, if_pos rfl, rfl⟩, ?_⟩
  intro q hq
  simp [Kernel.store, hq]

/-- Witness of C5 at the full table reached by MAX_PROC registrations. -/
theorem proc_init_waitpid_table_full_witness :
    TableReachable (filled 100) ∧
    (∀ k, 1 ≤ k → k ≤ MAX_PROC → (filled 100).processTable.proc k ≠ none) ∧
    (proc_init_waitpid ((filled 100).store 200 (rec_at 0)) 200 true = .error .panic ∧
    ∃ K1, proc_init_waitpid_locked ((filled 100).store 200 (rec_at 0)) 200 = .ok K1 ∧
      K1.processTable.proc = (filled 100).processTable.proc ∧
      K1.processTable.last_i = (filled 100).processTable.last_i ∧
      (∃ r1, K1.heap 200 = some r1 ∧ r1.p_pid = 0) ∧
      ∀ q, q ≠ 200 → K1.heap q = (filled 100).heap q) :=
  ⟨filled_reachable 100 (by decide),
   fun k k1 k2 => by simp [filled, MAX_PROC] at k2 ⊢; omega,
   proc_init_waitpid_table_full (filled 100) 200 (rec_at 0) true
     (filled_reachable 100 (by decide))
     (fun k k1 k2 => by simp [filled, MAX_PROC] at k2 ⊢; omega)⟩


/-! ## What the calls of the wait/exit protocol do to the state -/

/-- A successful proc_search_pid returns a live record that carries the identifier. -/
theorem proc_search_pid_ok (K : Kernel) (pid : Int) (res : Option Nat)
    (h : proc_search_pid K pid = .ok res) :
    ∃ q rq, res = some q ∧ 0 ≤ pid ∧ pid ≤ (MAX_PROC : Int) ∧
      K.processTable.proc pid.toNat = some q ∧ K.heap q = some rq ∧ (rq.p_pid : Int) = pid := by
  unfold proc_search_pid at h
  split at h
  · rename_i hr
    cases ht : K.processTable.proc pid.toNat with
    | none => simp [ht] at h
    | some q =>
      simp only [ht] at h
      cases hq : K.heap q with
      | none => simp [hq] at h
      | some rq =>
        simp only [hq] at h
        split at h
        · rename_i e
          simp only [Except.ok.injEq] at h
          exact ⟨q, rq, h.symm, hr.1, hr.2, rfl, hq, e⟩
        · simp at h
  · simp at h

/-- The state a successful sys__exit leaves: the record of the exiting process has the
status byte, one thread less and a semaphore raised by V; its parent has the
identifier removed from the child list. -/
theorem sys__exit_ok (K K' : Kernel) (cur : Thread) (status : Int)
    (h : sys__exit K cur status = .ok K') :
    ∃ p r s q rq, cur.t_proc = some p ∧ K.heap p = some r ∧ 0 < r.p_numthreads ∧
      V r.p_sem = .ok s ∧
      (K.store p { r with p_status := Int.land status 0xff,
                          p_numthreads := r.p_numthreads - 1, p_sem := some s }).heap q
        = some rq ∧
      K' = (K.store p
              { r with p_status := Int.land status 0xff,
                       p_numthreads := r.p_numthreads - 1, p_sem := some s }).store q
            { rq with child := remove_child_list r.p_pid rq.child } := by
  unfold sys__exit at h
  cases hp : cur.t_proc with
  | none => simp [hp] at h
  | some p =>
    simp only [hp] at h
    cases hr : K.heap p with
    | none => simp [hr] at h
    | some r =>
      simp only [hr] at h
      by_cases hn : 0 < r.p_numthreads
      · have hrem : proc_remthread (K.store p { r with p_status := Int.land status 0xff }) cur
            = .ok (K.store p { r with p_status := Int.land status 0xff,
                                      p_numthreads := r.p_numthreads - 1 },
                   { cur with t_proc := none }) := by
          unfold proc_remthread
          simp only [hp, store_heap_self, hn, if_true]
          congr 2
          simp only [Kernel.store, Kernel.mk.injEq, and_true, true_and]
          funext x
          by_cases hx : x = p <;> simp [hx]
        rw [hrem] at h
        simp only [store_heap_self] at h
        cases hv : V r.p_sem with
        | error e => simp [hv] at h
        | ok s =>
          simp only [hv] at h
          have same : (K.store p { r with p_status := Int.land status 0xff,
                                          p_numthreads := r.p_numthreads - 1 }).store p
                { r with p_status := Int.land status 0xff,
                         p_numthreads := r.p_numthreads - 1, p_sem := some s }
              = K.store p { r with p_status := Int.land status 0xff,
                                   p_numthreads := r.p_numthreads - 1, p_sem := some s } := by
            simp only [Kernel.store, Kernel.mk.injEq, and_true, true_and]
            funext x
            by_cases hx : x = p <;> simp [hx]
          rw [same] at h
          split at h
          · simp at h
          · rename_i parent hsearch
            obtain ⟨q, rq, e1, _, _, _, hq, _⟩ := proc_search_pid_ok _ _ _ hsearch
            subst e1
            simp only [remove_child, hq, Except.ok.injEq] at h
            exact ⟨p, r, s, q, rq, rfl, hr, hn, hv, hq, h.symm⟩
      · have hrem : proc_remthread (K.store p { r with p_status := Int.land status 0xff }) cur
            = .error .kassert := by
          unfold proc_remthread
          simp only [hp, store_heap_self, hn, if_false]
        rw [hrem] at h
        simp at h


/-- The child loop of proc_destroy writes parent_pid fields only. -/
theorem proc_destroy_children_frame (l : List Nat) : ∀ (K K' : Kernel),
    proc_destroy_children K l = .ok K' →
    K'.processTable = K.processTable ∧ K'.kproc = K.kproc ∧
    ∀ q, (K'.heap q).map (fun r => { r with parent_pid := 0 })
       = (K.heap q).map (fun r => { r with parent_pid := 0 }) := by
  induction l with
  | nil =>
    intro K K' h
    simp only [proc_destroy_children, Except.ok.injEq] at h
    subst h
    exact ⟨rfl, rfl, fun _ => rfl⟩
  | cons c rest ih =>
    intro K K' h
    unfold proc_destroy_children at h
    split at h
    · simp at h
    · simp at h
    · rename_i q hsearch
      cases hq : K.heap q with
      | none => simp [hq] at h
      | some rq =>
        simp only [hq] at h
        obtain ⟨a, b, c⟩ := ih _ _ h
        refine ⟨a, b, ?_⟩
        intro x
        rw [c x]
        by_cases hx : x = q
        · subst hx
          simp [Kernel.store, hq]
        · simp [Kernel.store, hx]

/-- What a successful proc_destroy went through. -/
theorem proc_destroy_ok (K K' : Kernel) (p : Nat) (h : proc_destroy K (some p) = .ok K') :
    ∃ r K2 K3, some p ≠ K.kproc ∧ K.heap p = some r ∧ r.p_numthreads = 0 ∧
      proc_end_waitpid (K.store p { r with p_cwd := none, p_addrspace := none }) p = .ok K2 ∧
      proc_destroy_children K2 r.child = .ok K3 ∧ K' = K3.free p := by
  unfold proc_destroy at h
  simp only at h
  split at h
  · simp at h
  · rename_i hk
    cases hr : K.heap p with
    | none => simp [hr] at h
    | some r =>
      simp only [hr] at h
      split at h
      · rename_i hn
        cases he : proc_end_waitpid (K.store p { r with p_cwd := none, p_addrspace := none }) p with
        | error e => simp [he] at h
        | ok K2 =>
          simp only [he] at h
          cases hc : proc_destroy_children K2 r.child with
          | error e => simp [hc] at h
          | ok K3 =>
            simp only [hc, Except.ok.injEq] at h
            exact ⟨r, K2, K3, hk, rfl, hn, he, hc, h.symm⟩
      · simp at h

/-- After a successful proc_destroy of `p` the record is freed, its table slot is empty,
and every other record keeps its contents apart from parent_pid. -/
theorem proc_destroy_effect (K K' : Kernel) (p : Nat) (r : Proc) (hr : K.heap p = some r)
    (h : proc_destroy K (some p) = .ok K') :
    K'.heap p = none ∧ K'.processTable.proc r.p_pid = none ∧
    (∀ k, k ≠ r.p_pid → K'.processTable.proc k = K.processTable.proc k) ∧
    ∀ q, q ≠ p → (K'.heap q).map (fun r => { r with parent_pid := 0 })
       = (K.heap q).map (fun r => { r with parent_pid := 0 }) := by
  obtain ⟨r0, K2, K3, _, hr0, _, hend, hch, hK⟩ := proc_destroy_ok K K' p h
  rw [hr] at hr0
  simp only [Option.some.injEq] at hr0
  subst hr0
  obtain ⟨r1, s, hr1, _, _, _, hK2⟩ := proc_end_waitpid_ok _ _ _ hend
  rw [store_heap_self] at hr1
  simp only [Option.some.injEq] at hr1
  subst hr1
  obtain ⟨f1, _, f3⟩ := proc_destroy_children_frame _ _ _ hch
  subst hK hK2
  refine ⟨by simp [Kernel.free], ?_, ?_, ?_⟩
  · show K3.processTable.proc r.p_pid = none
    rw [f1]
    simp
  · intro k hk
    show K3.processTable.proc k = _
    rw [f1]
    simp [hk, Kernel.store]
  · intro q hq
    have := f3 q
    simp only [Kernel.free, if_neg hq]
    rw [this]
    simp [hq, Kernel.store]

/-- What a successful proc_wait went through. -/
theorem proc_wait_ok (K K' : Kernel) (cur : Thread) (p : Nat) (st : Int)
    (h : proc_wait K cur (some p) = .ok (K', st)) :
    ∃ r s, some p ≠ K.kproc ∧ K.heap p = some r ∧ P cur.t_in_interrupt r.p_sem = .ok s ∧
      st = r.p_status ∧ proc_destroy (K.store p { r with p_sem := some s }) (some p) = .ok K' := by
  unfold proc_wait at h
  simp only at h
  split at h
  · simp at h
  · rename_i hk
    cases hr : K.heap p with
    | none => simp [hr] at h
    | some r =>
      simp only [hr] at h
      cases hP : P cur.t_in_interrupt r.p_sem with
      | error e => simp [hP] at h
      | ok s =>
        simp only [hP] at h
        cases hd : proc_destroy (K.store p { r with p_sem := some s }) (some p) with
        | error e => simp [hd] at h
        | ok K2 =>
          simp only [hd, Except.ok.injEq, Prod.mk.injEq] at h
          exact ⟨r, s, hk, rfl, hP, h.2.symm, h.1 ▸ hd⟩

/-- A semaphore on which V completes exists, and its count is raised by one modulo
the range of unsigned. -/
theorem V_ok (sem : Option Semaphore) (s' : Semaphore) (h : V sem = .ok s') :
    ∃ s, sem = some s ∧ s'.sem_count = (s.sem_count + 1) % UINT_RANGE ∧ 0 < s'.sem_count := by
  unfold V at h
  cases sem with
  | none => simp at h
  | some s =>
    simp only at h
    split at h
    · rename_i hc
      simp only [Except.ok.injEq] at h
      subst h
      exact ⟨s, rfl, rfl, hc⟩
    · simp at h


/-- What a successful proc_create that returns a record did: the record at the
allocated address is initialised and registered at the slot found by the scan; nothing
else changes. -/
theorem proc_create_ok (K K1 : Kernel) (a : Alloc) (p : Nat)
    (h : proc_create K a = .ok (K1, some p)) :
    a.proc = some p ∧ a.name = true ∧
    ∃ j r1, scan K.processTable MAX_PROC (scan_start K.processTable) = some (some j) ∧
      K1.heap p = some r1 ∧ r1.p_pid = j ∧ r1.p_numthreads = 0 ∧
      r1.p_sem = sem_create a.sem 0 ∧ r1.p_status = 0 ∧ r1.parent_pid = 1 ∧ r1.child = [] ∧
      (∀ q, q ≠ p → K1.heap q = K.heap q) ∧
      K1.processTable.proc j = some p ∧
      (∀ k, k ≠ j → K1.processTable.proc k = K.processTable.proc k) ∧
      K1.processTable.last_i = j ∧ K1.kproc = K.kproc := by
  unfold proc_create at h
  cases hp : a.proc with
  | none => simp [hp] at h
  | some p0 =>
    simp only [hp] at h
    cases hn : a.name with
    | false => simp [hn] at h
    | true =>
      simp only [hn, if_true] at h
      cases hi : proc_init_waitpid
          (K.store p0 { a.junk with p_numthreads := 0, p_addrspace := none, p_cwd := none })
          p0 a.sem with
      | error e => simp [hi] at h
      | ok K2 =>
        simp only [hi] at h
        obtain ⟨r, j, hr, hsc, hK2⟩ := proc_init_waitpid_ok _ _ _ _ hi
        rw [store_heap_self] at hr
        simp only [Option.some.injEq] at hr
        subst hr
        subst hK2
        simp only [if_true, Except.ok.injEq, Prod.mk.injEq, Option.some.injEq] at h
        obtain ⟨h1, h2⟩ := h
        subst h2
        subst h1
        refine ⟨rfl, rfl, j, _, hsc, store_heap_self _ _ _, rfl, rfl, rfl, rfl, rfl, rfl,
          ?_, ?_, ?_, rfl, rfl⟩
        · intro q hq
          simp [Kernel.store, hq]
        · simp [Kernel.store]
        · intro k hk
          simp [Kernel.store, hk]

/-- Starting from the zeroed table, proc_bootstrap with successful allocations registers
the kernel process in slot 1 and creates a semaphore for it. -/
theorem proc_bootstrap_boot (p : Nat) (junk : Proc) (sem_alloc : Bool) :
    ∃ K, proc_bootstrap Kernel.boot { proc := some p, junk := junk, name := true,
                                       sem := sem_alloc } = .ok K ∧
      K.kproc = some p ∧ K.processTable.proc 1 = some p ∧
      ∃ r, K.heap p = some r ∧ r.p_pid = 1 ∧ r.p_sem = sem_create sem_alloc 0 ∧
        r.p_numthreads = 0 := by
  have hsc : scan Kernel.boot.processTable MAX_PROC 1 = some (some 1) :=
    scan_first _ 1 (by simp [Kernel.boot]) (by simp [Kernel.boot])
  have hs : ∀ (K : Kernel), (if K.processTable.last_i + 1 > MAX_PROC then 1
      else K.processTable.last_i + 1) = scan_start K.processTable := fun _ => rfl
  have hstart : ∀ r, scan_start (Kernel.boot.store p r).processTable = 1 := fun _ => rfl
  unfold proc_bootstrap proc_create proc_init_waitpid proc_init_waitpid_locked
  simp only [store_heap_self, if_true]
  rw [hs, hstart]
  have hsc2 : ∀ r, scan (Kernel.boot.store p r).processTable MAX_PROC 1 = some (some 1) :=
    fun _ => hsc
  rw [hsc2]
  simp only [store_heap_self, if_true, Nat.one_ne_zero, if_false]
  refine ⟨_, rfl, rfl, ?_, _, store_heap_self _ _ _, rfl, rfl, rfl⟩
  simp [Kernel.store, ProcessTable.setSlot]


/-! ## Claims about the kernel process and the exit status -/

/-- C6 (the code at the failing input): proc_bootstrap on the zeroed state, with the
record allocated at any address `p`, registers kproc in the process table: slot 1 holds
kproc, kproc gets the identifier 1, which is in 1..MAX_PROC, and sem_create is called
for it. -/
theorem proc_bootstrap_registers_kproc (p : Nat) (junk : Proc) (sem_alloc : Bool) :
    ∃ K, proc_bootstrap Kernel.boot { proc := some p, junk := junk, name := true,
                                       sem := sem_alloc } = .ok K ∧
      K.kproc = some p ∧ K.processTable.proc 1 = K.kproc ∧
      ∃ r, K.heap p = some r ∧ r.p_pid = 1 ∧ 1 ≤ r.p_pid ∧ r.p_pid ≤ MAX_PROC ∧
        r.p_sem = sem_create sem_alloc 0 := by
  obtain ⟨K, h1, h2, h3, r, h4, h5, h6, _⟩ := proc_bootstrap_boot p junk sem_alloc
  refine ⟨K, h1, h2, by rw [h3, h2], r, h4, h5, ?_, ?_, h6⟩
  · omega
  · rw [h5]; decide

set_option maxRecDepth 100000 in
theorem xor_255 : ∀ k, k < 256 → 255 ^^^ k = 255 - k := by decide

theorem ldiff_255 (m : Nat) : Nat.ldiff 255 m = 255 - m % 256 := by
  have h1 : Nat.ldiff 255 m = 255 ^^^ (m % 256) := by
    apply Nat.eq_of_testBit_eq
    intro i
    have e255 : (255 : Nat) = 2 ^ 8 - 1 := by norm_num
    have e256 : (256 : Nat) = 2 ^ 8 := by norm_num
    rw [Nat.testBit_ldiff, Nat.testBit_xor, e256, Nat.testBit_mod_two_pow, e255,
      Nat.testBit_two_pow_sub_one]
    by_cases h : i < 8 <;> simp [h]
  rw [h1, xor_255 _ (Nat.mod_lt _ (by norm_num))]

/-- The C expression `status & 0xff` on a two's complement int is the residue of
status modulo 256. -/
theorem land_255 (s : Int) : Int.land s 0xff = s % 256 := by
  cases s with
  | ofNat m =>
    show ((m &&& 255 : Nat) : Int) = _
    have := Nat.and_pow_two_sub_one_eq_mod m 8
    norm_num at this
    rw [this]
    rfl
  | negSucc m =>
    show ((Nat.ldiff 255 m : Nat) : Int) = _
    rw [ldiff_255, Int.negSucc_eq]
    omega

/-- After sys__exit the record of the exiting process holds the status byte and a
semaphore with a positive count. -/
theorem sys__exit_record (K K1 : Kernel) (cur : Thread) (p : Nat) (status : Int)
    (hp : cur.t_proc = some p) (h : sys__exit K cur status = .ok K1) :
    ∃ r1 s, K1.heap p = some r1 ∧ r1.p_status = Int.land status 0xff ∧
      r1.p_sem = some s ∧ 0 < s.sem_count ∧ r1.p_numthreads + 1 =
        ((K.heap p).map (fun r => r.p_numthreads)).getD 0 := by
  obtain ⟨p0, r, s, q, rq, h1, h2, h3, h4, h5, h6⟩ := sys__exit_ok K K1 cur status h
  rw [hp] at h1
  simp only [Option.some.injEq] at h1
  subst h1
  obtain ⟨s0, _, _, hpos⟩ := V_ok _ _ h4
  subst h6
  by_cases hq : q = p
  · subst hq
    rw [store_heap_self] at h5
    simp only [Option.some.injEq] at h5
    subst h5
    refine ⟨_, s, store_heap_self _ _ _, ?_, ?_, hpos, ?_⟩
    · rfl
    · rfl
    · simp only [h2, Option.map_some', Option.getD_some]
      omega
  · have hh := store_heap_self K p
      { r with p_status := Int.land status 0xff,
               p_numthreads := r.p_numthreads - 1, p_sem := some s }
    rw [← store_heap_other _ q p { rq with child := remove_child_list r.p_pid rq.child }
      (Ne.symm hq)] at hh
    refine ⟨_, s, hh, rfl, rfl, hpos, ?_⟩
    simp only [h2, Option.map_some', Option.getD_some]
    omega

/-- C1: if the thread of process `p` runs sys__exit with any integer status and a
proc_wait on `p` then returns, the returned value is `status & 0xff`, which lies in
0..255 and is the residue of status modulo 256 (also for a negative status and for a
status of 256 or more). -/
theorem exit_wait_round_trip (K K1 K2 : Kernel) (cur waiter : Thread) (p : Nat)
    (status ret : Int) (hp : cur.t_proc = some p)
    (hexit : sys__exit K cur status = .ok K1)
    (hwait : proc_wait K1 waiter (some p) = .ok (K2, ret)) :
    ret = Int.land status 0xff ∧ 0 ≤ ret ∧ ret ≤ 255 ∧ ret = status % 256 := by
  obtain ⟨r1, s, hr1, hst, _, _, _⟩ := sys__exit_record K K1 cur p status hp hexit
  obtain ⟨r, s', _, hr, _, hret, _⟩ := proc_wait_ok K1 K2 waiter p ret hwait
  rw [hr1] at hr
  simp only [Option.some.injEq] at hr
  subst hr
  have e : ret = Int.land status 0xff := by rw [hret, hst]
  have e2 := land_255 status
  refine ⟨e, ?_, ?_, by rw [e, e2]⟩ <;> omega


/-! ## The concrete run: boot, create, attach, exit(42), wait -/

theorem booted_ok : proc_bootstrap Kernel.boot (alloc_at 1000) = .ok booted := rfl

theorem created_ok : proc_create booted (alloc_at 2000) = .ok (created, some 2000) := rfl

theorem spawned_ok : proc_addthread created 2000 { child_thread with t_proc := none }
    = .ok (spawned, child_thread) := rfl

theorem exited42_ok : sys__exit spawned child_thread 42 = .ok exited42 := rfl

theorem reaped_ok : proc_wait exited42 parent_thread (some 2000) = .ok (reaped, 42) := rfl

theorem run_spawned : Run [.spawn 2000] spawned :=
  Run.spawn [] booted created spawned (alloc_at 2000) 2000 _ _
    (Run.boot (alloc_at 1000) booted booted_ok) rfl rfl created_ok spawned_ok

theorem run_exited42 : Run [.exit 2000, .spawn 2000] exited42 :=
  Run.exit _ spawned exited42 child_thread 2000 42 run_spawned rfl exited42_ok

theorem run_reaped : Run [.wait 2000, .exit 2000, .spawn 2000] reaped :=
  Run.wait _ exited42 reaped parent_thread 2000 42 run_exited42 reaped_ok

/-- Witness of C1 on the concrete run, with status 42. -/
theorem exit_wait_round_trip_witness :
    child_thread.t_proc = some 2000 ∧
    sys__exit spawned child_thread 42 = .ok exited42 ∧
    proc_wait exited42 parent_thread (some 2000) = .ok (reaped, 42) ∧
    ((42 : Int) = Int.land 42 0xff ∧ (0 : Int) ≤ 42 ∧ (42 : Int) ≤ 255 ∧ (42 : Int) = 42 % 256) :=
  ⟨rfl, exited42_ok, reaped_ok,
   exit_wait_round_trip spawned exited42 reaped child_thread parent_thread 2000 42 42 rfl
     exited42_ok reaped_ok⟩

/-- C8 (the code at the failing input): on the concrete run the first sys_waitpid(2)
returns 2 with status 42 and leaves slot 2 empty and the record freed; the second
sys_waitpid(2) reads `p->p_pid` through the NULL table entry inside proc_search_pid
(`Abort.badptr`) instead of returning an error. -/
theorem second_waitpid_null_deref :
    Run [.exit 2000, .spawn 2000] exited42 ∧
    sys_waitpid exited42 parent_thread 2 true 0 = .ok (reaped, 2, some 42) ∧
    reaped.processTable.proc 2 = none ∧ reaped.heap 2000 = none ∧
    sys_waitpid reaped parent_thread 2 true 0 = .error .badptr :=
  ⟨run_exited42, rfl, rfl, rfl, rfl⟩


/-! ## The rendezvous invariant -/

theorem lock_acquire_sem_owner (o : LockOpts) (L L1 : Lock) (cur : Thread)
    (h : lock_acquire_sem o L cur = .ok L1) : L1.lk_owner = L.lk_owner := by
  unfold lock_acquire_sem at h
  split at h
  · split at h
    · simp at h
    · simp only [Except.ok.injEq] at h
      subst h
      rfl
  · simp only [Except.ok.injEq] at h
    subst h
    rfl

theorem lock_acquire_owner_ok (o : LockOpts) (L L1 : Lock) (cur : Thread)
    (h : lock_acquire_owner o L cur = .ok L1) :
    L.lk_owner = none ∧ L1.lk_owner = some cur.tid := by
  unfold lock_acquire_owner at h
  split at h
  · simp at h
  · split at h
    · rename_i hn
      simp only [Except.ok.injEq] at h
      subst h
      exact ⟨hn, rfl⟩
    · simp at h

theorem lock_release_locked_ok (o : LockOpts) (L L1 : Lock)
    (h : lock_release_locked o L = .ok L1) : L1.lk_owner = none := by
  unfold lock_release_locked at h
  split at h
  · split at h
    · simp at h
    · simp only [Except.ok.injEq] at h
      subst h
      rfl
  · simp only [Except.ok.injEq] at h
    subst h
    rfl

theorem lock_create_owner (o : LockOpts) (a b : Bool) (L : Lock)
    (h : lock_create o a b = some L) : L.lk_owner = none := by
  unfold lock_create at h
  split at h
  · simp only [Option.some.injEq] at h
    subst h
    rfl
  · simp at h

/-- Every state of a lock run satisfies the lock invariant. -/
theorem lockRun_inv (o : LockOpts) (tr : List LockEvent) (S : LockSys) (h : LockRun o tr S) :
    LockInv tr S := by
  induction h with
  | create L a b hc =>
    have := lock_create_owner o a b L hc
    refine ⟨fun t => ?_, fun t ht => ?_⟩
    · simp [this, holds]
    · simp at ht
  | acquire_check tr S cur _ hpc _ ih =>
    refine ⟨ih.1, fun t ht => ?_⟩
    simp only [LockSys.goto] at ht ⊢
    by_cases e : t = cur.tid
    · simp [e] at ht
    · rw [if_neg e] at ht
      exact ih.2 t ht
  | acquire_sem tr S cur L1 _ hpc hs ih =>
    have ho := lock_acquire_sem_owner o _ _ _ hs
    refine ⟨fun t => ?_, fun t ht => ?_⟩
    · simp only [LockSys.goto, ho]
      exact ih.1 t
    · simp only [LockSys.goto] at ht ⊢
      by_cases e : t = cur.tid
      · simp [e] at ht
      · rw [if_neg e] at ht
        rw [ho]
        exact ih.2 t ht
  | acquire_owner tr S cur L1 _ hpc hs ih =>
    obtain ⟨h0, h1⟩ := lock_acquire_owner_ok o _ _ _ hs
    refine ⟨fun t => ?_, fun t ht => ?_⟩
    · simp only [LockSys.goto, h1, holds, Option.some.injEq]
      by_cases e : cur.tid = t
      · simp [e]
      · simp only [e, if_false, false_iff]
        intro hh
        have := (ih.1 t).2 hh
        rw [h0] at this
        cases this
    · simp only [LockSys.goto] at ht
      by_cases e : t = cur.tid
      · simp [e] at ht
      · rw [if_neg e] at ht
        have := ih.2 t ht
        rw [h0] at this
        cases this
  | release_check tr S cur _ hpc hh ih =>
    refine ⟨ih.1, fun t ht => ?_⟩
    simp only [LockSys.goto] at ht ⊢
    by_cases e : t = cur.tid
    · subst e
      simpa [lock_do_i_hold] using hh
    · rw [if_neg e] at ht
      exact ih.2 t ht
  | release_locked tr S cur L1 _ hpc hs ih =>
    have h1 := lock_release_locked_ok o _ _ hs
    have howner := ih.2 cur.tid hpc
    refine ⟨fun t => ?_, fun t ht => ?_⟩
    · simp only [LockSys.goto, h1, holds]
      by_cases e : cur.tid = t
      · simp [e]
      · simp only [e, if_false]
        constructor
        · intro hh
          cases hh
        · intro hh
          have := (ih.1 t).2 hh
          rw [howner] at this
          simp only [Option.some.injEq] at this
          exact absurd this e
    · simp only [LockSys.goto] at ht
      by_cases e : t = cur.tid
      · simp [e] at ht
      · rw [if_neg e] at ht
        have := ih.2 t ht
        rw [howner] at this
        simp only [Option.some.injEq] at this
        exact absurd this.symm e

/-- The call lock_acquire is its three sections in sequence. -/
theorem lock_acquire_sections (o : LockOpts) (L L2 : Lock) (cur : Thread) :
    lock_acquire o L cur = .ok L2 ↔
    lock_do_i_hold L cur = false ∧
      ∃ L1, lock_acquire_sem o L cur = .ok L1 ∧ lock_acquire_owner o L1 cur = .ok L2 := by
  unfold lock_acquire
  cases hh : lock_do_i_hold L cur with
  | true => simp
  | false =>
    cases hs : lock_acquire_sem o L cur with
    | error e => simp
    | ok L1 => simp

/-- C9: over every interleaving of the atomic sections of lock_acquire and
lock_release by any number of threads, lock_do_i_hold evaluated by a thread is true
exactly when that thread has completed a lock_acquire that it has not yet matched with
a lock_release; the owner field is NULL or one thread, so at most one thread holds the
lock at any instant. -/
theorem lock_ownership (o : LockOpts) (tr : List LockEvent) (S : LockSys)
    (h : LockRun o tr S) :
    (∀ cur : Thread, lock_do_i_hold S.lock cur = true ↔ holds cur.tid tr = true) ∧
    (S.lock.lk_owner = none ∨ ∃ t, S.lock.lk_owner = some t ∧ holds t tr = true) ∧
    (∀ t u : Nat, holds t tr = true → holds u tr = true → t = u) := by
  obtain ⟨i1, _⟩ := lockRun_inv o tr S h
  refine ⟨fun cur => ?_, ?_, ?_⟩
  · rw [← i1 cur.tid]
    simp [lock_do_i_hold]
  · cases ho : S.lock.lk_owner with
    | none => exact Or.inl rfl
    | some t => exact Or.inr ⟨t, rfl, (i1 t).1 ho⟩
  · intro t u ht hu
    have a := (i1 t).2 ht
    have b := (i1 u).2 hu
    rw [a] at b
    simpa using b

/-- Witness of C9: under `opts_sem`, thread 7 has gone through the three sections of
lock_acquire on a fresh lock. -/
theorem lock_ownership_witness :
    LockRun opts_sem [.acquired 7]
      ((((({ lock := lock0, pc := fun _ => .idle } : LockSys).goto lock0 7 .acq_checked).goto
        { lk_owner := none, sem := some { sem_count := 0 } } 7 .acq_sem).goto
        lock_held7 7 .idle)) ∧
    ((∀ cur : Thread, lock_do_i_hold lock_held7 cur = true ↔
        holds cur.tid [.acquired 7] = true) ∧
    (lock_held7.lk_owner = none ∨
      ∃ t, lock_held7.lk_owner = some t ∧ holds t [.acquired 7] = true) ∧
    (∀ t u : Nat, holds t [.acquired 7] = true → holds u [.acquired 7] = true → t = u)) :=
  have run : LockRun opts_sem [.acquired 7]
      ((((({ lock := lock0, pc := fun _ => .idle } : LockSys).goto lock0 7 .acq_checked).goto
        { lk_owner := none, sem := some { sem_count := 0 } } 7 .acq_sem).goto
        lock_held7 7 .idle)) :=
    LockRun.acquire_owner [] _ child_thread lock_held7
      (LockRun.acquire_sem [] _ child_thread _
        (LockRun.acquire_check [] _ child_thread
          (LockRun.create lock0 true true rfl) rfl rfl) rfl rfl) rfl rfl
  ⟨run, lock_ownership opts_sem [.acquired 7] _ run⟩


/-! ## Condition variables -/

theorem lock_acquire_ok (o : LockOpts) (L L2 : Lock) (cur : Thread)
    (h : lock_acquire o L cur = .ok L2) :
    L2.lk_owner = some cur.tid ∧ lock_do_i_hold L2 cur = true := by
  obtain ⟨_, L1, _, h2⟩ := (lock_acquire_sections o L L2 cur).1 h
  obtain ⟨_, e⟩ := lock_acquire_owner_ok o _ _ _ h2
  exact ⟨e, by simp [lock_do_i_hold, e]⟩

theorem lock_release_ok (o : LockOpts) (L L1 : Lock) (cur : Thread)
    (h : lock_release o L cur = .ok L1) :
    lock_do_i_hold L cur = true ∧ L1.lk_owner = none := by
  unfold lock_release at h
  split at h
  · rename_i hh
    exact ⟨hh, lock_release_locked_ok o _ _ h⟩
  · simp at h

/-- A call of cv_wait by the holder returns when the release succeeds and the lock is
free (and, under OPT_SYNCH_SEM, its semaphore is raised) at the time the thread is woken;
without OPT_SYNCH_SEM the release always succeeds. -/
theorem cv_wait_returns (w : Bool) (L : Lock) (cur : Thread) (env : Lock → Lock)
    (hold : lock_do_i_hold L cur = true)
    (free : ∀ L1, (env L1).lk_owner = none) :
    ∃ L3, cv_wait { synch_sem := false, synch_wchan := w } L cur env = .ok L3 := by
  have nh : lock_do_i_hold (env { L with lk_owner := none }) cur = false := by
    simp [lock_do_i_hold, free]
  refine ⟨{ env { L with lk_owner := none } with lk_owner := some cur.tid }, ?_⟩
  unfold cv_wait lock_release lock_release_locked
  simp only [hold, if_true, Bool.false_eq_true, if_false]
  unfold lock_acquire lock_acquire_sem lock_acquire_owner
  simp [nh, free]

/-- C10: when the thread that holds the lock calls cv_wait and the call returns, the
lock was released (owner cleared) before the thread slept, the lock was acquired
again in the state found at wake-up, and on return the owner is the calling thread:
lock_do_i_hold is true. -/
theorem cv_wait_reacquires (o : LockOpts) (L L3 : Lock) (cur : Thread) (env : Lock → Lock)
    (hold : lock_do_i_hold L cur = true)
    (h : cv_wait o L cur env = .ok L3) :
    (∃ L1, lock_release o L cur = .ok L1 ∧ L1.lk_owner = none ∧
      lock_do_i_hold L1 cur = false ∧ lock_acquire o (env L1) cur = .ok L3) ∧
    L3.lk_owner = some cur.tid ∧ lock_do_i_hold L3 cur = true := by
  unfold cv_wait at h
  rw [if_pos hold] at h
  cases hr : lock_release o L cur with
  | error e => simp [hr] at h
  | ok L1 =>
    simp only [hr] at h
    obtain ⟨_, e1⟩ := lock_release_ok o _ _ _ hr
    obtain ⟨a, b⟩ := lock_acquire_ok o _ _ _ h
    exact ⟨⟨L1, rfl, e1, by simp [lock_do_i_hold, e1], h⟩, a, b⟩

/-- Witness of C10: under `opts_sem` thread 7 holds the lock, calls cv_wait, and is
woken while the lock is as it left it. -/
theorem cv_wait_reacquires_witness :
    lock_do_i_hold lock_held7 child_thread = true ∧
    cv_wait opts_sem lock_held7 child_thread id = .ok lock_held7 ∧
    ((∃ L1, lock_release opts_sem lock_held7 child_thread = .ok L1 ∧ L1.lk_owner = none ∧
      lock_do_i_hold L1 child_thread = false ∧
      lock_acquire opts_sem (id L1) child_thread = .ok lock_held7) ∧
    lock_held7.lk_owner = some child_thread.tid ∧
    lock_do_i_hold lock_held7 child_thread = true) :=
  ⟨rfl, rfl, cv_wait_reacquires opts_sem lock_held7 lock_held7 child_thread id rfl rfl⟩

/-! ## Claims about V, lock_destroy, the scan bound and the child lists -/

/-- C11 (counterexample): at the largest value of unsigned the increment of V wraps
to 0 and the assertion `sem_count > 0` stops the kernel. -/
theorem V_fails_at_max :
    4294967295 < UINT_RANGE ∧ V (some { sem_count := 4294967295 }) = .error .kassert :=
  ⟨by decide, rfl⟩

/-- C11 (amended): for every semaphore whose count is below the largest value of
unsigned, V raises the count by exactly one and completes. -/
theorem V_increments (s : Semaphore) (h : s.sem_count + 1 < UINT_RANGE) :
    V (some s) = .ok { sem_count := s.sem_count + 1 } := by
  unfold V
  simp only [Nat.mod_eq_of_lt h]
  rw [if_pos (by omega)]

/-- Witness of C11 at count 0. -/
theorem V_increments_witness :
    (0 : Nat) + 1 < UINT_RANGE ∧
    V (some { sem_count := 0 }) = .ok { sem_count := 0 + 1 } :=
  ⟨by decide, V_increments { sem_count := 0 } (by decide)⟩

/-- C12 (counterexample): lock_destroy on the lock held by thread 7 frees it, under
every setting of the options; and under OPT_SYNCH_SEM alone it frees a lock on whose
semaphore a thread is blocked. -/
theorem lock_destroy_frees_held_lock :
    lock_do_i_hold lock_held7 child_thread = true ∧
    (∀ o : LockOpts, lock_destroy o (some lock_held7) 0 0 = .ok ()) ∧
    lock_destroy opts_sem (some lock_held7) 0 1 = .ok () := by
  refine ⟨rfl, ?_, rfl⟩
  intro o
  cases o with
  | mk a b => cases a <;> cases b <;> rfl

/-- C12 (amended): under OPT_SYNCH_WCHAN, lock_destroy on a lock on whose wait channel
a thread is blocked is stopped by the assertion of wchan_destroy and does not free the
lock; the owner is not looked at, so without such a sleeper the lock is freed whether
it is held or not. -/
theorem lock_destroy_rejects_sleepers (o : LockOpts) (L : Lock) (w s : Nat)
    (hw : o.synch_wchan = true) :
    (0 < w → lock_destroy o (some L) w s = .error .kassert) ∧
    (w = 0 → lock_destroy o (some L) w s = .ok ()) := by
  unfold lock_destroy wchan_destroy
  simp only [hw, if_true]
  constructor
  · intro h
    rw [if_neg (by omega)]
  · intro h
    rw [if_pos h]

/-- Witness of C12 with one sleeper on the wait channel of a held lock. -/
theorem lock_destroy_rejects_sleepers_witness :
    ({ synch_sem := false, synch_wchan := true } : LockOpts).synch_wchan = true ∧
    ((0 < 1 → lock_destroy { synch_sem := false, synch_wchan := true }
        (some { lk_owner := some 7, sem := none }) 1 0 = .error .kassert) ∧
    (1 = 0 → lock_destroy { synch_sem := false, synch_wchan := true }
        (some { lk_owner := some 7, sem := none }) 1 0 = .ok ())) :=
  ⟨rfl, lock_destroy_rejects_sleepers _ _ 1 0 rfl⟩

theorem scan_examined_le (T : ProcessTable) (fuel : Nat) : ∀ i, scan_examined T fuel i ≤ fuel := by
  induction fuel with
  | zero => intro i; simp [scan_examined]
  | succ fuel ih =>
    intro i
    unfold scan_examined
    split
    · omega
    · split
      · omega
      · have := ih (wrap_next i)
        omega

/-- With the cursor in 1..MAX_PROC the loop has ended after MAX_PROC tests of its
condition: the loop variable reaches `last_i` by then. -/
theorem scan_ends_of_cursor (T : ProcessTable) (hl1 : 1 ≤ T.last_i) (hl2 : T.last_i ≤ MAX_PROC) :
    ∃ res, scan T MAX_PROC (scan_start T) = some res := by
  have sp := scan_spec T MAX_PROC (scan_start T)
  obtain ⟨s1, s2⟩ := scan_start_range T
  have it := wrap_next_iterate (scan_start T) s1 s2
  have hs : scan_start T = T.last_i % MAX_PROC + 1 := by
    unfold scan_start
    simp only [MAX_PROC] at *
    split <;> omega
  cases hsc : scan T MAX_PROC (scan_start T) with
  | some res => exact ⟨res, rfl⟩
  | none =>
    rw [hsc] at sp
    have := (sp (MAX_PROC - 1) (by simp [MAX_PROC])).1
    rw [it] at this
    simp only [MAX_PROC] at *
    omega

/-- C18: in every reachable process-table state the loop of proc_init_waitpid ends
within MAX_PROC tests of its condition, having examined at most MAX_PROC slots,
whether it finds a free slot or not; the locked part of proc_init_waitpid never
diverges there. -/
theorem scan_terminates (K : Kernel) (h : TableReachable K) :
    (∃ res, scan K.processTable MAX_PROC (scan_start K.processTable) = some res) ∧
    scan_examined K.processTable MAX_PROC (scan_start K.processTable) ≤ MAX_PROC ∧
    ∀ p junk, proc_init_waitpid_locked (K.store p junk) p ≠ .error .diverge := by
  obtain ⟨_, _, _, i3, i4⟩ := tableReachable_inv K h
  have ends : ∃ res, scan K.processTable MAX_PROC (scan_start K.processTable) = some res := by
    by_cases h0 : K.processTable.last_i = 0
    · have hs : scan_start K.processTable = 1 := by
        unfold scan_start
        rw [h0]
        decide
      rw [hs]
      exact ⟨_, scan_first _ 1 (by omega) (i4 h0 1)⟩
    · exact scan_ends_of_cursor _ (by omega) i3
  refine ⟨ends, scan_examined_le _ _ _, ?_⟩
  intro p junk
  obtain ⟨res, hres⟩ := ends
  have hs : (if (K.store p junk).processTable.last_i + 1 > MAX_PROC then 1
      else (K.store p junk).processTable.last_i + 1) = scan_start K.processTable := rfl
  have hres2 : scan (K.store p junk).processTable MAX_PROC (scan_start K.processTable)
      = some res := hres
  unfold proc_init_waitpid_locked
  simp only [store_heap_self]
  rw [hs, hres2]
  cases res <;> simp

/-- Witness of C18 at the full table, where no free slot exists. -/
theorem scan_terminates_witness :
    TableReachable (filled 100) ∧
    ((∃ res, scan (filled 100).processTable MAX_PROC (scan_start (filled 100).processTable)
        = some res) ∧
    scan_examined (filled 100).processTable MAX_PROC (scan_start (filled 100).processTable)
      ≤ MAX_PROC ∧
    ∀ p junk, proc_init_waitpid_locked ((filled 100).store p junk) p ≠ .error .diverge) :=
  ⟨filled_reachable 100 (by decide), scan_terminates (filled 100) (filled_reachable 100 (by decide))⟩

theorem add_child_list_eq (pid : Nat) (l : List Nat) : add_child_list pid l = l ++ [pid] := by
  induction l with
  | nil => rfl
  | cons c rest ih => simp [add_child_list, ih]

theorem remove_child_list_first (pid : Nat) (l1 l2 : List Nat) (h : pid ∉ l1) :
    remove_child_list pid (l1 ++ pid :: l2) = l1 ++ l2 := by
  induction l1 with
  | nil => simp [remove_child_list]
  | cons c rest ih =>
    simp only [List.mem_cons, not_or] at h
    show remove_child_list pid (c :: (rest ++ pid :: l2)) = c :: (rest ++ l2)
    unfold remove_child_list
    rw [if_neg (Ne.symm h.1), ih h.2]

theorem remove_child_list_absent (pid : Nat) (l : List Nat) (h : pid ∉ l) :
    remove_child_list pid l = l := by
  induction l with
  | nil => rfl
  | cons c rest ih =>
    simp only [List.mem_cons, not_or] at h
    simp only [remove_child_list]
    rw [if_neg (Ne.symm h.1), ih h.2]

/-- C19: on a live parent record remove_child returns and leaves the child list with
exactly the first entry equal to pid deleted and all other entries in their order; the
list is unchanged when pid does not occur; and for a pid not in the list, add_child of
a record with that identifier followed by remove_child gives back the parent record. -/
theorem remove_child_first_occurrence (K : Kernel) (parent : Nat) (rp : Proc) (pid : Nat)
    (hp : K.heap parent = some rp) :
    remove_child K (some parent) pid
      = .ok (K.store parent { rp with child := remove_child_list pid rp.child }) ∧
    (∀ l1 l2, rp.child = l1 ++ pid :: l2 → pid ∉ l1 →
      remove_child_list pid rp.child = l1 ++ l2) ∧
    (pid ∉ rp.child → remove_child_list pid rp.child = rp.child) ∧
    (∀ child rc K1, pid ∉ rp.child → K.heap child = some rc → rc.p_pid = pid →
      add_child K parent child true = .ok K1 →
      (∃ r1, K1.heap parent = some r1 ∧ r1.child = rp.child ++ [pid]) ∧
      ∃ K2, remove_child K1 (some parent) pid = .ok K2 ∧ K2.heap parent = some rp) := by
  refine ⟨?_, ?_, remove_child_list_absent pid rp.child, ?_⟩
  · simp [remove_child, hp]
  · intro l1 l2 e h
    rw [e]
    exact remove_child_list_first pid l1 l2 h
  · intro child rc K1 hn hc hpid hadd
    unfold add_child at hadd
    simp only [hp, hc, if_true, Except.ok.injEq] at hadd
    subst hadd
    rw [hpid, add_child_list_eq]
    have e : remove_child_list pid (rp.child ++ [pid]) = rp.child := by
      have := remove_child_list_first pid rp.child [] hn
      simpa using this
    refine ⟨⟨_, store_heap_self _ _ _, rfl⟩,
      (K.store parent { rp with child := rp.child ++ [pid] }).store parent rp, ?_,
      store_heap_self _ _ _⟩
    simp only [remove_child, store_heap_self]
    rw [e]

/-- Witness of C19 with the child list 3, 4, 3 and pid 3. -/
theorem remove_child_first_occurrence_witness :
    parent_with_children.heap 5 = some { rec_at 5 with child := [3, 4, 3] } ∧
    (remove_child parent_with_children (some 5) 3
      = .ok (parent_with_children.store 5
          { ({ rec_at 5 with child := [3, 4, 3] } : Proc) with
            child := remove_child_list 3 [3, 4, 3] }) ∧
    (∀ l1 l2, [3, 4, 3] = l1 ++ 3 :: l2 → 3 ∉ l1 →
      remove_child_list 3 [3, 4, 3] = l1 ++ l2) ∧
    (3 ∉ [3, 4, 3] → remove_child_list 3 [3, 4, 3] = [3, 4, 3]) ∧
    (∀ child rc K1, 3 ∉ [3, 4, 3] → parent_with_children.heap child = some rc →
      rc.p_pid = 3 → add_child parent_with_children 5 child true = .ok K1 →
      (∃ r1, K1.heap 5 = some r1 ∧ r1.child = [3, 4, 3] ++ [3]) ∧
      ∃ K2, remove_child K1 (some 5) 3 = .ok K2 ∧
        K2.heap 5 = some { rec_at 5 with child := [3, 4, 3] })) :=
  ⟨rfl, remove_child_first_occurrence parent_with_children 5
    { rec_at 5 with child := [3, 4, 3] } 3 rfl⟩

/-! ## Claims about the descriptor range tests -/

/-- C20 (the code at the failing input): for every OPEN_MAX of at least 3, the
descriptor OPEN_MAX passes the range tests `fd > OPEN_MAX` of file_read, file_write,
sys_close and sys_lseek, so each of them reads openFileTable[OPEN_MAX], one entry past
the end of the array; the tests of sys_dup2, written with `>=`, refuse the same value. -/
theorem fd_open_max_passes_range_test (n m : Nat) (F : Files) (p tid : Nat) :
    ¬ (((n + 3 : Nat) : Int) < ((n + 3 : Nat) : Int)) ∧
    file_read_lookup { OPEN_MAX := n + 3, SYSTEM_OPEN_MAX := m } F
      { tid := tid, t_in_interrupt := false, t_proc := some p }
      ((n + 3 : Nat) : Int) false = .error .badptr ∧
    file_write_lookup { OPEN_MAX := n + 3, SYSTEM_OPEN_MAX := m } F
      { tid := tid, t_in_interrupt := false, t_proc := some p }
      ((n + 3 : Nat) : Int) false = .error .badptr ∧
    sys_close_lookup { OPEN_MAX := n + 3, SYSTEM_OPEN_MAX := m } F
      { tid := tid, t_in_interrupt := false, t_proc := some p }
      ((n + 3 : Nat) : Int) = .error .badptr ∧
    sys_lseek_lookup { OPEN_MAX := n + 3, SYSTEM_OPEN_MAX := m } F
      { tid := tid, t_in_interrupt := false, t_proc := some p }
      ((n + 3 : Nat) : Int) 0 false = .error .badptr ∧
    sys_dup2_range { OPEN_MAX := n + 3, SYSTEM_OPEN_MAX := m } ((n + 3 : Nat) : Int) 0 = false ∧
    sys_dup2_range { OPEN_MAX := n + 3, SYSTEM_OPEN_MAX := m } 0 ((n + 3 : Nat) : Int) = false := by
  have hnn : ¬ (((n + 3 : Nat) : Int) < 0) := by omega
  have h2 : ¬ (((n + 3 : Nat) : Int) ≤ 2) := by omega
  refine ⟨by omega, ?_, ?_, ?_, ?_, ?_, ?_⟩
  · simp only [file_read_lookup, openFileTable_read, hnn, lt_self_iff_false, gt_iff_lt,
      or_self, if_false, and_false]
  · simp only [file_write_lookup, openFileTable_read, hnn, lt_self_iff_false, gt_iff_lt,
      or_self, if_false, and_false, Bool.false_eq_true]
  · simp only [sys_close_lookup, openFileTable_read, hnn, lt_self_iff_false, gt_iff_lt,
      or_self, if_false, and_false]
  · simp only [sys_lseek_lookup, openFileTable_read, STDERR_FILENO, h2, lt_self_iff_false,
      gt_iff_lt, or_self, if_false, and_false, false_and]
  · simp [sys_dup2_range]
  · simp [sys_dup2_range]

/-! ## Orphan reparenting -/

theorem proc_search_pid_eval (K : Kernel) (c q : Nat) (rq : Proc) (hc : c ≤ MAX_PROC)
    (hslot : K.processTable.proc c = some q) (hq : K.heap q = some rq) (hpid : rq.p_pid = c) :
    proc_search_pid K (c : Int) = .ok (some q) := by
  unfold proc_search_pid
  have : (0 : Int) ≤ (c : Int) ∧ (c : Int) ≤ (MAX_PROC : Int) := ⟨by omega, by omega⟩
  rw [if_pos this]
  simp only [Int.toNat_ofNat, hslot, hq, hpid, if_true]

/-- Writing a record that keeps its p_pid keeps the table invariant. -/
theorem tableInv_store (K : Kernel) (p : Nat) (r r' : Proc) (inv : TableInv K)
    (hr : K.heap p = some r) (hpid : r'.p_pid = r.p_pid) : TableInv (K.store p r') := by
  obtain ⟨i0, i1, i2, i3, i4⟩ := inv
  refine ⟨i0, ?_, ?_, i3, i4⟩
  · intro i q hq
    obtain ⟨a, b, rq, c, d⟩ := i1 i q hq
    by_cases e : q = p
    · subst e
      rw [hr] at c
      simp only [Option.some.injEq] at c
      subst c
      exact ⟨a, b, r', store_heap_self _ _ _, by rw [hpid]; exact d⟩
    · exact ⟨a, b, rq, by rw [store_heap_other _ _ _ _ e]; exact c, d⟩
  · intro q rq hq
    by_cases e : q = p
    · subst e
      rw [store_heap_self] at hq
      simp only [Option.some.injEq] at hq
      subst hq
      rw [hpid]
      exact i2 q r hr
    · rw [store_heap_other _ _ _ _ e] at hq
      exact i2 q rq hq

theorem sys_created_ok :
    proc_create_runprogram lim0 opts_sem { kernel := booted, files := Files.boot }
      parent_thread (alloc_at 2000) (console_ok 40) (console_ok 41) (console_ok 42)
      = .ok (sys_created, some 2000) := rfl

theorem sys0_ok : proc_addthread sys_created.kernel 2000 { child_thread with t_proc := none }
    = .ok (sys0.kernel, child_thread) := rfl

/-- The state `sys0` is reachable: proc_bootstrap, proc_create_runprogram by a kernel
thread, proc_addthread. -/
theorem sys0_reachable : SysRun lim0 opts_sem sys0 :=
  SysRun.attach sys_created sys0.kernel 2000 _ _
    (SysRun.runprogram { kernel := booted, files := Files.boot } sys_created parent_thread
      (alloc_at 2000) (console_ok 40) (console_ok 41) (console_ok 42) (some 2000)
      (SysRun.boot (alloc_at 1000) booted booted_ok)
      (fun p hp => by cases hp; rfl) sys_created_ok)
    sys0_ok

theorem forked_ok : sys_fork lim0 opts_sem sys0 child_thread fork_ok
    = .ok (forked, none, some 3) := rfl

theorem fork_as_failed_ok :
    sys_fork lim0 opts_sem sys0 child_thread { fork_ok with as_copy := none }
      = .ok (fork_as_failed, some .ENOMEM, none) := rfl

theorem fork_thread_failed_ok :
    sys_fork lim0 opts_sem sys0 child_thread { fork_ok with thread := none }
      = .ok (fork_thread_failed, some .ENOMEM, none) := rfl

theorem create_console_failed_ok :
    proc_create_runprogram lim0 opts_sem sys0 child_thread (alloc_at 3000)
      console_fail (console_ok 51) (console_ok 52) = .ok (create_console_failed, none) := rfl

/-! ## Claims about the failure paths of creation and fork -/

/-- C17 (the code at the failing inputs), from the reachable state `sys0`.
(1) When the console of STDIN does not open, proc_create_runprogram returns NULL but
the new record stays allocated and registered in slot 3, which was empty.
(2) When the console of STDOUT does not open, it returns NULL but the sysTable entry 3
taken for STDIN keeps its vnode.
(3) When sem_create fails, it returns the new record, whose p_sem is NULL. -/
theorem proc_create_runprogram_failure_leaks :
    SysRun lim0 opts_sem sys0 ∧
    (proc_create_runprogram lim0 opts_sem sys0 child_thread (alloc_at 3000)
        console_fail (console_ok 51) (console_ok 52) = .ok (create_console_failed, none) ∧
      sys0.kernel.processTable.proc 3 = none ∧
      create_console_failed.kernel.processTable.proc 3 = some 3000 ∧
      (create_console_failed.kernel.heap 3000).map Proc.p_pid = some 3) ∧
    ((proc_create_runprogram lim0 opts_sem sys0 child_thread (alloc_at 3000)
        (console_ok 50) console_fail (console_ok 52)).map Prod.snd = .ok none ∧
      (sys0.files.sysTable 3).vn = none ∧
      ((system_of (proc_create_runprogram lim0 opts_sem sys0 child_thread (alloc_at 3000)
        (console_ok 50) console_fail (console_ok 52))).files.sysTable 3).vn = some 50) ∧
    ((proc_create_runprogram lim0 opts_sem sys0 child_thread
        { alloc_at 3000 with sem := false }
        (console_ok 50) (console_ok 51) (console_ok 52)).map Prod.snd = .ok (some 3000) ∧
      ((system_of (proc_create_runprogram lim0 opts_sem sys0 child_thread
        { alloc_at 3000 with sem := false }
        (console_ok 50) (console_ok 51) (console_ok 52))).kernel.heap 3000).map Proc.p_sem
        = some none) :=
  ⟨sys0_reachable, ⟨rfl, rfl, rfl, rfl⟩, ⟨rfl, rfl, rfl⟩, ⟨rfl, rfl⟩⟩

/-- C16 (the code at the failing inputs), from the reachable state `sys0`, the caller
being the process at 2000.  When as_copy fails, sys_fork returns ENOMEM and the child
is deregistered (slot 3 is empty again), but the sysTable entries 3, 4, 5 taken for
its consoles keep their vnodes and the cursor last_i has moved.  When thread_fork
fails, sys_fork returns ENOMEM but the caller's child list, empty before, still holds
the identifier 3 of the destroyed child. -/
theorem sys_fork_failure_not_unwound :
    SysRun lim0 opts_sem sys0 ∧
    (sys_fork lim0 opts_sem sys0 child_thread { fork_ok with as_copy := none }
        = .ok (fork_as_failed, some .ENOMEM, none) ∧
      sys0.kernel.processTable.proc 3 = none ∧
      fork_as_failed.kernel.processTable.proc 3 = none ∧
      fork_as_failed.kernel.heap 3000 = none ∧
      (sys0.files.sysTable 3).vn = none ∧ (fork_as_failed.files.sysTable 3).vn = some 50 ∧
      (fork_as_failed.files.sysTable 5).vn = some 52 ∧
      sys0.kernel.processTable.last_i = 2 ∧ fork_as_failed.kernel.processTable.last_i = 3) ∧
    (sys_fork lim0 opts_sem sys0 child_thread { fork_ok with thread := none }
        = .ok (fork_thread_failed, some .ENOMEM, none) ∧
      fork_thread_failed.kernel.heap 3000 = none ∧
      (sys0.kernel.heap 2000).map Proc.child = some [] ∧
      (fork_thread_failed.kernel.heap 2000).map Proc.child = some [3]) :=
  ⟨sys0_reachable, ⟨rfl, rfl, rfl, rfl, rfl, rfl, rfl, rfl, rfl⟩, ⟨rfl, rfl, rfl, rfl⟩⟩

/-! ## What proc_create_runprogram and sys_fork do to the kernel state -/

/-- A proc_create that returns NULL leaves the state as it was. -/
theorem proc_create_none (K K1 : Kernel) (a : Alloc) (h : proc_create K a = .ok (K1, none)) :
    K1 = K := by
  unfold proc_create at h
  cases hp : a.proc with
  | none =>
    simp only [hp, Except.ok.injEq, Prod.mk.injEq, and_true] at h
    exact h.symm
  | some p =>
    simp only [hp] at h
    cases hn : a.name with
    | false =>
      simp only [hn, Bool.false_eq_true, if_false, Except.ok.injEq, Prod.mk.injEq,
        and_true] at h
      exact h.symm
    | true =>
      simp only [hn, if_true] at h
      split at h
      · simp at h
      · split at h <;> simp at h

/-- The kernel part of the state after proc_create_runprogram returns: either nothing
was created (proc_create returned NULL), or proc_create made a record, which then got
its address space and working directory fields; in the second case the result is that
record or, when a console failed, NULL. -/
theorem proc_create_runprogram_kernel (lim : Limits) (o : LockOpts) (S S1 : System)
    (cur : Thread) (a : Alloc) (e0 e1 e2 : ConsoleEnv) (res : Option Nat)
    (h : proc_create_runprogram lim o S cur a e0 e1 e2 = .ok (S1, res)) :
    (res = none ∧ S1.kernel = S.kernel ∧ proc_create S.kernel a = .ok (S.kernel, none)) ∨
    ∃ K1 newp rn cp rc, proc_create S.kernel a = .ok (K1, some newp) ∧
      K1.heap newp = some rn ∧ cur.t_proc = some cp ∧ K1.heap cp = some rc ∧
      S1.kernel = K1.store newp
        { rn with p_addrspace := none,
                  p_cwd := if rc.p_cwd ≠ none then rc.p_cwd else rn.p_cwd } ∧
      (res = none ∨ res = some newp) := by
  unfold proc_create_runprogram proc_create_fs at h
  cases hc : proc_create S.kernel a with
  | error e => simp [hc] at h
  | ok pr =>
    obtain ⟨K1, r⟩ := pr
    cases r with
    | none =>
      simp only [hc, Except.ok.injEq, Prod.mk.injEq] at h
      obtain ⟨h1, h2⟩ := h
      subst h1 h2
      have hK : K1 = S.kernel := proc_create_none _ _ _ hc
      subst hK
      exact Or.inl ⟨rfl, rfl, rfl⟩
    | some newp =>
      simp only [hc] at h
      right
      cases hn : K1.heap newp with
      | none => simp [hn] at h
      | some rn =>
        simp only [hn] at h
        cases hcp : cur.t_proc with
        | none => simp [hcp] at h
        | some cp =>
          simp only [hcp] at h
          cases hrc : K1.heap cp with
          | none => simp [hrc] at h
          | some rc =>
            simp only [hrc] at h
            refine ⟨K1, newp, rn, cp, rc, rfl, hn, rfl, hrc, ?_⟩
            split at h
            · simp at h
            · split at h
              · simp only [Except.ok.injEq, Prod.mk.injEq] at h
                obtain ⟨h1, h2⟩ := h
                subst h1
                exact ⟨rfl, Or.inl h2.symm⟩
              · split at h
                · simp at h
                · split at h
                  · simp only [Except.ok.injEq, Prod.mk.injEq] at h
                    obtain ⟨h1, h2⟩ := h
                    subst h1
                    exact ⟨rfl, Or.inl h2.symm⟩
                  · split at h
                    · simp at h
                    · split at h
                      · simp only [Except.ok.injEq, Prod.mk.injEq] at h
                        obtain ⟨h1, h2⟩ := h
                        subst h1
                        exact ⟨rfl, Or.inl h2.symm⟩
                      · simp only [Except.ok.injEq, Prod.mk.injEq] at h
                        obtain ⟨h1, h2⟩ := h
                        subst h1
                        exact ⟨rfl, Or.inr h2.symm⟩

/-! ## The kernel invariant -/

theorem kinv_store (K : Kernel) (p : Nat) (r r' : Proc) (inv : KInv K)
    (hr : K.heap p = some r) (hpid : r'.p_pid = r.p_pid)
    (hchild : K.kproc = some p → r'.child = []) : KInv (K.store p r') := by
  obtain ⟨ti, k, rk, h1, h2, h3, h4⟩ := inv
  refine ⟨tableInv_store K p r r' ti hr hpid, k, ?_⟩
  by_cases e : k = p
  · subst e
    rw [hr] at h2
    simp only [Option.some.injEq] at h2
    subst h2
    exact ⟨r', h1, store_heap_self _ _ _, by rw [hpid]; exact h3, hchild h1⟩
  · exact ⟨rk, h1, by rw [store_heap_other _ _ _ _ e]; exact h2, h3, h4⟩

theorem tableInv_proc_create (K K1 : Kernel) (a : Alloc) (p : Nat) (inv : TableInv K)
    (fresh : K.heap p = none) (h : proc_create K a = .ok (K1, some p)) : TableInv K1 := by
  have hp := (proc_create_ok K K1 a p h).1
  unfold proc_create at h
  simp only [hp] at h
  split at h
  · split at h
    · simp at h
    · rename_i K2 hi
      split at h
      · simp at h
      · rename_i r hr2
        simp only [Except.ok.injEq, Prod.mk.injEq, and_true] at h
        subst h
        have t2 := tableInv_register K K2 p _ a.sem inv fresh hi
        exact tableInv_store K2 p r _ t2 hr2 rfl
  · simp at h

theorem kinv_proc_create (K K1 : Kernel) (a : Alloc) (res : Option Nat) (inv : KInv K)
    (fresh : ∀ p, a.proc = some p → K.heap p = none)
    (h : proc_create K a = .ok (K1, res)) : KInv K1 := by
  cases res with
  | none =>
    rw [proc_create_none K K1 a h]
    exact inv
  | some p =>
    obtain ⟨hp, _, j, r1, _, _, _, _, _, _, _, _, hother, _, _, _, hk⟩ :=
      proc_create_ok K K1 a p h
    have fr := fresh p hp
    obtain ⟨ti, k, rk, h1, h2, h3, h4⟩ := inv
    refine ⟨tableInv_proc_create K K1 a p ti fr h, k, rk, by rw [hk]; exact h1, ?_, h3, h4⟩
    have : k ≠ p := by
      rintro rfl
      rw [fr] at h2
      cases h2
    rw [hother k this]
    exact h2

theorem but_parent_fields (a b : Proc)
    (h : { a with parent_pid := 0 } = { b with parent_pid := 0 }) :
    a.p_pid = b.p_pid ∧ a.child = b.child := by
  cases a
  cases b
  simp only [Proc.mk.injEq] at h
  exact ⟨h.2.2.2.1, h.2.2.2.2.2.2.2⟩

/-- The cursor and kproc are not touched by proc_destroy. -/
theorem proc_destroy_cursor (K K' : Kernel) (p : Nat) (h : proc_destroy K (some p) = .ok K') :
    K'.processTable.last_i = K.processTable.last_i ∧ K'.kproc = K.kproc := by
  obtain ⟨r, K2, K3, _, hr, _, hend, hch, hK⟩ := proc_destroy_ok K K' p h
  obtain ⟨_, _, _, _, _, _, hK2⟩ := proc_end_waitpid_ok _ _ _ hend
  obtain ⟨f1, f2, _⟩ := proc_destroy_children_frame _ _ _ hch
  subst hK
  constructor
  · show K3.processTable.last_i = _
    rw [f1, hK2]
    rfl
  · show K3.kproc = _
    rw [f2, hK2]
    rfl

theorem kinv_proc_destroy (K K' : Kernel) (p : Nat) (inv : KInv K)
    (h : proc_destroy K (some p) = .ok K') : KInv K' := by
  obtain ⟨r, _, _, hk, hr, _, _, _, _⟩ := proc_destroy_ok K K' p h
  obtain ⟨e1, e2, e3, e4⟩ := proc_destroy_effect K K' p r hr h
  obtain ⟨c1, c2⟩ := proc_destroy_cursor K K' p h
  obtain ⟨⟨i0, i1, i2, i3, i4⟩, k, rk, h1, h2, h3, h4⟩ := inv
  obtain ⟨_, _, pslot⟩ := i2 p r hr
  have rec_of : ∀ q rq, q ≠ p → K.heap q = some rq →
      ∃ rq', K'.heap q = some rq' ∧ rq'.p_pid = rq.p_pid ∧ rq'.child = rq.child := by
    intro q rq hq hrq
    have := e4 q hq
    rw [hrq] at this
    cases hq' : K'.heap q with
    | none => simp [hq'] at this
    | some rq' =>
      rw [hq'] at this
      simp only [Option.map_some', Option.some.injEq] at this
      exact ⟨rq', rfl, (but_parent_fields _ _ this).1, (but_parent_fields _ _ this).2⟩
  have rec_back : ∀ q rq', q ≠ p → K'.heap q = some rq' →
      ∃ rq, K.heap q = some rq ∧ rq'.p_pid = rq.p_pid := by
    intro q rq' hq hrq'
    have := e4 q hq
    rw [hrq'] at this
    cases hq' : K.heap q with
    | none => simp [hq'] at this
    | some rq =>
      rw [hq'] at this
      simp only [Option.map_some', Option.some.injEq] at this
      exact ⟨rq, rfl, (but_parent_fields _ _ this).1⟩
  refine ⟨⟨?_, ?_, ?_, by rw [c1]; exact i3, ?_⟩, k, ?_⟩
  · by_cases e : (0 : Nat) = r.p_pid
    · rw [e]; exact e2
    · rw [e3 0 e]; exact i0
  · intro i q hq
    have hi : i ≠ r.p_pid := by
      rintro rfl
      rw [e2] at hq
      cases hq
    rw [e3 i hi] at hq
    obtain ⟨a, b, rq, c, d⟩ := i1 i q hq
    have hqp : q ≠ p := by
      rintro rfl
      rw [hr] at c
      simp only [Option.some.injEq] at c
      subst c
      exact hi d.symm
    obtain ⟨rq', x, y, _⟩ := rec_of q rq hqp c
    exact ⟨a, b, rq', x, by rw [y]; exact d⟩
  · intro q rq' hq
    have hqp : q ≠ p := by
      rintro rfl
      rw [e1] at hq
      cases hq
    obtain ⟨rq, x, y⟩ := rec_back q rq' hqp hq
    obtain ⟨a, b, c⟩ := i2 q rq x
    rw [y]
    refine ⟨a, b, ?_⟩
    have : rq.p_pid ≠ r.p_pid := by
      intro e
      rw [e, pslot] at c
      simp only [Option.some.injEq] at c
      exact hqp c.symm
    rw [e3 _ this]
    exact c
  · intro e i
    rw [c1] at e
    by_cases hi : i = r.p_pid
    · rw [hi]; exact e2
    · rw [e3 i hi]; exact i4 e i
  · have hkp : k ≠ p := by
      rintro rfl
      exact hk h1.symm
    obtain ⟨rk', x, y, z⟩ := rec_of k rk hkp h2
    exact ⟨rk', by rw [c2]; exact h1, x, by rw [y]; exact h3, by rw [z]; exact h4⟩

theorem kinv_store_fields (K : Kernel) (p : Nat) (r r' : Proc) (inv : KInv K)
    (hr : K.heap p = some r) (hpid : r'.p_pid = r.p_pid) (hchild : r'.child = r.child) :
    KInv (K.store p r') := by
  refine kinv_store K p r r' inv hr hpid ?_
  intro hk
  obtain ⟨_, k, rk, h1, h2, _, h4⟩ := inv
  rw [h1] at hk
  simp only [Option.some.injEq] at hk
  subst hk
  rw [hr] at h2
  simp only [Option.some.injEq] at h2
  subst h2
  rw [hchild]
  exact h4

theorem proc_addthread_ok (K K' : Kernel) (p : Nat) (t t' : Thread)
    (h : proc_addthread K p t = .ok (K', t')) :
    ∃ r, K.heap p = some r ∧ K' = K.store p { r with p_numthreads := r.p_numthreads + 1 } := by
  unfold proc_addthread at h
  split at h
  · cases hr : K.heap p with
    | none => simp [hr] at h
    | some r =>
      simp only [hr, Except.ok.injEq, Prod.mk.injEq] at h
      exact ⟨r, rfl, h.1.symm⟩
  · simp at h

theorem kinv_proc_addthread (K K' : Kernel) (p : Nat) (t t' : Thread) (inv : KInv K)
    (h : proc_addthread K p t = .ok (K', t')) : KInv K' := by
  obtain ⟨r, hr, hK⟩ := proc_addthread_ok K K' p t t' h
  subst hK
  exact kinv_store_fields K p r _ inv hr rfl rfl

theorem thread_fork_ok (K K5 : Kernel) (proc : Nat) (nt : Option Thread) (b : Bool)
    (h : thread_fork K proc nt = .ok (K5, b)) :
    (b = false ∧ K5 = K) ∨
    (b = true ∧ ∃ r, K.heap proc = some r ∧
      K5 = K.store proc { r with p_numthreads := r.p_numthreads + 1 }) := by
  unfold thread_fork at h
  cases nt with
  | none =>
    simp only [Except.ok.injEq, Prod.mk.injEq] at h
    exact Or.inl ⟨h.2.symm, h.1.symm⟩
  | some t =>
    simp only at h
    cases ha : proc_addthread K proc { t with t_proc := none } with
    | error e => simp [ha] at h
    | ok pr =>
      obtain ⟨K', t'⟩ := pr
      simp only [ha, Except.ok.injEq, Prod.mk.injEq] at h
      obtain ⟨r, hr, hK⟩ := proc_addthread_ok _ _ _ _ _ ha
      exact Or.inr ⟨h.2.symm, r, hr, by rw [← h.1, hK]⟩

theorem add_child_ok (K K3 : Kernel) (parent child : Nat) (node : Bool)
    (h : add_child K parent child node = .ok K3) :
    ∃ rp rc, K.heap parent = some rp ∧ K.heap child = some rc ∧
      K3 = K.store parent { rp with child := add_child_list rc.p_pid rp.child } := by
  unfold add_child at h
  cases hp : K.heap parent with
  | none => simp [hp] at h
  | some rp =>
    simp only [hp] at h
    split at h
    · cases hc : K.heap child with
      | none => simp [hc] at h
      | some rc =>
        simp only [hc, Except.ok.injEq] at h
        exact ⟨rp, rc, rfl, rfl, h.symm⟩
    · simp at h

theorem kinv_sys__exit (K K' : Kernel) (cur : Thread) (status : Int) (inv : KInv K)
    (h : sys__exit K cur status = .ok K') : KInv K' := by
  obtain ⟨p, r, s, q, rq, _, h2, _, _, h5, h6⟩ := sys__exit_ok K K' cur status h
  subst h6
  have inv1 := kinv_store_fields K p r
    { r with p_status := Int.land status 0xff,
             p_numthreads := r.p_numthreads - 1, p_sem := some s } inv h2 rfl rfl
  refine kinv_store _ q rq _ inv1 h5 rfl ?_
  intro hk
  obtain ⟨_, k, rk, h1, hk2, _, h4⟩ := inv1
  rw [h1] at hk
  simp only [Option.some.injEq] at hk
  subst hk
  rw [h5] at hk2
  simp only [Option.some.injEq] at hk2
  subst hk2
  show remove_child_list r.p_pid rq.child = []
  rw [h4]
  rfl

theorem kinv_proc_wait (K K' : Kernel) (cur : Thread) (p : Nat) (st : Int) (inv : KInv K)
    (h : proc_wait K cur (some p) = .ok (K', st)) : KInv K' := by
  obtain ⟨r, s, _, hr, _, _, hd⟩ := proc_wait_ok K K' cur p st h
  exact kinv_proc_destroy _ _ p
    (kinv_store_fields K p r { r with p_sem := some s } inv hr rfl rfl) hd

theorem kinv_sys_waitpid (K K' : Kernel) (cur : Thread) (pid : Int) (statusp : Bool)
    (options ret : Int) (w : Option Int) (inv : KInv K)
    (h : sys_waitpid K cur pid statusp options = .ok (K', ret, w)) : KInv K' := by
  unfold sys_waitpid at h
  split at h
  · simp at h
  · simp only [Except.ok.injEq, Prod.mk.injEq] at h
    rw [← h.1]
    exact inv
  · rename_i p _
    cases hw : proc_wait K cur (some p) with
    | error e => simp [hw] at h
    | ok pr =>
      obtain ⟨K2, s⟩ := pr
      simp only [hw, Except.ok.injEq, Prod.mk.injEq] at h
      rw [← h.1]
      exact kinv_proc_wait K K2 cur p s inv hw

theorem kinv_boot (a : Alloc) (K : Kernel) (h : proc_bootstrap Kernel.boot a = .ok K) :
    KInv K := by
  unfold proc_bootstrap at h
  split at h
  · simp at h
  · simp at h
  · rename_i K1 p hc
    simp only [Except.ok.injEq] at h
    subst h
    have t1 := tableInv_proc_create Kernel.boot K1 a p tableInv_boot rfl hc
    obtain ⟨_, _, j, r1, hsc, hr1, hpid, _, _, _, _, hchild, _, _, _, _, _⟩ :=
      proc_create_ok Kernel.boot K1 a p hc
    have hj : scan Kernel.boot.processTable MAX_PROC (scan_start Kernel.boot.processTable)
        = some (some 1) := scan_first _ 1 (by simp [Kernel.boot]) (by simp [Kernel.boot])
    rw [hj] at hsc
    simp only [Option.some.injEq] at hsc
    refine ⟨?_, p, r1, rfl, hr1, by rw [hpid, ← hsc], hchild⟩
    obtain ⟨i0, i1, i2, i3, i4⟩ := t1
    exact ⟨i0, i1, i2, i3, i4⟩

theorem kinv_proc_create_runprogram (lim : Limits) (o : LockOpts) (S S1 : System)
    (cur : Thread) (a : Alloc) (e0 e1 e2 : ConsoleEnv) (res : Option Nat)
    (inv : KInv S.kernel) (fresh : ∀ p, a.proc = some p → S.kernel.heap p = none)
    (h : proc_create_runprogram lim o S cur a e0 e1 e2 = .ok (S1, res)) :
    KInv S1.kernel ∧ S1.kernel.kproc = S.kernel.kproc := by
  rcases proc_create_runprogram_kernel lim o S S1 cur a e0 e1 e2 res h with
    ⟨_, hK, _⟩ | ⟨K1, newp, rn, cp, rc, hc, hn, _, _, hK, _⟩
  · rw [hK]
    exact ⟨inv, rfl⟩
  · have inv1 := kinv_proc_create S.kernel K1 a (some newp) inv fresh hc
    have hk := (proc_create_ok S.kernel K1 a newp hc).2.2
    obtain ⟨_, _, _, _, _, _, _, _, _, _, _, _, _, _, hkp⟩ := hk
    rw [hK]
    exact ⟨kinv_store_fields K1 newp rn _ inv1 hn rfl rfl, hkp⟩

theorem kinv_sys_fork_unwind (K : Kernel) (F : Files) (newp : Nat) (S' : System)
    (ret : Option Errno) (rv : Option Nat) (inv : KInv K)
    (h : sys_fork_unwind K F newp = .ok (S', ret, rv)) : KInv S'.kernel := by
  unfold sys_fork_unwind at h
  cases hd : proc_destroy K (some newp) with
  | error e => simp [hd] at h
  | ok K' =>
    simp only [hd, Except.ok.injEq, Prod.mk.injEq] at h
    rw [← h.1]
    exact kinv_proc_destroy K K' newp inv hd

/-- Every outcome of sys_fork by a process other than kproc keeps the kernel
invariant. -/
theorem kinv_sys_fork (lim : Limits) (o : LockOpts) (S S' : System) (cur : Thread) (p : Nat)
    (env : ForkEnv) (ret : Option Errno) (rv : Option Nat) (inv : KInv S.kernel)
    (hp : cur.t_proc = some p) (hkp : S.kernel.kproc ≠ some p)
    (fresh : ∀ q, env.alloc.proc = some q → S.kernel.heap q = none)
    (h : sys_fork lim o S cur env = .ok (S', ret, rv)) : KInv S'.kernel := by
  unfold sys_fork at h
  simp only [hp] at h
  cases hcr : proc_create_runprogram lim o S cur env.alloc env.e0 env.e1 env.e2 with
  | error e => simp [hcr] at h
  | ok pr =>
    obtain ⟨S1, res⟩ := pr
    obtain ⟨inv1, hk1⟩ := kinv_proc_create_runprogram lim o S S1 cur env.alloc env.e0 env.e1
      env.e2 res inv fresh hcr
    cases res with
    | none =>
      simp only [hcr, Except.ok.injEq, Prod.mk.injEq] at h
      rw [← h.1]
      exact inv1
    | some newp =>
      simp only [hcr] at h
      cases hcp : S1.kernel.heap p with
      | none => simp [hcp] at h
      | some rcp =>
        cases hn : S1.kernel.heap newp with
        | none => simp [hcp, hn] at h
        | some rn =>
          simp only [hcp, hn] at h
          have inv2 := kinv_store_fields S1.kernel newp rn
            { rn with p_addrspace := env.as_copy } inv1 hn rfl rfl
          split at h
          · exact kinv_sys_fork_unwind _ _ _ _ _ _ inv2 h
          · split at h
            · exact kinv_sys_fork_unwind _ _ _ _ _ _ inv2 h
            · cases hadd : add_child (S1.kernel.store newp { rn with p_addrspace := env.as_copy })
                  p newp env.node with
              | error e => simp [hadd] at h
              | ok K3 =>
                simp only [hadd] at h
                obtain ⟨rp, rc, a1, a2, a3⟩ := add_child_ok _ _ _ _ _ hadd
                have inv3 : KInv K3 := by
                  rw [a3]
                  refine kinv_store _ p rp _ inv2 a1 rfl ?_
                  intro hk
                  exact absurd (hk1 ▸ hk) hkp
                cases h3p : K3.heap p with
                | none => simp [h3p] at h
                | some rc3 =>
                  cases h3n : K3.heap newp with
                  | none => simp [h3p, h3n] at h
                  | some rn3 =>
                    simp only [h3p, h3n] at h
                    have inv4 := kinv_store_fields K3 newp rn3
                      { rn3 with parent_pid := rc3.p_pid } inv3 h3n rfl rfl
                    cases htf : thread_fork (K3.store newp { rn3 with parent_pid := rc3.p_pid })
                        newp env.thread with
                    | error e => simp [htf] at h
                    | ok pr5 =>
                      obtain ⟨K5, b⟩ := pr5
                      have inv5 : KInv K5 := by
                        rcases thread_fork_ok _ _ _ _ _ htf with ⟨_, e⟩ | ⟨_, r, hr, e⟩
                        · rw [e]; exact inv4
                        · rw [e]; exact kinv_store_fields _ newp r _ inv4 hr rfl rfl
                      cases b with
                      | false =>
                        simp only [htf] at h
                        exact kinv_sys_fork_unwind _ _ _ _ _ _ inv5 h
                      | true =>
                        simp only [htf] at h
                        split at h
                        · simp at h
                        · simp only [Except.ok.injEq, Prod.mk.injEq] at h
                          rw [← h.1]
                          exact inv5

/-! ## The parts of sys__exit and of proc_wait -/

/-- The call sys__exit is its first part followed, in the state that part left, by
its second part. -/
theorem sys__exit_parts (K : Kernel) (cur : Thread) (status : Int) :
    sys__exit K cur status =
      match sys__exit_head K cur status with
      | .error e => .error e
      | .ok (K1, p) => sys__exit_tail K1 p := by
  unfold sys__exit sys__exit_head
  cases hp : cur.t_proc with
  | none => rfl
  | some p =>
    simp only
    cases hr : K.heap p with
    | none => rfl
    | some r =>
      simp only
      cases hrem : proc_remthread (K.store p { r with p_status := Int.land status 0xff }) cur with
      | error e => rfl
      | ok pr =>
        obtain ⟨K2, t⟩ := pr
        simp only
        cases hr2 : K2.heap p with
        | none => rfl
        | some r2 =>
          simp only
          cases hv : V r2.p_sem with
          | error e => rfl
          | ok s =>
            simp only [sys__exit_tail, store_heap_self]

/-- The call proc_wait is its first part followed by proc_destroy. -/
theorem proc_wait_parts (K : Kernel) (cur : Thread) (proc : Option Nat) :
    proc_wait K cur proc =
      match proc_wait_P K cur proc with
      | .error e => .error e
      | .ok (K1, st) =>
        match proc_destroy K1 proc with
        | .error e => .error e
        | .ok K' => .ok (K', st) := by
  unfold proc_wait proc_wait_P
  cases proc with
  | none => rfl
  | some p =>
    simp only
    split
    · rfl
    · cases hr : K.heap p with
      | none => rfl
      | some r =>
        simp only
        cases hP : P cur.t_in_interrupt r.p_sem with
        | error e => rfl
        | ok s => rfl

/-- What the first part of sys__exit does when it returns. -/
theorem sys__exit_head_ok (K K' : Kernel) (cur : Thread) (status : Int) (p' : Nat)
    (h : sys__exit_head K cur status = .ok (K', p')) :
    ∃ r s, cur.t_proc = some p' ∧ K.heap p' = some r ∧ 0 < r.p_numthreads ∧
      V r.p_sem = .ok s ∧
      K' = K.store p' { r with p_status := Int.land status 0xff,
                               p_numthreads := r.p_numthreads - 1, p_sem := some s } := by
  unfold sys__exit_head at h
  cases hp : cur.t_proc with
  | none => simp [hp] at h
  | some p =>
    simp only [hp] at h
    cases hr : K.heap p with
    | none => simp [hr] at h
    | some r =>
      simp only [hr] at h
      by_cases hn : 0 < r.p_numthreads
      · have hrem : proc_remthread (K.store p { r with p_status := Int.land status 0xff }) cur
            = .ok (K.store p { r with p_status := Int.land status 0xff,
                                      p_numthreads := r.p_numthreads - 1 },
                   { cur with t_proc := none }) := by
          unfold proc_remthread
          simp only [hp, store_heap_self, hn, if_true]
          congr 2
          simp only [Kernel.store, Kernel.mk.injEq, and_true, true_and]
          funext x
          by_cases hx : x = p <;> simp [hx]
        rw [hrem] at h
        simp only [store_heap_self] at h
        cases hv : V r.p_sem with
        | error e => simp [hv] at h
        | ok s =>
          simp only [hv, Except.ok.injEq, Prod.mk.injEq] at h
          obtain ⟨h1, h2⟩ := h
          subst h2
          refine ⟨r, s, rfl, hr, hn, hv, ?_⟩
          rw [← h1]
          simp only [Kernel.store, Kernel.mk.injEq, and_true, true_and]
          funext x
          by_cases hx : x = p <;> simp [hx]
      · have hrem : proc_remthread (K.store p { r with p_status := Int.land status 0xff }) cur
            = .error .kassert := by
          unfold proc_remthread
          simp only [hp, store_heap_self, hn, if_false]
        rw [hrem] at h
        simp at h

/-- What the second part of sys__exit does when it returns. -/
theorem sys__exit_tail_ok (K K' : Kernel) (p : Nat) (h : sys__exit_tail K p = .ok K') :
    ∃ r q rq, K.heap p = some r ∧ K.processTable.proc r.parent_pid = some q ∧
      K.heap q = some rq ∧ rq.p_pid = r.parent_pid ∧
      K' = K.store q { rq with child := remove_child_list r.p_pid rq.child } := by
  unfold sys__exit_tail at h
  cases hr : K.heap p with
  | none => simp [hr] at h
  | some r =>
    simp only [hr] at h
    split at h
    · simp at h
    · rename_i parent hsearch
      obtain ⟨q, rq, e1, _, _, hslot, hq, hpid⟩ := proc_search_pid_ok _ _ _ hsearch
      subst e1
      simp only [remove_child, hq, Except.ok.injEq] at h
      refine ⟨r, q, rq, rfl, ?_, hq, by exact_mod_cast hpid, h.symm⟩
      simpa using hslot

/-- The second part of sys__exit reads the record of the exiting process: when that
record has been freed, the read is invalid. -/
theorem sys__exit_tail_freed (K : Kernel) (p : Nat) (h : K.heap p = none) :
    sys__exit_tail K p = .error .badptr := by
  unfold sys__exit_tail
  rw [h]

/-- What the first part of proc_wait does when it returns. -/
theorem proc_wait_P_ok (K K' : Kernel) (cur : Thread) (p : Nat) (st : Int)
    (h : proc_wait_P K cur (some p) = .ok (K', st)) :
    ∃ r s, some p ≠ K.kproc ∧ K.heap p = some r ∧ P cur.t_in_interrupt r.p_sem = .ok s ∧
      st = r.p_status ∧ K' = K.store p { r with p_sem := some s } := by
  unfold proc_wait_P at h
  simp only at h
  split at h
  · simp at h
  · rename_i hk
    cases hr : K.heap p with
    | none => simp [hr] at h
    | some r =>
      simp only [hr] at h
      cases hP : P cur.t_in_interrupt r.p_sem with
      | error e => simp [hP] at h
      | ok s =>
        simp only [hP, Except.ok.injEq, Prod.mk.injEq] at h
        exact ⟨r, s, hk, rfl, hP, h.2.symm, h.1.symm⟩

theorem kinv_sys__exit_head (K K' : Kernel) (cur : Thread) (status : Int) (p : Nat)
    (inv : KInv K) (h : sys__exit_head K cur status = .ok (K', p)) : KInv K' := by
  obtain ⟨r, s, _, hr, _, _, hK⟩ := sys__exit_head_ok K K' cur status p h
  rw [hK]
  exact kinv_store_fields K p r _ inv hr rfl rfl

theorem kinv_sys__exit_tail (K K' : Kernel) (p : Nat) (inv : KInv K)
    (h : sys__exit_tail K p = .ok K') : KInv K' := by
  obtain ⟨r, q, rq, _, _, hq, _, hK⟩ := sys__exit_tail_ok K K' p h
  rw [hK]
  refine kinv_store K q rq _ inv hq rfl ?_
  intro hk
  obtain ⟨_, k, rk, h1, hk2, _, h4⟩ := inv
  rw [h1] at hk
  simp only [Option.some.injEq] at hk
  subst hk
  rw [hq] at hk2
  simp only [Option.some.injEq] at hk2
  subst hk2
  show remove_child_list r.p_pid rq.child = []
  rw [h4]
  rfl

theorem kinv_proc_wait_P (K K' : Kernel) (cur : Thread) (p : Nat) (st : Int) (inv : KInv K)
    (h : proc_wait_P K cur (some p) = .ok (K', st)) : KInv K' := by
  obtain ⟨r, s, _, hr, _, _, hK⟩ := proc_wait_P_ok K K' cur p st h
  rw [hK]
  exact kinv_store_fields K p r _ inv hr rfl rfl

/-- Every state reachable after proc_bootstrap satisfies the kernel invariant. -/
theorem sysRun_kinv (lim : Limits) (o : LockOpts) (S : System) (h : SysRun lim o S) :
    KInv S.kernel := by
  induction h with
  | boot a K hb => exact kinv_boot a K hb
  | runprogram S S1 cur a e0 e1 e2 res _ fresh hc ih =>
    exact (kinv_proc_create_runprogram lim o S S1 cur a e0 e1 e2 res ih fresh hc).1
  | attach S K' p t t' _ ha ih => exact kinv_proc_addthread _ _ p t t' ih ha
  | fork S S' cur p env ret rv _ hp hkp fresh hf ih =>
    exact kinv_sys_fork lim o S S' cur p env ret rv ih hp hkp fresh hf
  | exit S K' cur status _ he ih => exact kinv_sys__exit _ _ cur status ih he
  | waitpid S K' cur pid statusp options ret w _ hw ih =>
    exact kinv_sys_waitpid _ _ cur pid statusp options ret w ih hw
  | wait S K' cur p st _ hw ih => exact kinv_proc_wait _ _ cur p st ih hw
  | exit_head S K' cur status p _ he ih => exact kinv_sys__exit_head _ _ cur status p ih he
  | exit_tail S K' p _ he ih => exact kinv_sys__exit_tail _ _ p ih he
  | wait_P S K' cur p st _ hw ih => exact kinv_proc_wait_P _ _ cur p st ih hw
  | destroy S K' p _ hd ih => exact kinv_proc_destroy _ _ p ih hd
  | fields S p r as cwd _ hr ih => exact kinv_store_fields _ p r _ ih hr rfl rfl
  | files S F _ ih => exact ih

/-! ## Claims about exit under init and about fork -/

/-- In a state that satisfies the kernel invariant, sys__exit by a thread of a process
whose parent_pid is 1 returns as soon as its thread count is positive and V succeeds
on its semaphore: the lookup of identifier 1 finds kproc. -/
theorem sys__exit_under_init (K : Kernel) (inv : KInv K) (cur : Thread) (p : Nat) (r : Proc)
    (status : Int) (s : Semaphore) (hp : cur.t_proc = some p) (hr : K.heap p = some r)
    (hpar : r.parent_pid = 1) (hn : 0 < r.p_numthreads) (hV : V r.p_sem = .ok s) :
    ∃ K', sys__exit K cur status = .ok K' ∧
      ∃ k rk', K'.kproc = some k ∧ K'.processTable.proc 1 = some k ∧
        K'.heap k = some rk' ∧ rk'.p_pid = 1 ∧ r.p_pid ∉ rk'.child := by
  obtain ⟨ti, k, rk, h1, h2, h3, h4⟩ := inv
  have hslot : K.processTable.proc 1 = some k := by
    have := (ti.2.2.1 k rk h2).2.2
    rwa [h3] at this
  have key : ∃ rk3,
      (((K.store p { r with p_status := Int.land status 0xff }).store p
          { r with p_status := Int.land status 0xff,
                   p_numthreads := r.p_numthreads - 1 }).store p
          { r with p_status := Int.land status 0xff,
                   p_numthreads := r.p_numthreads - 1, p_sem := some s }).heap k = some rk3 ∧
      rk3.p_pid = 1 ∧ rk3.child = [] := by
    by_cases e : k = p
    · subst e
      rw [hr] at h2
      simp only [Option.some.injEq] at h2
      subst h2
      exact ⟨_, store_heap_self _ _ _, h3, h4⟩
    · refine ⟨rk, ?_, h3, h4⟩
      rw [store_heap_other _ _ _ _ e, store_heap_other _ _ _ _ e, store_heap_other _ _ _ _ e]
      exact h2
  obtain ⟨rk3, hk3, hpid3, hch3⟩ := key
  obtain ⟨K3, e3⟩ : ∃ K3 : Kernel, K3 =
      ((K.store p { r with p_status := Int.land status 0xff }).store p
          { r with p_status := Int.land status 0xff,
                   p_numthreads := r.p_numthreads - 1 }).store p
          { r with p_status := Int.land status 0xff,
                   p_numthreads := r.p_numthreads - 1, p_sem := some s } := ⟨_, rfl⟩
  rw [← e3] at hk3
  have hslot3 : K3.processTable.proc 1 = some k := by rw [e3]; exact hslot
  have hs := proc_search_pid_eval K3 1 k rk3 (by decide) hslot3 hk3 hpid3
  refine ⟨K3.store k { rk3 with child := remove_child_list r.p_pid rk3.child }, ?_, k,
    { rk3 with child := remove_child_list r.p_pid rk3.child }, ?_, hslot3,
    store_heap_self _ k _, hpid3, ?_⟩
  · unfold sys__exit
    simp only [hp, hr, proc_remthread, store_heap_self, hn, if_true, hV]
    rw [← e3, hpar]
    simp only [hs, remove_child, hk3]
  · show K3.kproc = some k
    rw [e3]
    exact h1
  · show r.p_pid ∉ remove_child_list r.p_pid rk3.child
    rw [hch3]
    simp [remove_child_list]

/-- What holds of an exit under init: in every state of `SysRun`, the lookup
proc_search_pid(1) yields the live record of kproc, whose p_pid is 1, and remove_child
on it returns and leaves any identifier absent from its child list; and a sys__exit by
a process whose parent_pid is 1 that runs with no other thread in between, and whose
proc_remthread and V pass, runs to its end and leaves the exiting identifier absent
from the child list of that record.  When another thread runs between the two parts
of sys__exit, or when the semaphore pointer of the process is NULL, the call does not
run to its end. -/
theorem exit_under_init_completes (lim : Limits) (o : LockOpts) (S : System)
    (h : SysRun lim o S) :
    (∃ k rk, proc_search_pid S.kernel 1 = .ok (some k) ∧ S.kernel.kproc = some k ∧
      S.kernel.heap k = some rk ∧ rk.p_pid = 1 ∧
      ∀ pid, ∃ K', remove_child S.kernel (some k) pid = .ok K' ∧
        ∃ rk', K'.heap k = some rk' ∧ rk'.p_pid = 1 ∧ pid ∉ rk'.child) ∧
    ∀ (cur : Thread) (p : Nat) (r : Proc) (status : Int) (s : Semaphore),
      cur.t_proc = some p → S.kernel.heap p = some r → r.parent_pid = 1 →
      0 < r.p_numthreads → V r.p_sem = .ok s →
      ∃ K', sys__exit S.kernel cur status = .ok K' ∧
        ∃ k rk', K'.kproc = some k ∧ K'.processTable.proc 1 = some k ∧
          K'.heap k = some rk' ∧ rk'.p_pid = 1 ∧ r.p_pid ∉ rk'.child := by
  have inv := sysRun_kinv lim o S h
  refine ⟨?_, fun cur p r status s hp hr hpar hn hV =>
    sys__exit_under_init S.kernel inv cur p r status s hp hr hpar hn hV⟩
  obtain ⟨ti, k, rk, h1, h2, h3, h4⟩ := inv
  have hslot : S.kernel.processTable.proc 1 = some k := by
    have := (ti.2.2.1 k rk h2).2.2
    rwa [h3] at this
  refine ⟨k, rk, proc_search_pid_eval S.kernel 1 k rk (by decide) hslot h2 h3, h1, h2, h3, ?_⟩
  intro pid
  refine ⟨S.kernel.store k { rk with child := remove_child_list pid rk.child },
    by simp only [remove_child, h2],
    { rk with child := remove_child_list pid rk.child }, store_heap_self _ _ _, h3, ?_⟩
  show pid ∉ remove_child_list pid rk.child
  rw [h4]
  simp [remove_child_list]

theorem sys_fork_unwind_ret (K : Kernel) (F : Files) (newp : Nat) (S' : System)
    (rv : Option Nat) (h : sys_fork_unwind K F newp = .ok (S', none, rv)) : False := by
  unfold sys_fork_unwind at h
  cases hd : proc_destroy K (some newp) with
  | error e => simp [hd] at h
  | ok K' => simp [hd] at h

/-- C15: when sys_fork, called by a thread of a registered process on fresh storage,
returns 0, the value written through retval is the identifier of the new child; the
child is a live record sitting in the table slot of that identifier, which differs from
the caller's identifier; the child's parent_pid is the caller's p_pid; and the caller's
child list is its previous child list with the child's identifier appended at the end. -/
theorem sys_fork_success (lim : Limits) (o : LockOpts) (S S' : System) (cur : Thread)
    (env : ForkEnv) (rv : Option Nat) (p : Nat) (r : Proc)
    (hp : cur.t_proc = some p) (hr : S.kernel.heap p = some r)
    (hslot : S.kernel.processTable.proc r.p_pid = some p)
    (fresh : ∀ q, env.alloc.proc = some q → S.kernel.heap q = none)
    (h : sys_fork lim o S cur env = .ok (S', none, rv)) :
    ∃ c rc, rv = some rc.p_pid ∧ S'.kernel.heap c = some rc ∧
      S'.kernel.processTable.proc rc.p_pid = some c ∧ rc.p_pid ≠ r.p_pid ∧
      rc.parent_pid = r.p_pid ∧
      ∃ r', S'.kernel.heap p = some r' ∧ r'.child = r.child ++ [rc.p_pid] ∧
        r'.p_pid = r.p_pid := by
  unfold sys_fork at h
  simp only [hp] at h
  cases hcr : proc_create_runprogram lim o S cur env.alloc env.e0 env.e1 env.e2 with
  | error e => simp [hcr] at h
  | ok pr =>
    obtain ⟨S1, res⟩ := pr
    cases res with
    | none => simp [hcr] at h
    | some newp =>
      simp only [hcr] at h
      rcases proc_create_runprogram_kernel lim o S S1 cur env.alloc env.e0 env.e1 env.e2 _ hcr
        with ⟨hres, _, _⟩ | ⟨K1, newp', rn0, cp, rc0, hc, hn0, _, _, hK, hres⟩
      · cases hres
      · have enew : newp' = newp := by
          rcases hres with e | e
          · cases e
          · simp only [Option.some.injEq] at e
            exact e.symm
        subst enew
        obtain ⟨hap, _, j, r1, hsc, hr1, hpid1, _, _, _, _, _, hother, hslotj, hslots, _, _⟩ :=
          proc_create_ok S.kernel K1 env.alloc newp' hc
        have hfresh := fresh newp' hap
        have hne : p ≠ newp' := by
          rintro rfl
          rw [hfresh] at hr
          cases hr
        obtain ⟨s1, s2⟩ := scan_start_range S.kernel.processTable
        obtain ⟨_, _, jempty, _, _⟩ := scan_found _ _ j s1 s2 hsc
        have hj : j ≠ r.p_pid := by
          rintro rfl
          rw [jempty] at hslot
          cases hslot
        rw [hr1] at hn0
        simp only [Option.some.injEq] at hn0
        subst hn0
        have hS1p : S1.kernel.heap p = some r := by
          rw [hK, store_heap_other _ _ _ _ hne, hother p hne]
          exact hr
        have hS1n : S1.kernel.heap newp' = some
            { r1 with p_addrspace := none,
                      p_cwd := if rc0.p_cwd ≠ none then rc0.p_cwd else r1.p_cwd } := by
          rw [hK, store_heap_self]
        simp only [hS1p, hS1n] at h
        split at h
        · exact (sys_fork_unwind_ret _ _ _ _ _ h).elim
        · split at h
          · exact (sys_fork_unwind_ret _ _ _ _ _ h).elim
          · split at h
            · simp at h
            · rename_i K3 hadd
              obtain ⟨rp, rc, a1, a2, a3⟩ := add_child_ok _ _ _ _ _ hadd
              rw [store_heap_other _ _ _ _ hne, hS1p] at a1
              simp only [Option.some.injEq] at a1
              subst a1
              rw [store_heap_self] at a2
              simp only [Option.some.injEq] at a2
              subst a2
              have h3p : K3.heap p = some
                  { r with child := add_child_list r1.p_pid r.child } := by
                rw [a3, store_heap_self]
              have h3n : K3.heap newp' = some
                  { r1 with p_addrspace := env.as_copy,
                            p_cwd := if rc0.p_cwd ≠ none then rc0.p_cwd else r1.p_cwd } := by
                rw [a3, store_heap_other _ _ _ _ (Ne.symm hne), store_heap_self]
              have h3t : K3.processTable = K1.processTable := by
                rw [a3, hK]
                rfl
              simp only [h3p, h3n] at h
              split at h
              · simp at h
              · rename_i K5 htf
                exact (sys_fork_unwind_ret _ _ _ _ _ h).elim
              · rename_i K5 htf
                rcases thread_fork_ok _ _ _ _ _ htf with ⟨e, _⟩ | ⟨_, r4, hr4, hK5⟩
                · cases e
                · rw [store_heap_self] at hr4
                  simp only [Option.some.injEq] at hr4
                  subst hr4
                  have h5n : K5.heap newp' = some
                      { r1 with p_addrspace := env.as_copy,
                                p_cwd := if rc0.p_cwd ≠ none then rc0.p_cwd else r1.p_cwd,
                                parent_pid := r.p_pid,
                                p_numthreads := r1.p_numthreads + 1 } := by
                    rw [hK5, store_heap_self]
                  simp only [h5n, Except.ok.injEq, Prod.mk.injEq, true_and] at h
                  obtain ⟨hS', hrv⟩ := h
                  subst hS'
                  refine ⟨newp',
                    { r1 with p_addrspace := env.as_copy,
                              p_cwd := if rc0.p_cwd ≠ none then rc0.p_cwd else r1.p_cwd,
                              parent_pid := r.p_pid,
                              p_numthreads := r1.p_numthreads + 1 },
                    hrv.symm, h5n, ?_, ?_, rfl,
                    { r with child := add_child_list r1.p_pid r.child }, ?_, ?_, rfl⟩
                  · show K5.processTable.proc r1.p_pid = some newp'
                    rw [hK5]
                    show K3.processTable.proc r1.p_pid = some newp'
                    rw [h3t, hpid1]
                    exact hslotj
                  · show r1.p_pid ≠ r.p_pid
                    rw [hpid1]
                    exact hj
                  · show K5.heap p = _
                    rw [hK5, store_heap_other _ _ _ _ hne, store_heap_other _ _ _ _ hne]
                    exact h3p
                  · show add_child_list r1.p_pid r.child = r.child ++ [r1.p_pid]
                    exact add_child_list_eq _ _

/-- The state after the successful fork is reachable. -/
theorem forked_reachable : SysRun lim0 opts_sem forked :=
  SysRun.fork sys0 forked child_thread 2000 fork_ok none (some 3) sys0_reachable rfl
    (by decide) (fun q hq => by cases hq; rfl) forked_ok

/-- Witness of C15: the fork by the process at 2000 (identifier 2) in `sys0`. -/
theorem sys_fork_success_witness :
    child_thread.t_proc = some 2000 ∧ sys0.kernel.processTable.proc 2 = some 2000 ∧
    sys_fork lim0 opts_sem sys0 child_thread fork_ok = .ok (forked, none, some 3) ∧
    ∃ c rc, some 3 = some rc.p_pid ∧ forked.kernel.heap c = some rc ∧
      forked.kernel.processTable.proc rc.p_pid = some c ∧ rc.p_pid ≠ 2 ∧
      rc.parent_pid = 2 ∧
      ∃ r', forked.kernel.heap 2000 = some r' ∧ r'.child = [] ++ [rc.p_pid] ∧
        r'.p_pid = 2 :=
  ⟨rfl, rfl, forked_ok,
   sys_fork_success lim0 opts_sem sys0 forked child_thread fork_ok (some 3) 2000
     { p_numthreads := 1, p_addrspace := none, p_cwd := none, p_pid := 2, p_status := 0,
       p_sem := some { sem_count := 0 }, parent_pid := 1, child := [] }
     rfl rfl rfl (fun q hq => by cases hq; rfl) forked_ok⟩

/-- The same at the reachable state after a fork. -/
theorem exit_under_init_completes_witness :
    SysRun lim0 opts_sem forked ∧
    ((∃ k rk, proc_search_pid forked.kernel 1 = .ok (some k) ∧ forked.kernel.kproc = some k ∧
      forked.kernel.heap k = some rk ∧ rk.p_pid = 1 ∧
      ∀ pid, ∃ K', remove_child forked.kernel (some k) pid = .ok K' ∧
        ∃ rk', K'.heap k = some rk' ∧ rk'.p_pid = 1 ∧ pid ∉ rk'.child) ∧
    ∀ (cur : Thread) (p : Nat) (r : Proc) (status : Int) (s : Semaphore),
      cur.t_proc = some p → forked.kernel.heap p = some r → r.parent_pid = 1 →
      0 < r.p_numthreads → V r.p_sem = .ok s →
      ∃ K', sys__exit forked.kernel cur status = .ok K' ∧
        ∃ k rk', K'.kproc = some k ∧ K'.processTable.proc 1 = some k ∧
          K'.heap k = some rk' ∧ rk'.p_pid = 1 ∧ r.p_pid ∉ rk'.child) :=
  ⟨forked_reachable, exit_under_init_completes lim0 opts_sem forked forked_reachable⟩

/-! ## The file calls -/

theorem ldiff_mask32 (m : Nat) : Nat.ldiff 4294967295 m = 4294967295 - m % 4294967296 := by
  have e1 : (4294967295 : Nat) = 2 ^ 32 - 1 := by norm_num
  have e2 : (4294967296 : Nat) = 2 ^ 32 := by norm_num
  have hlt : m % 2 ^ 32 < 2 ^ 32 := Nat.mod_lt _ (by norm_num)
  have e3 : 2 ^ 32 - 1 - m % 2 ^ 32 = 2 ^ 32 - (m % 2 ^ 32 + 1) := by omega
  rw [e1, e2, e3]
  apply Nat.eq_of_testBit_eq
  intro i
  rw [Nat.testBit_ldiff, Nat.testBit_two_pow_sub_one, Nat.testBit_two_pow_sub_succ hlt,
    Nat.testBit_mod_two_pow]
  by_cases h : i < 32 <;> simp [h]

/-- The C expression `retval & 0x00000000ffffffff` on a two's complement integer is
the residue of retval modulo 2^32. -/
theorem land_mask32 (s : Int) : Int.land s 0xffffffff = s % 4294967296 := by
  cases s with
  | ofNat m =>
    show ((m &&& 4294967295 : Nat) : Int) = _
    have := Nat.and_pow_two_sub_one_eq_mod m 32
    norm_num at this
    rw [this]
    rfl
  | negSucc m =>
    show ((Nat.ldiff 4294967295 m : Nat) : Int) = _
    rw [ldiff_mask32, Int.negSucc_eq]
    omega

/-- The C expression `retval >> 32` on a signed integer is the quotient by 2^32,
rounded down. -/
theorem shiftRight_32 (s : Int) : Int.shiftRight s 32 = s / 4294967296 := by
  have := Int.shiftRight_eq_div_pow s 32
  norm_num at this
  exact this

/-- The two words stored by sys_lseek, for an offset in the range of off_t: the first
is the upper half, the second holds the bits of the lower half, and together they give
the offset back. -/
theorem lseek_words (x : Int) (h1 : -9223372036854775808 ≤ x) (h2 : x < 9223372036854775808) :
    wrap32 (Int.shiftRight x 32) = x / 4294967296 ∧
    wrap32 (Int.land x 0xffffffff) % 4294967296 = x % 4294967296 ∧
    wrap32 (Int.shiftRight x 32) * 4294967296 + wrap32 (Int.land x 0xffffffff) % 4294967296
      = x := by
  rw [shiftRight_32, land_mask32]
  unfold wrap32
  omega

theorem wrap64_id (x : Int) (h1 : -9223372036854775808 ≤ x) (h2 : x < 9223372036854775808) :
    wrap64 x = x := by
  unfold wrap64
  omega

/-- A free lock is taken and given back by a thread that is not in an interrupt, and
is then as it was. -/
theorem lock_acquire_ptr_release (o : LockOpts) (L : Option Lock) (cur : Thread)
    (hi : cur.t_in_interrupt = false) (hf : lock_free o L) :
    ∃ L1, lock_acquire_ptr o L cur = .ok L1 ∧ lock_release o L1 cur = .ok (L.getD L1) ∧
      L = some (L.getD L1) := by
  obtain ⟨l, rfl, ho, hs⟩ := hf
  obtain ⟨ow, sm⟩ := l
  simp only at ho hs
  subst ho
  cases hsem : o.synch_sem with
  | false =>
    refine ⟨{ lk_owner := some cur.tid, sem := sm }, ?_, ?_, rfl⟩
    · simp [lock_acquire_ptr, lock_acquire, lock_do_i_hold, lock_acquire_sem,
        lock_acquire_owner, hsem]
    · simp [lock_release, lock_do_i_hold, lock_release_locked, hsem]
  | true =>
    obtain ⟨s, rfl, hpos, hmax⟩ := hs hsem
    obtain ⟨c⟩ := s
    simp only at hpos hmax
    refine ⟨{ lk_owner := some cur.tid, sem := some { sem_count := c - 1 } }, ?_, ?_, rfl⟩
    · have hc : c ≠ 0 := by omega
      simp [lock_acquire_ptr, lock_acquire, lock_do_i_hold, lock_acquire_sem,
        lock_acquire_owner, hsem, P, hi, hc]
    · have e : (c - 1 + 1) % UINT_RANGE = c := by
        rw [Nat.sub_add_cancel hpos]; exact Nat.mod_eq_of_lt hmax
      simp [lock_release, lock_do_i_hold, lock_release_locked, hsem, V, e, hpos]

theorem setEntry_same (F : Files) (i : Nat) (e : SystemFileTable) :
    (F.setEntry i e).sysTable i = e := by
  simp [Files.setEntry]

theorem setEntry_other (F : Files) (i k : Nat) (e : SystemFileTable) (h : k ≠ i) :
    (F.setEntry i e).sysTable k = F.sysTable k := by
  simp [Files.setEntry, h]

theorem setEntry_slots (F : Files) (i : Nat) (e : SystemFileTable) :
    (F.setEntry i e).openFileTable = F.openFileTable := rfl

theorem openFileTable_read_in (lim : Limits) (F : Files) (p : Nat) (fd : Int)
    (h1 : 0 ≤ fd) (h2 : fd < (lim.OPEN_MAX : Int)) :
    openFileTable_read lim F p fd = .ok (F.openFileTable p fd.toNat) := by
  unfold openFileTable_read
  rw [if_pos ⟨h1, h2⟩]

/-- What the switch of sys_lseek computes when it does not return from inside. -/
theorem sys_lseek_switch_ok (offset pos whence r : Int) (env : SeekEnv)
    (h : sys_lseek_switch offset pos whence env = .ok r) :
    (whence = SEEK_SET ∧ r = pos) ∨ (whence = SEEK_CUR ∧ r = wrap64 (offset + pos)) ∨
    (whence = SEEK_END ∧ ∃ sz, env.stat = .ok sz ∧ r = wrap64 (sz + pos)) := by
  unfold sys_lseek_switch at h
  split at h
  · rename_i hw
    exact Or.inl ⟨hw, by cases h; rfl⟩
  · split at h
    · rename_i hw
      exact Or.inr (Or.inl ⟨hw, by cases h; rfl⟩)
    · split at h
      · rename_i hw
        cases hst : env.stat with
        | error err => simp [hst] at h
        | ok sz =>
          simp only [hst] at h
          exact Or.inr (Or.inr ⟨hw, sz, rfl, by cases h; rfl⟩)
      · simp at h

/-- The call sys_lseek runs to its end on an open descriptor above STDERR_FILENO and
below OPEN_MAX whose lock is free: it returns 0, stores the value of the switch as
the offset and stores the two words. -/
theorem sys_lseek_runs (lim : Limits) (o : LockOpts) (F : Files) (cur : Thread)
    (p : Nat) (fd : Int) (sf v : Nat) (pos whence : Int) (env : SeekEnv) (retval : Int)
    (hp : cur.t_proc = some p) (hi : cur.t_in_interrupt = false)
    (h1 : 2 < fd) (h2 : fd < (lim.OPEN_MAX : Int)) (hpw : 0 ≤ pos ∨ whence = SEEK_CUR)
    (hs : F.openFileTable p fd.toNat = some sf) (hv : (F.sysTable sf).vn = some v)
    (hseek : env.seekable = true) (hl : lock_free o (F.sysTable sf).lock)
    (hsw : sys_lseek_switch (F.sysTable sf).offset pos whence env = .ok retval) :
    sys_lseek lim o F cur fd pos whence env =
      .ok (F.setEntry sf { F.sysTable sf with offset := retval }, none,
           some (wrap32 (Int.shiftRight retval 32), wrap32 (Int.land retval 0xffffffff))) := by
  obtain ⟨L1, ha, hr, hL⟩ := lock_acquire_ptr_release o _ cur hi hl
  have hread : openFileTable_read lim F p fd = .ok (some sf) := by
    rw [openFileTable_read_in lim F p fd (by omega) h2, hs]
  have c1 : ¬ (fd ≤ STDERR_FILENO ∨ fd > (lim.OPEN_MAX : Int)) := by
    unfold STDERR_FILENO; omega
  have c2 : ¬ (pos < 0 ∧ whence ≠ SEEK_CUR) := by
    rintro ⟨a, b⟩
    rcases hpw with h | h
    · omega
    · exact b h
  unfold sys_lseek
  simp only [hp, if_neg c1, if_neg c2, hread, hv, hseek, ha, hsw, hr, Bool.true_eq_false,
    if_false]
  rw [← hL]

/-- What a sys_lseek that returned 0 did: the descriptor is above STDERR_FILENO and
open, the stored offset is the value the switch computed from the old offset, and the
two stored words are made from it. -/
theorem sys_lseek_success (lim : Limits) (o : LockOpts) (F F' : Files) (cur : Thread)
    (fd pos whence : Int) (env : SeekEnv) (w : Option (Int × Int))
    (h : sys_lseek lim o F cur fd pos whence env = .ok (F', none, w)) :
    ∃ p sf retval, cur.t_proc = some p ∧ 2 < fd ∧ F.openFileTable p fd.toNat = some sf ∧
      sys_lseek_switch (F.sysTable sf).offset pos whence env = .ok retval ∧
      F'.openFileTable = F.openFileTable ∧
      (F'.sysTable sf).offset = retval ∧
      w = some (wrap32 (Int.shiftRight retval 32), wrap32 (Int.land retval 0xffffffff)) := by
  unfold sys_lseek at h
  cases hp : cur.t_proc with
  | none => simp [hp] at h
  | some p =>
    simp only [hp] at h
    split at h
    · simp at h
    · rename_i c1
      split at h
      · simp at h
      · cases hrd : openFileTable_read lim F p fd with
        | error e => simp [hrd] at h
        | ok slot =>
          have hfd : 2 < fd := by
            unfold STDERR_FILENO at c1; omega
          have hlt : fd < (lim.OPEN_MAX : Int) := by
            unfold openFileTable_read at hrd
            split at hrd
            · rename_i hh; exact hh.2
            · simp at hrd
          rw [openFileTable_read_in lim F p fd (by omega) hlt] at hrd
          cases hslot : F.openFileTable p fd.toNat with
          | none => simp [openFileTable_read_in lim F p fd (by omega) hlt, hslot] at h
          | some sf =>
            simp only [openFileTable_read_in lim F p fd (by omega) hlt, hslot] at h
            cases hv : (F.sysTable sf).vn with
            | none => simp [hv] at h
            | some v =>
              simp only [hv] at h
              split at h
              · simp at h
              · cases ha : lock_acquire_ptr o (F.sysTable sf).lock cur with
                | error e => simp [ha] at h
                | ok L1 =>
                  simp only [ha] at h
                  cases hsw : sys_lseek_switch (F.sysTable sf).offset pos whence env with
                  | error err =>
                    simp only [hsw] at h
                    cases hr : lock_release o L1 cur with
                    | error e => simp [hr] at h
                    | ok L2 => simp [hr] at h
                  | ok retval =>
                    simp only [hsw] at h
                    cases hr : lock_release o L1 cur with
                    | error e => simp [hr] at h
                    | ok L2 =>
                      simp only [hr, Except.ok.injEq, Prod.mk.injEq, true_and] at h
                      obtain ⟨e1, e2⟩ := h
                      subst e1
                      exact ⟨p, sf, retval, rfl, hfd, hslot, hsw, rfl,
                        by rw [setEntry_same], e2.symm⟩

/-- C22 (the code at the failing inputs): on an open, seekable descriptor above
STDERR_FILENO whose stored offset is not negative, a sys_lseek with SEEK_CUR and a
negative pos that is larger in size than the offset returns 0 and stores
offset + pos, a negative offset. -/
theorem sys_lseek_cur_stores_negative_offset (lim : Limits) (o : LockOpts) (F : Files)
    (cur : Thread) (p : Nat) (fd : Int) (sf v : Nat) (pos : Int) (env : SeekEnv)
    (hp : cur.t_proc = some p) (hi : cur.t_in_interrupt = false)
    (h1 : 2 < fd) (h2 : fd < (lim.OPEN_MAX : Int))
    (hs : F.openFileTable p fd.toNat = some sf) (hv : (F.sysTable sf).vn = some v)
    (hseek : env.seekable = true) (hl : lock_free o (F.sysTable sf).lock)
    (h0 : 0 ≤ (F.sysTable sf).offset) (hmax : (F.sysTable sf).offset < 9223372036854775808)
    (hpos : -9223372036854775808 ≤ pos) (hneg : (F.sysTable sf).offset + pos < 0) :
    ∃ F' w, sys_lseek lim o F cur fd pos SEEK_CUR env = .ok (F', none, some w) ∧
      F'.openFileTable p fd.toNat = some sf ∧
      (F'.sysTable sf).offset = (F.sysTable sf).offset + pos ∧
      (F'.sysTable sf).offset < 0 := by
  have hsw : sys_lseek_switch (F.sysTable sf).offset pos SEEK_CUR env
      = .ok ((F.sysTable sf).offset + pos) := by
    have e : wrap64 ((F.sysTable sf).offset + pos) = (F.sysTable sf).offset + pos :=
      wrap64_id _ (by omega) (by omega)
    simp [sys_lseek_switch, SEEK_CUR, SEEK_SET, e]
  refine ⟨_, _, sys_lseek_runs lim o F cur p fd sf v pos SEEK_CUR env _ hp hi h1 h2
    (Or.inr rfl) hs hv hseek hl hsw, ?_, ?_, ?_⟩
  · rw [setEntry_slots]; exact hs
  · rw [setEntry_same]
  · rw [setEntry_same]; exact hneg

/-- The state `opened` is what sys_open leaves, and the call returns descriptor 3. -/
theorem opened_ok :
    sys_open lim0 opts_sem sys0.files child_thread false O_RDWR (console_ok 60)
      = .ok (opened, .ok 3) := rfl

/-- Witness of C22: the process at 2000 has opened a file, descriptor 3 with offset 0;
sys_lseek(3, -1, SEEK_CUR) returns 0 and leaves the offset -1. -/
theorem sys_lseek_cur_stores_negative_offset_witness :
    SysRun lim0 opts_sem { kernel := sys0.kernel, files := opened } ∧
    child_thread.t_proc = some 2000 ∧ opened.openFileTable 2000 (3 : Int).toNat = some 3 ∧
    (opened.sysTable 3).vn = some 60 ∧ (opened.sysTable 3).offset = 0 ∧
    ∃ F' w, sys_lseek lim0 opts_sem opened child_thread 3 (-1) SEEK_CUR seek_file
        = .ok (F', none, some w) ∧
      F'.openFileTable 2000 (3 : Int).toNat = some 3 ∧
      (F'.sysTable 3).offset = (opened.sysTable 3).offset + -1 ∧
      (F'.sysTable 3).offset < 0 :=
  ⟨SysRun.files sys0 opened sys0_reachable, rfl, rfl, rfl, rfl,
   sys_lseek_cur_stores_negative_offset lim0 opts_sem opened child_thread 2000 3 3 60 (-1)
     seek_file rfl rfl (by decide) (by decide) rfl rfl rfl
     ⟨_, rfl, rfl, fun _ => ⟨_, rfl, by decide, by decide⟩⟩
     (by show (0 : Int) ≤ 0; decide) (by show (0 : Int) < 9223372036854775808; decide)
     (by decide) (by show (0 : Int) + -1 < 0; decide)⟩

/-! ## The call sys_dup2 -/

/-- The call sys_dup2(fd, fd) with fd in range returns fd and changes nothing. -/
theorem sys_dup2_same_fd (lim : Limits) (o : LockOpts) (F : Files) (cur : Thread) (fd : Int)
    (h1 : 0 ≤ fd) (h2 : fd < (lim.OPEN_MAX : Int)) :
    sys_dup2 lim o F cur fd fd = .ok (F, .ok fd) := by
  have c : ¬ (fd < 0 ∨ fd ≥ (lim.OPEN_MAX : Int)) := by omega
  unfold sys_dup2
  rw [if_neg c, if_neg c, if_pos rfl]

/-- The call sys_close runs to its end on an open descriptor whose lock is free: it
returns 0, empties the slot, lowers the reference count of the entry by one and
clears its vnode when the count reaches 0. -/
theorem sys_close_runs (lim : Limits) (o : LockOpts) (F : Files) (cur : Thread)
    (p : Nat) (fd : Int) (sf v : Nat)
    (hp : cur.t_proc = some p) (hi : cur.t_in_interrupt = false)
    (h1 : 0 ≤ fd) (h2 : fd < (lim.OPEN_MAX : Int))
    (hs : F.openFileTable p fd.toNat = some sf) (hv : (F.sysTable sf).vn = some v)
    (hl : lock_free o (F.sysTable sf).lock) :
    ∃ F1, sys_close lim o F cur fd = .ok (F1, none) ∧
      F1.openFileTable = (fun q d => if q = p ∧ d = fd.toNat then none
                                      else F.openFileTable q d) ∧
      (∀ k, k ≠ sf → F1.sysTable k = F.sysTable k) ∧
      F1.sysTable sf =
        { F.sysTable sf with
          count_refs := (F.sysTable sf).count_refs - 1,
          vn := if (F.sysTable sf).count_refs - 1 = 0 then none else some v } := by
  obtain ⟨L1, ha, hr, hL⟩ := lock_acquire_ptr_release o _ cur hi hl
  have c : ¬ (fd < 0 ∨ fd > (lim.OPEN_MAX : Int)) := by omega
  refine Exists.intro ?w ⟨?a, ?b, ?c, ?d⟩
  case a =>
    unfold sys_close
    simp only [if_neg c, hp, openFileTable_read_in lim F p fd h1 h2, hs, hv, ha,
      openFileTable_write, h1, h2, and_self, if_true, hr]
    exact rfl
  · rfl
  · intro k hk
    simp [Files.setEntry, hk]
  · simp only [Files.setEntry, if_true]
    rw [← hL]

/-- The last lines of sys_dup2 run to their end when slot oldfd holds an entry whose
lock is free: slot newfd gets that entry and its reference count goes up by one. -/
theorem sys_dup2_link_runs (lim : Limits) (o : LockOpts) (F1 : Files) (cur : Thread)
    (p : Nat) (oldfd newfd : Int) (s1 : Nat) (hi : cur.t_in_interrupt = false)
    (ho1 : 0 ≤ oldfd) (ho2 : oldfd < (lim.OPEN_MAX : Int))
    (hn1 : 0 ≤ newfd) (hn2 : newfd < (lim.OPEN_MAX : Int))
    (hs : F1.openFileTable p oldfd.toNat = some s1)
    (hl : lock_free o (F1.sysTable s1).lock) :
    ∃ F', sys_dup2_link lim o F1 cur p oldfd newfd = .ok (F', .ok newfd) ∧
      F'.openFileTable = (fun q d => if q = p ∧ d = newfd.toNat then some s1
                                      else F1.openFileTable q d) ∧
      (∀ k, k ≠ s1 → F'.sysTable k = F1.sysTable k) ∧
      F'.sysTable s1 =
        { F1.sysTable s1 with count_refs := (F1.sysTable s1).count_refs + 1 } := by
  obtain ⟨L1, ha, hr, hL⟩ := lock_acquire_ptr_release o _ cur hi hl
  refine Exists.intro ?w ⟨?a, ?b, ?c, ?d⟩
  case a =>
    unfold sys_dup2_link
    simp only [openFileTable_read_in lim F1 p oldfd ho1 ho2, hs, ha,
      openFileTable_write, hn1, hn2, and_self, if_true, hr]
    exact rfl
  · rfl
  · intro k hk
    simp [Files.setEntry, hk]
  · simp only [Files.setEntry, if_true]
    rw [← hL]

/-- C21 (the code at the failing inputs): when oldfd is an open descriptor and newfd
is in range, different from oldfd and not open, sys_dup2(oldfd, newfd) does not
return: it reads `curproc->openFileTable[newfd]->vn` through the NULL pointer in slot
newfd. -/
theorem sys_dup2_closed_newfd_faults (lim : Limits) (o : LockOpts) (F : Files)
    (cur : Thread) (p : Nat) (oldfd newfd : Int) (sf v : Nat)
    (hp : cur.t_proc = some p)
    (ho1 : 0 ≤ oldfd) (ho2 : oldfd < (lim.OPEN_MAX : Int))
    (hn1 : 0 ≤ newfd) (hn2 : newfd < (lim.OPEN_MAX : Int)) (hne : oldfd ≠ newfd)
    (hs : F.openFileTable p oldfd.toNat = some sf) (hv : (F.sysTable sf).vn = some v)
    (hc : F.openFileTable p newfd.toNat = none) :
    sys_dup2 lim o F cur oldfd newfd = .error .badptr := by
  have c1 : ¬ (oldfd < 0 ∨ oldfd ≥ (lim.OPEN_MAX : Int)) := by omega
  have c2 : ¬ (newfd < 0 ∨ newfd ≥ (lim.OPEN_MAX : Int)) := by omega
  unfold sys_dup2
  simp only [if_neg c1, if_neg c2, if_neg hne, hp,
    openFileTable_read_in lim F p oldfd ho1 ho2, hs, hv,
    openFileTable_read_in lim F p newfd hn1 hn2, hc]

/-- Witness of C21: in the reachable state `sys0` the process at 2000 has the open
descriptor 0 and the free descriptor 3; sys_dup2(0, 3) is the read through NULL. -/
theorem sys_dup2_closed_newfd_faults_witness :
    SysRun lim0 opts_sem sys0 ∧ child_thread.t_proc = some 2000 ∧
    sys0.files.openFileTable 2000 (0 : Int).toNat = some 0 ∧
    (sys0.files.sysTable 0).vn = some 40 ∧
    sys0.files.openFileTable 2000 (3 : Int).toNat = none ∧
    sys_dup2 lim0 opts_sem sys0.files child_thread 0 3 = .error .badptr :=
  ⟨sys0_reachable, rfl, rfl, rfl, rfl,
   sys_dup2_closed_newfd_faults lim0 opts_sem sys0.files child_thread 2000 0 3 0 40 rfl
     (by decide) (by decide) (by decide) (by decide) (by decide) rfl rfl rfl⟩

/-- The part of the claim that holds: when oldfd is open, newfd is in range, different
from oldfd and holds an entry, and the locks are free, sys_dup2(oldfd, newfd) returns
newfd and both slots hold the entry of oldfd.  The reference count of that entry is
one more than before when slot newfd held another entry; when slot newfd held the
same entry the count is what it was, sys_close having lowered it first. -/
theorem sys_dup2_open_newfd (lim : Limits) (o : LockOpts) (F : Files)
    (cur : Thread) (p : Nat) (oldfd newfd : Int) (sf nf v : Nat)
    (hp : cur.t_proc = some p) (hi : cur.t_in_interrupt = false)
    (ho1 : 0 ≤ oldfd) (ho2 : oldfd < (lim.OPEN_MAX : Int))
    (hn1 : 0 ≤ newfd) (hn2 : newfd < (lim.OPEN_MAX : Int)) (hne : oldfd ≠ newfd)
    (hs : F.openFileTable p oldfd.toNat = some sf) (hv : (F.sysTable sf).vn = some v)
    (hn : F.openFileTable p newfd.toNat = some nf)
    (hl : lock_free o (F.sysTable sf).lock)
    (hln : (F.sysTable nf).vn ≠ none → lock_free o (F.sysTable nf).lock) :
    ∃ F', sys_dup2 lim o F cur oldfd newfd = .ok (F', .ok newfd) ∧
      F'.openFileTable p newfd.toNat = some sf ∧
      F'.openFileTable p oldfd.toNat = some sf ∧
      (F'.sysTable sf).count_refs =
        (F.sysTable sf).count_refs + (if nf = sf then 0 else 1) := by
  have c1 : ¬ (oldfd < 0 ∨ oldfd ≥ (lim.OPEN_MAX : Int)) := by omega
  have c2 : ¬ (newfd < 0 ∨ newfd ≥ (lim.OPEN_MAX : Int)) := by omega
  have hd : ¬ (oldfd.toNat = newfd.toNat) := by omega
  unfold sys_dup2
  simp only [if_neg c1, if_neg c2, if_neg hne, hp,
    openFileTable_read_in lim F p oldfd ho1 ho2, hs, hv,
    openFileTable_read_in lim F p newfd hn1 hn2, hn]
  cases hnv : (F.sysTable nf).vn with
  | none =>
    have hk : nf ≠ sf := by
      intro e; rw [e, hv] at hnv; cases hnv
    obtain ⟨F', r, a, _, c⟩ :=
      sys_dup2_link_runs lim o F cur p oldfd newfd sf hi ho1 ho2 hn1 hn2 hs hl
    refine ⟨F', ?_, ?_, ?_, ?_⟩
    · simp only [ne_eq, not_true_eq_false, if_false]
      exact r
    · rw [a]; simp
    · rw [a]; simp [hd, hs]
    · rw [c, if_neg hk]
  | some w =>
    obtain ⟨F1, r1, a1, b1, c1⟩ :=
      sys_close_runs lim o F cur p newfd nf w hp hi hn1 hn2 hn hnv (hln (by rw [hnv]; simp))
    have hs1 : F1.openFileTable p oldfd.toNat = some sf := by
      rw [a1]; simp [hd, hs]
    have hl1 : lock_free o (F1.sysTable sf).lock := by
      by_cases e : sf = nf
      · rw [e, c1]; rw [e] at hl; exact hl
      · rw [b1 sf e]; exact hl
    obtain ⟨F', r, a, _, c⟩ :=
      sys_dup2_link_runs lim o F1 cur p oldfd newfd sf hi ho1 ho2 hn1 hn2 hs1 hl1
    refine ⟨F', ?_, ?_, ?_, ?_⟩
    · simp only [ne_eq, reduceCtorEq, not_false_eq_true, if_true, r1]
      exact r
    · rw [a]; simp
    · rw [a]; simp [hd, hs1]
    · rw [c]
      by_cases e : nf = sf
      · rw [if_pos e, ← e, c1]
        show (F.sysTable nf).count_refs - 1 + 1 = _
        omega
      · rw [if_neg e, b1 sf (fun h => e h.symm)]

/-- In `sys0` the call sys_dup2(0, 1), with descriptor 1 open on another entry,
returns 1: both descriptors then hold entry 0, whose reference count went from 1 to 2,
and entry 1, which descriptor 1 held alone, lost its vnode. -/
theorem dup01_ok :
    sys_dup2 lim0 opts_sem sys0.files child_thread 0 1 = .ok (dup01, .ok 1) ∧
    dup01.openFileTable 2000 0 = some 0 ∧ dup01.openFileTable 2000 1 = some 0 ∧
    (sys0.files.sysTable 0).count_refs = 1 ∧ (dup01.sysTable 0).count_refs = 2 ∧
    (dup01.sysTable 1).vn = none :=
  ⟨rfl, rfl, rfl, rfl, rfl, rfl⟩

/-- The same call once more, descriptor 1 now holding the entry of descriptor 0:
it returns 1 and the reference count is 2 as before. -/
theorem dup01_again :
    ∃ F', sys_dup2 lim0 opts_sem dup01 child_thread 0 1 = .ok (F', .ok 1) ∧
      F'.openFileTable 2000 1 = some 0 ∧ (F'.sysTable 0).count_refs = 2 :=
  ⟨files_of (sys_dup2 lim0 opts_sem dup01 child_thread 0 1), rfl, rfl, rfl⟩

/-! ## An exit under init that meets a waiter -/

/-- After a proc_wait on a process has returned, the second part of a sys__exit of
that process reads a freed record. -/
theorem exit_tail_after_wait (K K' : Kernel) (cur : Thread) (p : Nat) (st : Int)
    (h : proc_wait K cur (some p) = .ok (K', st)) :
    K'.heap p = none ∧ sys__exit_tail K' p = .error .badptr := by
  obtain ⟨r, s, _, _, _, _, hd⟩ := proc_wait_ok K K' cur p st h
  have hfree := (proc_destroy_effect _ K' p { r with p_sem := some s }
    (store_heap_self _ _ _) hd).1
  exact ⟨hfree, sys__exit_tail_freed K' p hfree⟩

/-- C14 (the code at the failing input): in the reachable state `sys0` the process at
address 2000 has identifier 2 and parent_pid 1, and a thread of kproc waits for it.
Its thread runs sys__exit(42) up to and including V(p->p_sem); the waiter then runs:
proc_wait returns 42 and has freed the record; the exiting thread goes on with
`proc_search_pid(p->parent_pid)`, which reads the freed record: sys__exit does not
complete its bookkeeping, although the same call run with no thread in between does. -/
theorem exit_under_init_reads_freed_record :
    SysRun lim0 opts_sem sys0 ∧
    (∃ r, sys0.kernel.heap 2000 = some r ∧ r.p_pid = 2 ∧ r.parent_pid = 1) ∧
    sys__exit_head sys0.kernel child_thread 42 = .ok (exiting, 2000) ∧
    proc_wait exiting parent_thread (some 2000) = .ok (waited, 42) ∧
    SysRun lim0 opts_sem { kernel := waited, files := sys0.files } ∧
    waited.heap 2000 = none ∧
    sys__exit_tail waited 2000 = .error .badptr ∧
    ∃ K', sys__exit sys0.kernel child_thread 42 = .ok K' :=
  ⟨sys0_reachable, ⟨_, rfl, rfl, rfl⟩, rfl, rfl,
   SysRun.wait { kernel := exiting, files := sys0.files } waited parent_thread 2000 42
     (SysRun.exit_head sys0 exiting child_thread 42 2000 sys0_reachable rfl) rfl,
   rfl, rfl, ⟨_, rfl⟩⟩

theorem sys_nosem_created_ok :
    proc_create_runprogram lim0 opts_sem { kernel := booted, files := Files.boot }
      parent_thread { alloc_at 2000 with sem := false }
      (console_ok 40) (console_ok 41) (console_ok 42)
      = .ok (sys_nosem_created, some 2000) := rfl

/-- A second way in which an exit under init stops: sem_create got no storage when
the process was created, which proc_init_waitpid does not test, so p_sem is NULL; the
process has parent_pid 1 and one thread, and its sys__exit fails the assertion
`sem != NULL` of V. -/
theorem exit_null_sem_asserts :
    SysRun lim0 opts_sem sys_nosem ∧
    (∃ r, sys_nosem.kernel.heap 2000 = some r ∧ r.parent_pid = 1 ∧ r.p_numthreads = 1 ∧
      r.p_sem = none) ∧
    sys__exit sys_nosem.kernel child_thread 42 = .error .kassert :=
  ⟨SysRun.attach sys_nosem_created sys_nosem.kernel 2000 { child_thread with t_proc := none }
      child_thread
      (SysRun.runprogram { kernel := booted, files := Files.boot } sys_nosem_created
        parent_thread { alloc_at 2000 with sem := false }
        (console_ok 40) (console_ok 41) (console_ok 42) (some 2000)
        (SysRun.boot (alloc_at 1000) booted booted_ok)
        (fun p hp => by cases hp; rfl) sys_nosem_created_ok)
      rfl,
   ⟨_, rfl, rfl, rfl, rfl⟩, rfl⟩

end OS161
